import Mathlib

/-!
# admin-ecommerce: session guard, session store, HTTP client and collection views

A shallow embedding of the behavioural layer of the admin dashboard
(`src/modules/auth/*`, `src/modules/admin/pages/*`) together with the
properties stated about it.

## Modelling conventions

* JavaScript values are the inductive type `JsVal`.  Objects are association
  lists read by first match, arrays are lists.
* JavaScript numbers are `JsNum`: `NaN`, the two infinities, and exact
  rationals.  Rounding and overflow of IEEE doubles are not modelled, `-0` is
  identified with `0`.
* The language primitives the sources rely on (`Boolean`, `Number`, `String`,
  `||`, `??`, `?.`, `Array.isArray`, `Math.*`, `Array.prototype.sort`) are
  given as executable definitions in the first section; every later definition
  carries the name of the source function or expression it transcribes.
* React state is explicit state passing: a handler is a function from the
  state it closes over to the next state.
-/

namespace AdminEcommerce

/-! ## JavaScript values -/

/-- A JavaScript number: `NaN`, `+Infinity` / `-Infinity`, or a finite value. -/
inductive JsNum where
  | nan
  | inf (neg : Bool)
  | fin (q : ℚ)
deriving DecidableEq

/-- A JavaScript value as it appears in decoded responses and component state.
`func` stands for a built-in function object (the only one the modelled code
can read is `Array.prototype.sort`, through `a?.sort` on an array). -/
inductive JsVal where
  | undefined
  | null
  | bool (b : Bool)
  | num (n : JsNum)
  | str (s : String)
  | arr (xs : List JsVal)
  | obj (fields : List (String × JsVal))
  | func

/-- The number literal `n`. -/
def JsVal.ofNat (n : Nat) : JsVal := .num (.fin n)

/-- The number literal for a rational value. -/
def JsVal.ofRat (q : ℚ) : JsVal := .num (.fin q)

/-! ### Truthiness and the short-circuit operators -/

/-- Truthiness of a number: everything but `0` and `NaN`. -/
def JsNum.truthy : JsNum → Bool
  | .nan => false
  | .inf _ => true
  | .fin q => decide (q ≠ 0)

/-- The conversion `Boolean(v)`, which is also the test made by `if (v)`, `!v`,
`v ? a : b`, `v || w` and `v && w`. -/
def truthy : JsVal → Bool
  | .undefined => false
  | .null => false
  | .bool b => b
  | .num n => n.truthy
  | .str s => decide (s ≠ "")
  | .arr _ => true
  | .obj _ => true
  | .func => true

/-- The test `v == null`: true of `null` and `undefined` only. -/
def isNullish : JsVal → Bool
  | .undefined => true
  | .null => true
  | _ => false

/-- The operator `a || b`. -/
def jsOr (a b : JsVal) : JsVal := if truthy a then a else b

/-- The operator `a ?? b`. -/
def jsNullish (a b : JsVal) : JsVal := if isNullish a then b else a

/-- The test `Array.isArray(v)`. -/
def isArray : JsVal → Bool
  | .arr _ => true
  | _ => false

/-- Length of a string in UTF-16 code units, the value of `s.length`. -/
def utf16Length (s : String) : Nat :=
  (s.data.map (fun c => if c.toNat < 65536 then 1 else 2)).sum

/-- First binding of `key` in an association list; `undefined` when absent. -/
def lookupField (key : String) : List (String × JsVal) → JsVal
  | [] => .undefined
  | (k, v) :: rest => if k = key then v else lookupField key rest

/-- Property read `v.key` / `v[key]` on a non-nullish value.  Objects give
their own field, arrays and strings give `length`, an array gives the inherited
`sort` method; every other read made by the modelled code is `undefined`. -/
def getProp (v : JsVal) (key : String) : JsVal :=
  match v with
  | .obj fields => lookupField key fields
  | .arr xs => if key = "length" then .ofNat xs.length
               else if key = "sort" then .func else .undefined
  | .str s => if key = "length" then .ofNat (utf16Length s) else .undefined
  | _ => .undefined

/-- Optional chaining `v?.key`. -/
def optChain (v : JsVal) (key : String) : JsVal :=
  if isNullish v then .undefined else getProp v key

/-- Assignment `o.key = v` on an association list: replaces the first binding
of `key` in place, or appends a new binding. -/
def setField (key : String) (v : JsVal) : List (String × JsVal) → List (String × JsVal)
  | [] => [(key, v)]
  | (k, w) :: rest => if k = key then (k, v) :: rest else (k, w) :: setField key v rest

/-- Removal `delete o.key`. -/
def deleteField (key : String) (fields : List (String × JsVal)) : List (String × JsVal) :=
  fields.filter (fun kv => decide (kv.1 ≠ key))

/-! ### `String(v)` -/

/-- The decimal digit character of `d < 10`. -/
def digitChar (d : Nat) : Char := Char.ofNat (48 + d % 10)

/-- Decimal digits of `n`, most significant first, onto `acc`; `fuel` bounds
the number of digits. -/
def natDigitsAux : Nat → Nat → List Char → List Char
  | 0, _, acc => acc
  | fuel + 1, n, acc =>
    if n < 10 then digitChar n :: acc
    else natDigitsAux fuel (n / 10) (digitChar (n % 10) :: acc)

/-- Decimal numeral of a natural number. -/
def natDigits (n : Nat) : List Char := natDigitsAux (n + 1) n []

/-- Digits of the fraction `r / den` (with `r < den`), at most `fuel` of them. -/
def fracDigits : Nat → Nat → Nat → List Char
  | 0, _, _ => []
  | fuel + 1, r, den =>
    if r = 0 then []
    else digitChar (r * 10 / den) :: fracDigits fuel (r * 10 % den) den

/-- The conversion `Number::toString` in positional notation: exact for
integers and for decimal fractions of up to twenty places (the exponent
notation JavaScript uses from `1e21` up and below `1e-6` is not produced). -/
def JsNum.toJsString : JsNum → String
  | .nan => "NaN"
  | .inf false => "Infinity"
  | .inf true => "-Infinity"
  | .fin q =>
    let a := q.num.natAbs
    let whole := natDigits (a / q.den)
    let frac := fracDigits 20 (a % q.den) q.den
    let body := if frac.isEmpty then whole else whole ++ '.' :: frac
    String.mk (if q.num < 0 then '-' :: body else body)

mutual
/-- The conversion `String(v)` (also what a template literal applies). -/
def toJsString : JsVal → String
  | .undefined => "undefined"
  | .null => "null"
  | .bool true => "true"
  | .bool false => "false"
  | .num n => n.toJsString
  | .str s => s
  | .arr xs => joinElems xs
  | .obj _ => "[object Object]"
  | .func => "function sort() \x7b [native code] \x7d"
/-- The method `Array.prototype.join(',')`: `null` and `undefined` elements
contribute the empty string. -/
def joinElems : List JsVal → String
  | [] => ""
  | [x] => if isNullish x then "" else toJsString x
  | x :: y :: rest =>
    (if isNullish x then "" else toJsString x) ++ "," ++ joinElems (y :: rest)
end

/-! ### `Number(v)` -/

/-- White space and line terminators stripped by `StringToNumber`. -/
def isJsSpace (c : Char) : Bool :=
  let n := c.toNat
  n = 9 || n = 10 || n = 11 || n = 12 || n = 13 || n = 32 || n = 160 ||
  n = 5760 || (8192 ≤ n && n ≤ 8202) || n = 8232 || n = 8233 || n = 8239 ||
  n = 8287 || n = 12288 || n = 65279

/-- Value of a digit character in the given base (at most 16). -/
def digitValue (base : Nat) (c : Char) : Option Nat :=
  let n := c.toNat
  let v := if 48 ≤ n && n ≤ 57 then n - 48
           else if 97 ≤ n && n ≤ 102 then n - 87
           else if 65 ≤ n && n ≤ 70 then n - 55
           else 16
  if v < base then some v else none

/-- Reads the longest run of digits: the accumulated value, the number of
digits read, and the remaining input. -/
def readDigits (base : Nat) : List Char → Nat → Nat → Nat × Nat × List Char
  | [], acc, cnt => (acc, cnt, [])
  | c :: cs, acc, cnt =>
    match digitValue base c with
    | some d => readDigits base cs (acc * base + d) (cnt + 1)
    | none => (acc, cnt, c :: cs)

/-- A whole string of digits in base 16, 8 or 2 (after `0x`, `0o`, `0b`). -/
def parseRadix (base : Nat) (cs : List Char) : JsNum :=
  match readDigits base cs 0 0 with
  | (v, cnt, []) => if cnt = 0 then .nan else .fin v
  | _ => .nan

/-- The exponent part `e[+-]ddd` of a decimal literal; `none` when malformed. -/
def parseExponent : List Char → Option Int
  | [] => some 0
  | c :: cs =>
    if c = 'e' || c = 'E' then
      let (neg, ds) := match cs with
        | '-' :: r => (true, r)
        | '+' :: r => (false, r)
        | r => (false, r)
      match readDigits 10 ds 0 0 with
      | (v, cnt, []) => if cnt = 0 then none else some (if neg then -(v : Int) else v)
      | _ => none
    else none

/-- An unsigned `StrUnsignedDecimalLiteral`: `Infinity`, or digits with an
optional fraction and exponent. -/
def parseUnsignedDecimal (cs : List Char) : JsNum :=
  if cs = "Infinity".data then .inf false
  else
    let (ip, icnt, r1) := readDigits 10 cs 0 0
    let (fp, fcnt, r2) := match r1 with
      | '.' :: r => readDigits 10 r 0 0
      | r => (0, 0, r)
    if icnt + fcnt = 0 then .nan
    else match parseExponent r2 with
      | none => .nan
      | some e => .fin (((ip * 10 ^ fcnt + fp : Nat) : ℚ) * (10 : ℚ) ^ (e - fcnt))

/-- Negation of a number. -/
def JsNum.neg : JsNum → JsNum
  | .nan => .nan
  | .inf b => .inf (!b)
  | .fin q => .fin (-q)

/-- The conversion `StringToNumber`. -/
def parseNumber (s : String) : JsNum :=
  let cs := ((s.data.dropWhile isJsSpace).reverse.dropWhile isJsSpace).reverse
  match cs with
  | [] => .fin 0
  | '0' :: 'x' :: r => parseRadix 16 r
  | '0' :: 'X' :: r => parseRadix 16 r
  | '0' :: 'o' :: r => parseRadix 8 r
  | '0' :: 'O' :: r => parseRadix 8 r
  | '0' :: 'b' :: r => parseRadix 2 r
  | '0' :: 'B' :: r => parseRadix 2 r
  | '-' :: r => (parseUnsignedDecimal r).neg
  | '+' :: r => parseUnsignedDecimal r
  | r => parseUnsignedDecimal r

/-- The conversion `Number(v)`. -/
def toNumber : JsVal → JsNum
  | .undefined => .nan
  | .null => .fin 0
  | .bool true => .fin 1
  | .bool false => .fin 0
  | .num n => n
  | .str s => parseNumber s
  | .arr xs => parseNumber (joinElems xs)
  | .obj _ => .nan
  | .func => .nan

/-! ### Arithmetic on numbers -/

/-- The comparison `a < b`; false as soon as one side is `NaN`. -/
def JsNum.lt : JsNum → JsNum → Bool
  | .nan, _ => false
  | _, .nan => false
  | .inf true, .inf true => false
  | .inf true, _ => true
  | _, .inf true => false
  | .inf false, _ => false
  | .fin _, .inf false => true
  | .fin a, .fin b => decide (a < b)

/-- The comparison `a <= b`; false as soon as one side is `NaN`. -/
def JsNum.le : JsNum → JsNum → Bool
  | .nan, _ => false
  | _, .nan => false
  | .inf true, _ => true
  | .fin _, .inf true => false
  | .inf false, .inf true => false
  | .inf false, .inf false => true
  | .inf false, .fin _ => false
  | .fin _, .inf false => true
  | .fin a, .fin b => decide (a ≤ b)

/-- The comparison `a > b`. -/
def JsNum.gt (a b : JsNum) : Bool := JsNum.lt b a

/-- The comparison `a >= b`. -/
def JsNum.ge (a b : JsNum) : Bool := JsNum.le b a

/-- The sum `a + b` of two numbers. -/
def JsNum.add : JsNum → JsNum → JsNum
  | .nan, _ => .nan
  | _, .nan => .nan
  | .inf s, .inf t => if s = t then .inf s else .nan
  | .inf s, .fin _ => .inf s
  | .fin _, .inf t => .inf t
  | .fin a, .fin b => .fin (a + b)

/-- The difference `a - b`. -/
def JsNum.sub (a b : JsNum) : JsNum := JsNum.add a b.neg

/-- The quotient `a / b`; a zero divisor counts as `+0`. -/
def JsNum.div : JsNum → JsNum → JsNum
  | .nan, _ => .nan
  | _, .nan => .nan
  | .inf _, .inf _ => .nan
  | .inf s, .fin b => .inf (if b < 0 then !s else s)
  | .fin _, .inf _ => .fin 0
  | .fin a, .fin b =>
    if b = 0 then (if a = 0 then .nan else .inf (decide (a < 0)))
    else .fin (a / b)

/-- The function `Math.ceil`. -/
def mathCeil : JsNum → JsNum
  | .fin q => .fin (Int.ceil q : ℤ)
  | n => n

/-- The function `Math.max` of two arguments. -/
def mathMax : JsNum → JsNum → JsNum
  | .nan, _ => .nan
  | _, .nan => .nan
  | a, b => if JsNum.lt a b then b else a

/-- The function `Math.min` of two arguments. -/
def mathMin : JsNum → JsNum → JsNum
  | .nan, _ => .nan
  | _, .nan => .nan
  | a, b => if JsNum.lt b a then b else a

/-- The operator `a || b` on two numbers. -/
def JsNum.or (a b : JsNum) : JsNum := if a.truthy then a else b

/-- A number is an integer (`Number.isInteger`). -/
def JsNum.isInteger : JsNum → Bool
  | .fin q => decide (q.den = 1)
  | _ => false

/-! ### `Array.prototype.sort` -/

/-- The order `Array.prototype.sort(cmp)` sorts by: `a` may stay before `b`
unless `cmp(a, b) > 0` (a `NaN` result counts as `0`). -/
def sortKeeps (cmp : JsVal → JsVal → JsNum) (a b : JsVal) : Prop :=
  JsNum.gt (cmp a b) (.fin 0) = false

instance sortKeepsDecidable (cmp : JsVal → JsVal → JsNum) : DecidableRel (sortKeeps cmp) :=
  fun a b => inferInstanceAs (Decidable (JsNum.gt (cmp a b) (.fin 0) = false))

/-- The test `v === undefined`. -/
def isUndefined : JsVal → Bool
  | .undefined => true
  | _ => false

/-- The method `xs.sort(cmp)`: `undefined` elements go last without being
compared, the other elements are sorted stably by the comparator. -/
def arraySort (cmp : JsVal → JsVal → JsNum) (xs : List JsVal) : List JsVal :=
  (xs.filter (fun x => !isUndefined x)).insertionSort (sortKeeps cmp)
    ++ xs.filter isUndefined

/-! ## `modules/auth/apiClient.js` -/

/-- The two places outside React state that hold the bearer token: the
`localStorage` entry `"token"` and `api.defaults.headers.common.Authorization`
(`none` when the entry or header is absent). -/
structure ClientState where
  storedToken : Option String
  defaultAuthorization : Option String
deriving DecidableEq

/-- The read `localStorage.getItem("token")`: the stored string or `null`. -/
def getItemToken (c : ClientState) : JsVal :=
  match c.storedToken with
  | some s => .str s
  | none => .null

/-- The function `setAuthToken(token)`. -/
def setAuthToken (token : JsVal) (_c : ClientState) : ClientState :=
  if truthy token then
    { defaultAuthorization := some ("Bearer " ++ toJsString token),
      storedToken := some (toJsString token) }
  else
    { defaultAuthorization := none, storedToken := none }

/-- An outgoing request config as the interceptor sees it: its `headers`
object (`none` when the field is not set) and all its other fields. -/
structure RequestConfig where
  headers : Option (List (String × JsVal))
  others : List (String × JsVal)

/-- The request interceptor registered with `api.interceptors.request.use`. -/
def requestInterceptor (c : ClientState) (config : RequestConfig) : RequestConfig :=
  let token := getItemToken c
  if truthy token then
    let headers := config.headers.getD []
    { config with
      headers := some (setField "Authorization" (.str ("Bearer " ++ toJsString token)) headers) }
  else config

/-- A client created by `createClient(url, key)`. -/
structure SupabaseClient where
  url : String
  key : String
deriving DecidableEq

/-- Module-level bindings of `apiClient.js` for object storage.  `supabase` is
the `export const` bound once at load; `supabaseInternal` is the `let` that
`setSupabaseConfig` reassigns. -/
structure SupabaseModule where
  SUPABASE_URL : String
  SUPABASE_ANON_KEY : String
  SUPABASE_BUCKET : String
  supabaseInternal : Option SupabaseClient
  supabase : Option SupabaseClient
deriving DecidableEq

/-- Module evaluation, from the values the environment resolves to (the empty
string when a setting is absent). -/
def loadSupabaseModule (envUrl envKey envBucket : String) : SupabaseModule :=
  let bucket := if envBucket ≠ "" then envBucket else "interview"
  let client : Option SupabaseClient :=
    if envUrl ≠ "" ∧ envKey ≠ "" then some ⟨envUrl, envKey⟩ else none
  { SUPABASE_URL := envUrl, SUPABASE_ANON_KEY := envKey, SUPABASE_BUCKET := bucket,
    supabaseInternal := client, supabase := client }

/-- The derived export `isSupabaseConfigured`. -/
def isSupabaseConfigured (m : SupabaseModule) : Bool := m.supabase.isSome

/-- The function `setSupabaseConfig({ url, anonKey, bucket })`; an argument
that is not a string leaves its binding as it was. -/
def setSupabaseConfig (url anonKey bucket : JsVal) (m : SupabaseModule) : SupabaseModule :=
  let u := match url with | .str s => s | _ => m.SUPABASE_URL
  let k := match anonKey with | .str s => s | _ => m.SUPABASE_ANON_KEY
  let b := match bucket with | .str s => s | _ => m.SUPABASE_BUCKET
  { m with
    SUPABASE_URL := u, SUPABASE_ANON_KEY := k, SUPABASE_BUCKET := b,
    supabaseInternal := if u ≠ "" ∧ k ≠ "" then some ⟨u, k⟩ else m.supabaseInternal }

/-- A `File` picked in a form. -/
structure JsFile where
  name : String
  type : String
  size : Nat

/-- Ways `uploadImageViaSignedUrl` fails: its own three errors, the rejection
of `POST /uploads/sign`, and the error object returned by the storage. -/
inductive UploadError where
  | maxSize
  | notConfigured
  | signRequest (e : JsVal)
  | noSignedToken
  | storage (e : JsVal)

/-- A request sent during an upload. -/
inductive NetCall where
  | signPost (fileName contentType : String)
  | storageUpload (client : SupabaseClient) (bucket objectPath token : JsVal)
      (contentType : String)

/-- What the outside world answers during one upload: the outcome of
`POST /uploads/sign` (rejection, or the response body), the `error` field of
the storage upload result, and the `data` field of `getPublicUrl`. -/
structure UploadWorld where
  signResponse : Except JsVal JsVal
  uploadError : JsVal
  publicUrlData : JsVal → JsVal → JsVal

/-- The upload size limit `5 * 1024 * 1024`. -/
def maxUploadBytes : Nat := 5 * 1024 * 1024

/-- The function `uploadImageViaSignedUrl(file)`: its outcome (the returned
value, or the error thrown) and the requests it sent, in order. -/
def uploadImageViaSignedUrl (m : SupabaseModule) (w : UploadWorld) (file : Option JsFile) :
    Except UploadError JsVal × List NetCall :=
  match file with
  | none => (.ok .null, [])
  | some file =>
    if file.size > maxUploadBytes then (.error .maxSize, [])
    else match m.supabase with
      | none => (.error .notConfigured, [])
      | some supabase =>
        let contentType := if file.type ≠ "" then file.type else "application/octet-stream"
        let call1 := NetCall.signPost file.name contentType
        match w.signResponse with
        | .error e => (.error (.signRequest e), [call1])
        | .ok signData =>
          let d := jsOr signData (.obj [])
          let token := getProp d "token"
          let objectPath := getProp d "objectPath"
          let publicUrl := getProp d "publicUrl"
          let bucket := getProp d "bucket"
          if !truthy token || !truthy objectPath then (.error .noSignedToken, [call1])
          else
            let targetBucket := jsOr (jsOr bucket (.str m.SUPABASE_BUCKET)) (.str "interview")
            let call2 := NetCall.storageUpload supabase targetBucket objectPath token contentType
            if truthy w.uploadError then (.error (.storage w.uploadError), [call1, call2])
            else
              let data := w.publicUrlData targetBucket objectPath
              (.ok (jsOr (jsOr (optChain data "publicUrl") publicUrl) (.str "")), [call1, call2])

/-! ## `modules/auth/AuthContext.jsx` -/

/-- State of `AuthProvider` (`token`, `user`, `loading`) together with the
client state its handlers write through `setAuthToken`. -/
structure AuthState where
  token : JsVal
  user : JsVal
  loading : Bool
  client : ClientState

/-- Own enumerable properties copied by an object spread `{...v}`. -/
def spreadFields : JsVal → List (String × JsVal)
  | .obj fields => fields
  | .arr xs => xs.enum.map (fun p => (toString p.1, p.2))
  | .str s => s.data.enum.map (fun p => (toString p.1, JsVal.str (String.mk [p.2])))
  | _ => []

/-- Initial state of `AuthProvider`: `token` is
`localStorage.getItem("token") || null`, `user` is `null`, `loading` is true. -/
def AuthProvider.init (c : ClientState) : AuthState :=
  { token := jsOr (getItemToken c) .null, user := .null, loading := true, client := c }

/-- The effect of `AuthProvider` that runs on mount and after `token` changes. -/
def AuthProvider.effect (s : AuthState) : AuthState :=
  if truthy s.token then
    { s with
      client := setAuthToken s.token s.client,
      user := .obj (setField "isAdmin" (.bool true) (spreadFields (jsOr s.user (.obj [])))),
      loading := false }
  else
    { s with client := setAuthToken .null s.client, user := .null, loading := false }

/-- The two values `signin` resolves to. -/
inductive SignInResult where
  | userRegisteredFalse
  | success
deriving DecidableEq

/-- The callback `signin(email, password)`, given the outcome of
`api.post("/auth/signin", ...)`: a rejection `e`, or the response body. -/
def signin (response : Except JsVal JsVal) (s : AuthState) :
    Except JsVal (SignInResult × AuthState) :=
  match response with
  | .error e => .error e
  | .ok data =>
    match optChain data "userRegistered" with
    | .bool false => .ok (.userRegisteredFalse, s)
    | _ =>
      let t := optChain data "token"
      if truthy t then
        .ok (.success,
          { s with
            token := t,
            client := setAuthToken t s.client,
            user := .obj (setField "isAdmin" (.bool true) (spreadFields (optChain data "user"))) })
      else .ok (.success, s)

/-- The callback `signout()`. -/
def signout (s : AuthState) : AuthState :=
  { s with token := .null, client := setAuthToken .null s.client, user := .null }

/-- The part of the context value that `ProtectedRoute` reads. -/
structure AuthContextValue where
  isAuthenticated : Bool
  isAdmin : Bool
  loading : Bool
deriving DecidableEq

/-- The context value built by `AuthProvider` and returned by `useAuth()`. -/
def useAuth (s : AuthState) : AuthContextValue :=
  { isAuthenticated := truthy s.token, isAdmin := truthy s.token, loading := s.loading }

/-- Session states reachable from startup: the initial state for any content
of persisted storage, closed under the token effect, `signin` (with any
outcome of the request) and `signout`. -/
inductive AuthReachable : AuthState → Prop where
  | init (c : ClientState) : AuthReachable (AuthProvider.init c)
  | effect {s : AuthState} : AuthReachable s → AuthReachable (AuthProvider.effect s)
  | signin {s s1 : AuthState} {r : SignInResult} (response : Except JsVal JsVal) :
      AuthReachable s → signin response s = .ok (r, s1) → AuthReachable s1
  | signout {s : AuthState} : AuthReachable s → AuthReachable (signout s)

/-- The token of a session is `null` or a truthy value. -/
def TokenWellFormed (s : AuthState) : Prop := s.token = .null ∨ truthy s.token = true

/-! ## `modules/auth/ProtectedRoute.jsx` -/

/-- What `ProtectedRoute` returns: `null`, a `<Navigate>` element with its
`to` (here `target`), `replace` and `state.from` props (`fromLocation = none`
when no `state` is passed), or its children. -/
inductive Rendered (Loc Children : Type) where
  | nothing
  | navigate (target : String) (replace : Bool) (fromLocation : Option Loc)
  | children (c : Children)
deriving DecidableEq

/-- The component `ProtectedRoute({ children, requireAdmin })`, as a function
of the context value and the current location. -/
def ProtectedRoute {Loc Children : Type} (auth : AuthContextValue) (location : Loc)
    (children : Children) (requireAdmin : Bool) : Rendered Loc Children :=
  if auth.loading then .nothing
  else if !auth.isAuthenticated then .navigate "/login" true (some location)
  else if requireAdmin && !auth.isAdmin then .navigate "/login" true none
  else .children children

/-! ## `modules/admin/pages/*`: list queries and pagination -/

/-- A response of the HTTP client: the decoded body `res.data` and the
`res.headers` object. -/
structure AxiosResponse where
  data : JsVal
  headers : JsVal

/-- The object a list `queryFn` resolves to.  `pages` is `undefined` for the
Categories query, which returns `{ items, total }` only. -/
structure ListResult where
  items : JsVal
  total : JsVal
  pages : JsVal

/-- Pagination state of a view: the `page` and `limit` state variables. -/
structure PageState where
  page : JsNum
  limit : JsNum
deriving DecidableEq

/-- Initial pagination state `useState(1)`, `useState(10)`. -/
def PageState.init : PageState := { page := .fin 1, limit := .fin 10 }

/-- The three `<option>` entries of the page-size selector. -/
inductive LimitOption where
  | ten
  | twenty
  | fifty
deriving DecidableEq

/-- The `value` a selected `<option>` reports in `e.target.value`. -/
def LimitOption.value : LimitOption → String
  | .ten => "10"
  | .twenty => "20"
  | .fifty => "50"

/-- The `onChange` handler of the page-size selector (the same in the three
views): `setPage(1); setLimit(Number(e.target.value))`. -/
def onLimitChange (o : LimitOption) (_s : PageState) : PageState :=
  { page := .fin 1, limit := toNumber (.str o.value) }

/-- The `onClick` updater of the Previous button (the same in the three
views): `setPage((p) => Math.max(1, p - 1))`. -/
def onPrevious (s : PageState) : PageState :=
  { s with page := mathMax (.fin 1) (JsNum.sub s.page (.fin 1)) }

/-- The `disabled` prop of the Previous button: `isLoading || page <= 1`. -/
def previousDisabled (isLoading : Bool) (s : PageState) : Bool :=
  isLoading || JsNum.le s.page (.fin 1)

/-- The `onClick` updater of a Next button for a page count `n`:
`setPage((p) => (n ? Math.min(n, p + 1) : p + 1))`. -/
def onNext (n : JsNum) (s : PageState) : PageState :=
  { s with page := if n.truthy then mathMin n (JsNum.add s.page (.fin 1))
                   else JsNum.add s.page (.fin 1) }

/-- The `disabled` prop of a Next button for a page count `n`:
`isLoading || (n ? page >= n : false)`. -/
def nextDisabled (n : JsNum) (isLoading : Bool) (s : PageState) : Bool :=
  isLoading || (if n.truthy then JsNum.ge s.page n else false)

namespace Categories

/-- The `queryFn` of the `["categories", page, limit]` query, applied to the
response of `GET /shop/categories`. -/
def queryFn (res : AxiosResponse) : ListResult :=
  let items :=
    if isArray res.data then res.data
    else jsOr (jsOr (optChain res.data "items") (optChain res.data "data")) (.arr [])
  let totalFromHeaders :=
    JsNum.or (toNumber (optChain res.headers "x-total-count")) (.fin 0)
  let totalFromBody :=
    JsNum.or
      (JsNum.or (toNumber (optChain res.data "total"))
        (toNumber (optChain (optChain res.data "pagination") "total")))
      (.fin 0)
  let total := jsOr (jsOr (.num totalFromBody) (.num totalFromHeaders)) (getProp items "length")
  { items := items, total := total, pages := .undefined }

/-- The binding `categories`: `Array.isArray(data?.items) ? data.items : []`. -/
def categories (data : Option ListResult) : List JsVal :=
  match data with
  | some d => (match d.items with | .arr xs => xs | _ => [])
  | none => []

/-- The binding `totalCount`: `Number(data?.total || 0)`. -/
def totalCount (data : Option ListResult) : JsNum :=
  toNumber (jsOr (match data with | some d => d.total | none => .undefined) (.ofNat 0))

/-- The binding `totalPages`:
`Math.max(1, Math.ceil((totalCount || 0) / (limit || 1)))`. -/
def totalPages (data : Option ListResult) (limit : JsNum) : JsNum :=
  mathMax (.fin 1)
    (mathCeil (JsNum.div (JsNum.or (totalCount data) (.fin 0)) (JsNum.or limit (.fin 1))))

/-- The sort key computed inside the comparator:
`Number(a?.sortId ?? a?.sort ?? 0)`. -/
def sortKey (a : JsVal) : JsNum :=
  toNumber (jsNullish (jsNullish (optChain a "sortId") (optChain a "sort")) (.ofNat 0))

/-- The comparator passed to `sort`: `sa - sb`. -/
def compareSort (a b : JsVal) : JsNum := JsNum.sub (sortKey a) (sortKey b)

/-- The binding `filtered`, the sequence the table renders:
`categories.sort(compareSort)`. -/
def filtered (data : Option ListResult) : List JsVal :=
  arraySort compareSort (categories data)

/-- The page count the Next button of the Categories view uses: `totalPages`,
for the list data of the current render (absent, or what `queryFn` made of a
response) and the current `limit`. -/
def pageCount (res : Option AxiosResponse) (s : PageState) : JsNum :=
  totalPages (res.map queryFn) s.limit

end Categories

namespace Products

/-- The `queryFn` of the `["products", page, limit]` query, applied to the
response of `GET /shop/products`. -/
def queryFn (res : AxiosResponse) : ListResult :=
  { items := if isArray res.data then res.data else jsOr (optChain res.data "data") (.arr []),
    total := .num (toNumber (jsOr (optChain res.data "total") (.ofNat 0))),
    pages := .num (toNumber (jsOr (optChain res.data "pages") (.ofNat 1))) }

/-- The binding `products`: `Array.isArray(listData?.items) ? listData.items : []`. -/
def products (listData : Option ListResult) : List JsVal :=
  match listData with
  | some d => (match d.items with | .arr xs => xs | _ => [])
  | none => []

/-- The binding `total`: `Number(listData?.total || 0)`. -/
def total (listData : Option ListResult) : JsNum :=
  toNumber (jsOr (match listData with | some d => d.total | none => .undefined) (.ofNat 0))

/-- The binding `pages`: `Number(listData?.pages || 1)`. -/
def pages (listData : Option ListResult) : JsNum :=
  toNumber (jsOr (match listData with | some d => d.pages | none => .undefined) (.ofNat 1))

/-- The page count the Next button of the Products view uses: `pages`, for the
list data of the current render (absent, or what `queryFn` made of a response). -/
def pageCount (res : Option AxiosResponse) (_s : PageState) : JsNum :=
  pages (res.map queryFn)

end Products

namespace Orders

/-- The `queryFn` of the `["orders", page, limit]` query, applied to the
response of `GET /shop/orders`. -/
def queryFn (res : AxiosResponse) : ListResult :=
  { items := if isArray res.data then res.data else jsOr (optChain res.data "data") (.arr []),
    total := .num (toNumber (jsOr (optChain res.data "total") (.ofNat 0))),
    pages := .num (toNumber (jsOr (optChain res.data "pages") (.ofNat 1))) }

/-- The binding `orders`: `Array.isArray(data?.items) ? data.items : []`. -/
def orders (data : Option ListResult) : List JsVal :=
  match data with
  | some d => (match d.items with | .arr xs => xs | _ => [])
  | none => []

/-- The binding `total`: `Number(data?.total || 0)`. -/
def total (data : Option ListResult) : JsNum :=
  toNumber (jsOr (match data with | some d => d.total | none => .undefined) (.ofNat 0))

/-- The binding `pages`: `Number(data?.pages || 1)`. -/
def pages (data : Option ListResult) : JsNum :=
  toNumber (jsOr (match data with | some d => d.pages | none => .undefined) (.ofNat 1))

/-- The page count the Next button of the Orders view uses: `pages`, for the
list data of the current render (absent, or what `queryFn` made of a response). -/
def pageCount (res : Option AxiosResponse) (_s : PageState) : JsNum :=
  pages (res.map queryFn)

end Orders

/-- One pagination action of a view whose Next button uses `pageCount`: a
click on Previous or Next while the button is not disabled, or a choice in the
page-size selector.  The response behind the list data of the render is
arbitrary among those whose page count satisfies `admissible`. -/
inductive ViewStep (pageCount : Option AxiosResponse → PageState → JsNum)
    (admissible : JsNum → Prop) : PageState → PageState → Prop where
  | previous (isLoading : Bool) (s : PageState) :
      previousDisabled isLoading s = false → ViewStep pageCount admissible s (onPrevious s)
  | next (res : Option AxiosResponse) (isLoading : Bool) (s : PageState) :
      admissible (pageCount res s) →
      nextDisabled (pageCount res s) isLoading s = false →
      ViewStep pageCount admissible s (onNext (pageCount res s) s)
  | changeLimit (o : LimitOption) (s : PageState) :
      ViewStep pageCount admissible s (onLimitChange o s)

/-- No restriction on the responses. -/
def anyPageCount : JsNum → Prop := fun _ => True

/-- The responses whose page count is an integer. -/
def integerPageCount : JsNum → Prop := fun n => n.isInteger = true

/-- States reached from the initial pagination state `(1, 10)` by a sequence
of steps. -/
inductive ReachableBy (step : PageState → PageState → Prop) : PageState → Prop where
  | init : ReachableBy step PageState.init
  | step {s t : PageState} : ReachableBy step s → step s t → ReachableBy step t

/-- The page is an integer that is at least 1. -/
def PageIsPositiveInteger (s : PageState) : Prop := ∃ n : ℤ, 1 ≤ n ∧ s.page = .fin n

/-- The page is a finite number that is at least 1. -/
def PageIsAtLeastOne (s : PageState) : Prop := ∃ q : ℚ, 1 ≤ q ∧ s.page = .fin q

/-- The limit is one of the three page sizes offered. -/
def LimitIsOffered (s : PageState) : Prop :=
  s.limit = .fin 10 ∨ s.limit = .fin 20 ∨ s.limit = .fin 50

/-- A character is one of the ten decimal digits. -/
def IsDigitChar (c : Char) : Prop := ∃ d, d < 10 ∧ c = digitChar d

/-- The category of the scenario: `{ id: 1, name: "Shoes", sortId: 2 }`. -/
def shoesCategory : JsVal :=
  .obj [("id", .ofNat 1), ("name", .str "Shoes"), ("sortId", .ofNat 2)]

/-- The response body of the scenario: `{ items: [shoesCategory], total: 1 }`. -/
def shoesBody : JsVal := .obj [("items", .arr [shoesCategory]), ("total", .ofNat 1)]

/-- A category that carries only `sortId: n`. -/
def categoryWithSortId (n : Nat) : JsVal := .obj [("sortId", .ofNat n)]

/-- A list response whose body is `{ data: [], total: 25, pages: 2.5 }`. -/
def fractionalPagesResponse : AxiosResponse :=
  ⟨.obj [("data", .arr []), ("total", .ofNat 25), ("pages", .ofRat (5 / 2))], .obj []⟩

/-! ## Asset upload, continued: the parts of one upload -/

/-- The content type sent with a file: `file.type || "application/octet-stream"`. -/
def uploadContentType (file : JsFile) : String :=
  if file.type ≠ "" then file.type else "application/octet-stream"

/-- The ticket read from the sign response: `signRes.data || {}`. -/
def signedTicket (signData : JsVal) : JsVal := jsOr signData (.obj [])

/-- The binding `targetBucket`: `bucket || SUPABASE_BUCKET || "interview"`. -/
def targetBucket (m : SupabaseModule) (ticket : JsVal) : JsVal :=
  jsOr (jsOr (getProp ticket "bucket") (.str m.SUPABASE_BUCKET)) (.str "interview")

/-- The value returned after a stored upload:
`data?.publicUrl || publicUrl || ""`, where `data` is what `getPublicUrl`
gives for `objectPath` in the target bucket. -/
def resolvedPublicUrl (m : SupabaseModule) (w : UploadWorld) (ticket : JsVal) : JsVal :=
  jsOr
    (jsOr (optChain (w.publicUrlData (targetBucket m ticket) (getProp ticket "objectPath"))
      "publicUrl") (getProp ticket "publicUrl"))
    (.str "")

/-! ## Session store, continued: outcomes of `signin` and header consistency -/

/-- The session after a call of `signin` has settled: the state the call
produced, or the state before it when the call threw (the request is awaited
before any setter runs). -/
def sessionAfterSignin (response : Except JsVal JsVal) (s : AuthState) : AuthState :=
  match signin response s with
  | .ok (_, s1) => s1
  | .error _ => s

/-- A session is signed out: no token, no user, no default `Authorization`
header and no persisted token. -/
def SignedOut (s : AuthState) : Prop :=
  s.token = .null ∧ s.user = .null ∧ s.client.defaultAuthorization = none
    ∧ s.client.storedToken = none

/-- The default `Authorization` header is present exactly when a token is
persisted, and is then `"Bearer "` followed by the persisted token. -/
def AuthHeaderConsistent (c : ClientState) : Prop :=
  (c.defaultAuthorization.isSome = c.storedToken.isSome)
    ∧ ∀ t, c.storedToken = some t → c.defaultAuthorization = some ("Bearer " ++ t)

/-! ## `modules/auth/LoginPage.jsx` -/

/-- A router location (`useLocation()`). -/
structure Location where
  pathname : String
  search : String
  hash : String
  state : JsVal
  key : String

/-- A location as the JavaScript object stored under `state.from`. -/
def Location.toJs (l : Location) : JsVal :=
  .obj [("pathname", .str l.pathname), ("search", .str l.search), ("hash", .str l.hash),
    ("state", l.state), ("key", .str l.key)]

/-- The location the router enters when a `<Navigate to replace state>`
element is rendered: `state` is `{ from: location }` when the element passes
one and `null` otherwise.  Nothing is entered for `null` or for children. -/
def Rendered.destination {Children : Type} (r : Rendered Location Children) (key : String) :
    Option Location :=
  match r with
  | .navigate target _ fromLocation =>
    some { pathname := target, search := "", hash := "",
           state := (match fromLocation with
                     | some l => .obj [("from", l.toJs)]
                     | none => .null),
           key := key }
  | _ => none

/-- A call `navigate(target, { replace })`. -/
structure Navigation where
  target : JsVal
  replace : Bool

namespace LoginPage

/-- The message shown when the account is not registered. -/
def accountNotFoundMessage : String := "Account not found. Please register first."

/-- The message shown when `signin` throws. -/
def invalidCredentialsMessage : String := "Invalid credentials"

/-- The handler `onSubmit(values)`, given `location.state`, the outcome of
`await signin(...)` (the value it resolved to, or the error it threw) and the
`serverError` state: the new `serverError` and the navigation made, if any. -/
def onSubmit (locationState : JsVal) (outcome : Except JsVal SignInResult)
    (_serverError : String) : String × Option Navigation :=
  match outcome with
  | .ok .userRegisteredFalse => (accountNotFoundMessage, none)
  | .ok .success =>
    let dest := jsOr (optChain (optChain locationState "from") "pathname") (.str "/admin")
    ("", some { target := dest, replace := true })
  | .error _ => (invalidCredentialsMessage, none)

/-- One submission of the login form: `signin` is run on the session with the
given outcome of the request, and `onSubmit` continues with what it returned.
The result is the new `serverError`, the navigation made, and the session. -/
def submit (locationState : JsVal) (response : Except JsVal JsVal) (s : AuthState)
    (serverError : String) : String × Option Navigation × AuthState :=
  let r := onSubmit locationState ((signin response s).map Prod.fst) serverError
  (r.1, r.2, sessionAfterSignin response s)

end LoginPage

/-! ## `modules/admin/pages/*`: create and update forms -/

/-- The method `String.prototype.trim`. -/
def jsTrim (s : String) : String :=
  String.mk ((s.data.dropWhile isJsSpace).reverse.dropWhile isJsSpace).reverse

/-- The call `v?.trim()`: `undefined` for a nullish `v`, the trimmed string for
a string, and `none` when the call throws a `TypeError` (any other value has no
`trim` method). -/
def optTrim : JsVal → Option JsVal
  | .str s => some (.str (jsTrim s))
  | .undefined => some .undefined
  | .null => some .undefined
  | _ => none

/-- The string a controlled `<input value=...>` holds for a state value. -/
def inputValue : JsVal → String
  | .undefined => ""
  | .null => ""
  | .func => ""
  | v => toJsString v

/-- The replacement `value.replace(/[^0-9.]/g, "")` of the price inputs. -/
def keepDigitsAndDots (value : String) : String :=
  String.mk (value.data.filter (fun c => c.isDigit || c = '.'))

/-- A call a submit handler makes on a mutation: `addMutation.mutate(payload)`
or `updateMutation.mutate({ id, payload })`. -/
inductive MutationCall where
  | create (payload : JsVal)
  | update (id : JsVal) (payload : JsVal)

/-- What one run of a submit handler did: the view state it left, the
requests the upload flow sent, the mutation it invoked (if any), and whether
it ended by throwing. -/
structure SubmitResult (σ : Type) where
  state : σ
  requests : List NetCall
  mutation : Option MutationCall
  threw : Bool

/-- The message both submit handlers set when the upload throws. -/
def uploadFailedMessage : String := "Failed to upload image. Please try a smaller file."

namespace Categories

/-- The `formValues` state of the Categories view. -/
structure FormValues where
  name : JsVal
  visible : Bool
  imageFile : Option JsFile
  existingImageUrl : JsVal

/-- The modal and form state of the Categories view. -/
structure View where
  isModalOpen : Bool
  editingCategoryId : JsVal
  formValues : FormValues
  uploadError : String

/-- The message rendered when `addCategoryMutation` or
`updateCategoryMutation` is in error. -/
def mutationErrorMessage : String := "Failed to add category"

/-- Initial state of the view (`useState` initialisers). -/
def View.init : View :=
  { isModalOpen := false, editingCategoryId := .null,
    formValues := { name := .str "", visible := true, imageFile := none,
                    existingImageUrl := .str "" },
    uploadError := "" }

/-- The `onClick` handler of the Add Category button. -/
def openAddModal (v : View) : View :=
  { v with
    editingCategoryId := .null,
    formValues := { name := .str "", visible := true, imageFile := none,
                    existingImageUrl := .undefined },
    isModalOpen := true }

/-- The `onClick` handler of a row's Edit button. -/
def openEditModal (cat : JsVal) (v : View) : View :=
  { v with
    editingCategoryId := jsOr (jsOr (optChain cat "id") (optChain cat "_id")) .null,
    formValues :=
      { name := jsOr (optChain cat "name") (.str ""),
        visible := truthy (jsNullish (jsNullish (optChain cat "visible") (optChain cat "isVisible"))
          (match optChain cat "status" with
           | .str "Visible" => .bool true
           | _ => .bool false)),
        imageFile := none,
        existingImageUrl := jsOr (optChain cat "imageUrl") (.str "") },
    isModalOpen := true }

/-- The `onChange` handler of the name input. -/
def onNameChange (value : String) (v : View) : View :=
  { v with formValues := { v.formValues with name := .str value } }

/-- The `onChange` handler of the file input (`none` when no file is chosen). -/
def onFileChange (file : Option JsFile) (v : View) : View :=
  { v with formValues := { v.formValues with imageFile := file } }

/-- The browser lets the form submit only when its `required` input, the
name, is not empty. -/
def requiredFilled (v : View) : Bool := decide (inputValue v.formValues.name ≠ "")

/-- The handler `submitNewCategory(e)`, for the storage module state and the
answers of the outside world during the upload. -/
def submitNewCategory (m : SupabaseModule) (w : UploadWorld) (v : View) : SubmitResult View :=
  match optTrim v.formValues.name with
  | none => { state := v, requests := [], mutation := none, threw := true }
  | some name =>
    let payload : List (String × JsVal) :=
      [("name", name), ("visible", .bool v.formValues.visible)]
    let v1 := { v with uploadError := "" }
    let invoke (payload : List (String × JsVal)) : Option MutationCall :=
      if truthy v.editingCategoryId then some (.update v.editingCategoryId (.obj payload))
      else some (.create (.obj payload))
    match v.formValues.imageFile with
    | none => { state := v1, requests := [], mutation := invoke payload, threw := false }
    | some file =>
      match uploadImageViaSignedUrl m w (some file) with
      | (.error _, requests) =>
        { state := { v1 with uploadError := uploadFailedMessage }, requests := requests,
          mutation := none, threw := false }
      | (.ok imageUrl, requests) =>
        let payload1 := if truthy imageUrl then setField "imageUrl" imageUrl payload else payload
        { state := v1, requests := requests, mutation := invoke payload1, threw := false }

end Categories

namespace Products

/-- The `formValues` state of the Products view.  `price`, `discountedPrice`
and `categoryid` are only ever written with strings. -/
structure FormValues where
  name : JsVal
  price : String
  discountedPrice : String
  description : JsVal
  categoryid : String
  visible : Bool
  isInStock : Bool
  imageFile : Option JsFile
  existingImageUrl : JsVal

/-- The modal and form state of the Products view. -/
structure View where
  isModalOpen : Bool
  editingProductId : JsVal
  formValues : FormValues
  uploadError : String

/-- The message rendered when `addMutation` or `updateMutation` is in error. -/
def mutationErrorMessage : String := "Failed to save product"

/-- The empty form of `useState` and `openAddModal`. -/
def emptyForm : FormValues :=
  { name := .str "", price := "", discountedPrice := "", description := .str "",
    categoryid := "", visible := true, isInStock := true, imageFile := none,
    existingImageUrl := .str "" }

/-- Initial state of the view (`useState` initialisers). -/
def View.init : View :=
  { isModalOpen := false, editingProductId := .null, formValues := emptyForm, uploadError := "" }

/-- The handler `openAddModal()`. -/
def openAddModal (v : View) : View :=
  { v with editingProductId := .null, formValues := emptyForm, isModalOpen := true }

/-- The `onChange` handler of the name input. -/
def onNameChange (value : String) (v : View) : View :=
  { v with formValues := { v.formValues with name := .str value } }

/-- The `onChange` handler of the price input. -/
def onPriceChange (value : String) (v : View) : View :=
  { v with formValues := { v.formValues with price := keepDigitsAndDots value } }

/-- The `onChange` handler of the file input (`none` when no file is chosen). -/
def onFileChange (file : Option JsFile) (v : View) : View :=
  { v with formValues := { v.formValues with imageFile := file } }

/-- The browser lets the form submit only when its two `required` inputs, the
name and the price, are not empty. -/
def requiredFilled (v : View) : Bool :=
  decide (inputValue v.formValues.name ≠ "") && decide (v.formValues.price ≠ "")

/-- The handler `onSubmit(e)`, for the storage module state and the answers of
the outside world during the upload. -/
def onSubmit (m : SupabaseModule) (w : UploadWorld) (v : View) : SubmitResult View :=
  match optTrim v.formValues.name, optTrim v.formValues.description with
  | some name, some description =>
    let f := v.formValues
    let payload : List (String × JsVal) :=
      [("name", name),
       ("price", .num (toNumber (jsOr (.str f.price) (.ofNat 0)))),
       ("discountedPrice",
          if f.discountedPrice = "" then .undefined
          else .num (toNumber (.str f.discountedPrice))),
       ("description", jsOr description .undefined),
       ("categoryid", jsOr (.str f.categoryid) .undefined),
       ("visible", .bool f.visible),
       ("isInStock", .bool f.isInStock)]
    let v1 := { v with uploadError := "" }
    let invoke (payload : List (String × JsVal)) : Option MutationCall :=
      if truthy v.editingProductId then some (.update v.editingProductId (.obj payload))
      else some (.create (.obj payload))
    match f.imageFile with
    | none => { state := v1, requests := [], mutation := invoke payload, threw := false }
    | some file =>
      match uploadImageViaSignedUrl m w (some file) with
      | (.error _, requests) =>
        { state := { v1 with uploadError := uploadFailedMessage }, requests := requests,
          mutation := none, threw := false }
      | (.ok imageUrl, requests) =>
        let payload1 := if truthy imageUrl then setField "imageUrl" imageUrl payload else payload
        { state := v1, requests := requests, mutation := invoke payload1, threw := false }
  | _, _ => { state := v, requests := [], mutation := none, threw := true }

end Products

/-- The Categories form after opening Add Category and typing three blanks as
the name. -/
def Categories.blankNameView : Categories.View :=
  Categories.onNameChange "   " (Categories.openAddModal Categories.View.init)

/-- The Products form after opening Add Product, typing three blanks as the
name and `1.2.3` as the price. -/
def Products.blankNameDottedPriceView : Products.View :=
  Products.onPriceChange "1.2.3" (Products.onNameChange "   "
    (Products.openAddModal Products.View.init))

/-! ## `modules/admin/pages/*`: query cache, mutation success handlers -/

/-- An element of a query key; the keys of this application hold strings and
numbers only. -/
inductive KeyPart where
  | str (s : String)
  | num (n : JsNum)
deriving DecidableEq

/-- A query key: the array passed as `queryKey`. -/
abbrev QueryKey := List KeyPart

/-- Query-key matching of `queryClient.invalidateQueries({ queryKey })`: the
filter key is an element-wise prefix of the key of the cached query. -/
def keyMatches : QueryKey → QueryKey → Bool
  | [], _ => true
  | _ :: _, [] => false
  | f :: fs, k :: ks => decide (f = k) && keyMatches fs ks

/-- A query held by the query client: its key, its cached data and whether it
has been marked invalid (to be fetched again). -/
structure CachedQuery where
  key : QueryKey
  data : JsVal
  isInvalidated : Bool

/-- The call `queryClient.invalidateQueries({ queryKey: filter })`: every
cached query whose key matches is marked invalid, the others are untouched. -/
def invalidateQueries (filter : QueryKey) (cache : List CachedQuery) : List CachedQuery :=
  cache.map (fun q => if keyMatches filter q.key then { q with isInvalidated := true } else q)

/-- The cached data of the query with the given key (`undefined` when there
is none). -/
def cachedData (key : QueryKey) : List CachedQuery → JsVal
  | [] => .undefined
  | q :: rest => if q.key = key then q.data else cachedData key rest

/-- The key `["categories", page, limit]` of the Categories list query. -/
def Categories.listKey (s : PageState) : QueryKey :=
  [.str "categories", .num s.page, .num s.limit]

/-- The key `["products", page, limit]` of the Products list query. -/
def Products.listKey (s : PageState) : QueryKey :=
  [.str "products", .num s.page, .num s.limit]

/-- The key `["orders", page, limit]` of the Orders list query. -/
def Orders.listKey (s : PageState) : QueryKey :=
  [.str "orders", .num s.page, .num s.limit]

/-- The key `["categories-for-products"]` of the query that feeds the category
selector and the id-to-name lookup of the Products view. -/
def Products.categoriesForProductsKey : QueryKey := [.str "categories-for-products"]

/-- The key `["dashboard-stats"]` of the Dashboard query. -/
def Dashboard.statsKey : QueryKey := [.str "dashboard-stats"]

/-- The callback `onSuccess` of `addCategoryMutation`. -/
def Categories.addOnSuccess (cache : List CachedQuery) (v : Categories.View) :
    List CachedQuery × Categories.View :=
  (invalidateQueries [.str "categories"] cache,
   { v with
     isModalOpen := false,
     editingCategoryId := .null,
     formValues := { name := .str "", visible := true, imageFile := none,
                     existingImageUrl := .str "" } })

/-- The callback `onSuccess` of `updateCategoryMutation`. -/
def Categories.updateOnSuccess (cache : List CachedQuery) (v : Categories.View) :
    List CachedQuery × Categories.View :=
  (invalidateQueries [.str "categories"] cache,
   { v with
     isModalOpen := false,
     editingCategoryId := .null,
     formValues := { name := .str "", visible := true, imageFile := none,
                     existingImageUrl := .str "" } })

/-- The callback `onSuccess` of `deleteCategoryMutation`. -/
def Categories.deleteOnSuccess (cache : List CachedQuery) (v : Categories.View) :
    List CachedQuery × Categories.View :=
  (invalidateQueries [.str "categories"] cache, v)

/-- The callback `onSuccess` of `addMutation` in the Products view; the object
it passes to `setFormValues` has no `existingImageUrl`. -/
def Products.addOnSuccess (cache : List CachedQuery) (v : Products.View) :
    List CachedQuery × Products.View :=
  (invalidateQueries [.str "products"] cache,
   { v with
     isModalOpen := false,
     editingProductId := .null,
     formValues := { name := .str "", price := "", discountedPrice := "",
                     description := .str "", categoryid := "", visible := true,
                     isInStock := true, imageFile := none, existingImageUrl := .undefined } })

/-- The callback `onSuccess` of `updateMutation` in the Products view. -/
def Products.updateOnSuccess (cache : List CachedQuery) (v : Products.View) :
    List CachedQuery × Products.View :=
  (invalidateQueries [.str "products"] cache,
   { v with isModalOpen := false, editingProductId := .null })

/-- The callback `onSuccess` of `deleteMutation` in the Products view. -/
def Products.deleteOnSuccess (cache : List CachedQuery) (v : Products.View) :
    List CachedQuery × Products.View :=
  (invalidateQueries [.str "products"] cache, v)

/-! ## `modules/admin/pages/*`: delete buttons -/

/-- What a click on a Delete button did: the view state and the cache it left,
the message it passed to `window.confirm` (if it asked) and the id it passed to
the delete mutation (if it invoked it). -/
structure DeleteClick (σ : Type) where
  state : σ
  cache : List CachedQuery
  confirmAsked : Option String
  mutation : Option JsVal

/-- The `onClick` handler of a Delete button of the Categories table, for the
row `cat` and the answer `confirm` gives to a message. -/
def Categories.onDeleteClick (cat : JsVal) (confirm : String → Bool)
    (cache : List CachedQuery) (v : Categories.View) : DeleteClick Categories.View :=
  let name := jsOr (jsOr (optChain cat "name") (optChain cat "title")) (.str "—")
  let id := jsOr (optChain cat "id") (optChain cat "_id")
  if !truthy id then { state := v, cache := cache, confirmAsked := none, mutation := none }
  else
    let message := "Delete category \"" ++ toJsString name ++ "\"? This cannot be undone."
    if confirm message then
      { state := v, cache := cache, confirmAsked := some message, mutation := some id }
    else { state := v, cache := cache, confirmAsked := some message, mutation := none }

/-- The `onClick` handler of a Delete button of the Products table, for the
row `p` and the answer `confirm` gives to a message. -/
def Products.onDeleteClick (p : JsVal) (confirm : String → Bool)
    (cache : List CachedQuery) (v : Products.View) : DeleteClick Products.View :=
  let pid := jsOr (optChain p "id") (optChain p "_id")
  if !truthy pid then { state := v, cache := cache, confirmAsked := none, mutation := none }
  else
    let message :=
      "Delete product \"" ++ toJsString (optChain p "name") ++ "\"? This cannot be undone."
    if confirm message then
      { state := v, cache := cache, confirmAsked := some message, mutation := some pid }
    else { state := v, cache := cache, confirmAsked := some message, mutation := none }

/-! ## `modules/admin/pages/Orders.jsx`, `Dashboard.jsx`: status change -/

/-- A value is a primitive (not an array, object or function). -/
def isPrimitive : JsVal → Bool
  | .arr _ => false
  | .obj _ => false
  | .func => false
  | _ => true

/-- The comparison `a === b`.  Primitives are equal when they have the same
type and value (`NaN` is not equal to itself); arrays, objects and functions
are compared by reference, which values do not carry, and are given as not
equal. -/
def strictEq : JsVal → JsVal → Bool
  | .undefined, .undefined => true
  | .null, .null => true
  | .bool a, .bool b => a == b
  | .num .nan, .num _ => false
  | .num a, .num b => decide (a = b)
  | .str a, .str b => decide (a = b)
  | _, _ => false

/-- The state update made by `onSuccess` of `statusMutation` (the same in the
Orders view and in the Dashboard): when a record is open and its `id` or `_id`
is `variables.id`, `setSelectedOrder((o) => (o ? { ...o, status } : o))`. -/
def patchSelectedOrder (selectedOrder id status : JsVal) : JsVal :=
  if truthy selectedOrder
      && (strictEq (getProp selectedOrder "id") id || strictEq (getProp selectedOrder "_id") id)
  then
    (if truthy selectedOrder then .obj (setField "status" status (spreadFields selectedOrder))
     else selectedOrder)
  else selectedOrder

/-- The callback `onSuccess` of `statusMutation` in the Orders view, for
`variables = { id, status }`: the cache and the open record it leaves. -/
def Orders.statusOnSuccess (id status : JsVal) (cache : List CachedQuery)
    (selectedOrder : JsVal) : List CachedQuery × JsVal :=
  (invalidateQueries [.str "orders"] cache, patchSelectedOrder selectedOrder id status)

/-- The callback `onSuccess` of `statusMutation` in the Dashboard. -/
def Dashboard.statusOnSuccess (id status : JsVal) (cache : List CachedQuery)
    (selectedOrder : JsVal) : List CachedQuery × JsVal :=
  (invalidateQueries [.str "dashboard-stats"] cache, patchSelectedOrder selectedOrder id status)

/-! ## `modules/admin/pages/Products.jsx`: edit form and category lookup -/

/-- The handler `openEditModal(p)` of the Products view. -/
def Products.openEditModal (p : JsVal) (v : Products.View) : Products.View :=
  { v with
    editingProductId := jsOr (jsOr (optChain p "id") (optChain p "_id")) .null,
    formValues :=
      { name := jsOr (optChain p "name") (.str ""),
        price := toJsString (jsNullish (optChain p "price") (.str "")),
        discountedPrice := toJsString (jsNullish (optChain p "discountedPrice") (.str "")),
        description := jsOr (optChain p "description") (.str ""),
        categoryid := toJsString
          (jsOr (jsOr (jsOr (jsOr (optChain p "categoryid") (optChain p "categoryId"))
            (optChain (optChain p "category") "id")) (optChain (optChain p "category") "_id"))
            (.str "")),
        visible := truthy (jsNullish (jsNullish (optChain p "visible") (optChain p "isVisible"))
          (.bool true)),
        isInStock := truthy (jsNullish (jsNullish (optChain p "isInStock") (optChain p "inStock"))
          (.bool true)),
        imageFile := none,
        existingImageUrl := jsOr (optChain p "imageUrl") (.str "") },
    isModalOpen := true }

/-- The memo `categoryIdToName`, as the list of `map.set(key, value)` calls in
order, for the data of the `["categories-for-products"]` query.  `none` when
the data is a truthy value without `forEach` (the callback throws). -/
def Products.categoryIdToName (categoriesData : JsVal) : Option (List (String × JsVal)) :=
  match jsOr categoriesData (.arr []) with
  | .arr xs =>
    some (xs.map (fun c =>
      (toJsString (jsNullish (optChain c "id") (optChain c "_id")),
       jsOr (jsOr (optChain c "name") (optChain c "title")) (.str ""))))
  | _ => none

/-- The id-to-name lookup the Products view computes from the query cache. -/
def Products.categoryLookup (cache : List CachedQuery) : Option (List (String × JsVal)) :=
  Products.categoryIdToName (cachedData Products.categoriesForProductsKey cache)

/-! ## `modules/admin/pages/Products.jsx`, `Orders.jsx`: the range text -/

/-- The product `a * b` of two numbers. -/
def JsNum.mul : JsNum → JsNum → JsNum
  | .nan, _ => .nan
  | _, .nan => .nan
  | .inf s, .inf t => .inf (s != t)
  | .inf s, .fin b => if b = 0 then .nan else .inf (s != decide (b < 0))
  | .fin a, .inf t => if a = 0 then .nan else .inf (t != decide (a < 0))
  | .fin a, .fin b => .fin (a * b)

/-- The first row shown: `(page - 1) * limit + 1`. -/
def rangeStart (page limit : JsNum) : JsNum :=
  JsNum.add (JsNum.mul (JsNum.sub page (.fin 1)) limit) (.fin 1)

/-- The last row shown: `Math.min(page * limit, total)`. -/
def rangeEnd (total page limit : JsNum) : JsNum :=
  mathMin (JsNum.mul page limit) total

/-- The text under the table (the same in the Products and Orders views):
`"Showing a to b of total results"` when `total > 0`, otherwise the empty
string. -/
def rangeText (total page limit : JsNum) : String :=
  if JsNum.gt total (.fin 0) then
    "Showing " ++ (rangeStart page limit).toJsString ++ " to "
      ++ (rangeEnd total page limit).toJsString ++ " of " ++ total.toJsString ++ " results"
  else ""

/-- A listed product: `{ id: 7, name: "Shoes", price: 10 }`. -/
def Products.shoesProduct : JsVal :=
  .obj [("id", .ofNat 7), ("name", .str "Shoes"), ("price", .ofNat 10)]

/-- The Products view after clicking Edit on `shoesProduct`. -/
def Products.editingShoesView : Products.View :=
  Products.openEditModal Products.shoesProduct Products.View.init

/-- Between two states of the query cache, only queries whose key begins with
`family` were touched: the queries are the same in the same order, each one
either as it was or, when its key begins with `family`, marked invalid. -/
def InvalidatesOnly (family : String) (before after : List CachedQuery) : Prop :=
  List.Forall₂
    (fun q q1 => q1 = q ∨ (q.key.head? = some (.str family) ∧ q1 = { q with isInvalidated := true }))
    before after

/-- A listed product with a fractional price, a discounted price and both
flags: `{ id: 9, name: " Boots ", price: 12.5, discountedPrice: 9.99,
visible: false, isInStock: true }`. -/
def Products.bootsProduct : JsVal :=
  .obj [("id", .ofNat 9), ("name", .str " Boots "), ("price", .ofRat (25 / 2)),
        ("discountedPrice", .ofRat (999 / 100)), ("visible", .bool false),
        ("isInStock", .bool true)]

/-! ## Properties: session guard and session store -/

/-- C1. `ProtectedRoute` is a decision over `(loading, isAuthenticated, isAdmin,
requireAdmin, location)`: nothing is rendered while `loading`; otherwise an
unauthenticated visit is redirected to `/login` with `state.from` the requested
location; otherwise a route that requires admin without `isAdmin` is redirected
to `/login` (no state); in every remaining case the children are returned
unchanged.  The five equations cover all combinations of the four flags. -/
theorem ProtectedRoute_decision {Loc Children : Type} (location : Loc) (children : Children)
    (isAuthenticated isAdmin requireAdmin : Bool) :
    ProtectedRoute ⟨isAuthenticated, isAdmin, true⟩ location children requireAdmin
        = Rendered.nothing
    ∧ ProtectedRoute ⟨false, isAdmin, false⟩ location children requireAdmin
        = Rendered.navigate "/login" true (some location)
    ∧ ProtectedRoute ⟨true, false, false⟩ location children true
        = Rendered.navigate "/login" true none
    ∧ ProtectedRoute ⟨true, true, false⟩ location children requireAdmin
        = Rendered.children children
    ∧ ProtectedRoute ⟨true, isAdmin, false⟩ location children false
        = Rendered.children children := by
  refine ⟨rfl, rfl, rfl, ?_, ?_⟩
  · cases requireAdmin <;> rfl
  · cases isAdmin <;> rfl

theorem tokenWellFormed_init (c : ClientState) : TokenWellFormed (AuthProvider.init c) := by
  unfold TokenWellFormed AuthProvider.init jsOr
  by_cases h : truthy (getItemToken c) = true
  · right; simp [h]
  · left; simp [h]

theorem token_effect (s : AuthState) : (AuthProvider.effect s).token = s.token := by
  unfold AuthProvider.effect
  split <;> rfl

theorem tokenWellFormed_signin {s s1 : AuthState} {r : SignInResult}
    (response : Except JsVal JsVal) (hs : TokenWellFormed s)
    (h : signin response s = .ok (r, s1)) : TokenWellFormed s1 := by
  unfold signin at h
  cases response with
  | error e => simp at h
  | ok data =>
    simp only at h
    split at h
    · simp only [Except.ok.injEq, Prod.mk.injEq] at h
      rw [← h.2]; exact hs
    · split at h
      · rename_i ht
        simp only [Except.ok.injEq, Prod.mk.injEq] at h
        rw [← h.2]; right; exact ht
      · simp only [Except.ok.injEq, Prod.mk.injEq] at h
        rw [← h.2]; exact hs

theorem tokenWellFormed_of_reachable {s : AuthState} (h : AuthReachable s) :
    TokenWellFormed s := by
  induction h with
  | init c => exact tokenWellFormed_init c
  | effect _ ih =>
    unfold TokenWellFormed at *
    rw [token_effect]; exact ih
  | signin response _ hstep ih => exact tokenWellFormed_signin response ih hstep
  | signout _ _ => left; rfl

/-- C2. In every session state reachable from startup by the token effect and
any sequence of `signin` and `signout` calls, `isAuthenticated` is true exactly
when `token` is not `null` (and `token` is never `undefined`), `isAdmin` equals
`isAuthenticated`, and `ProtectedRoute` never produces the redirect of its
`requireAdmin` branch, whatever the location, children and `requireAdmin`. -/
theorem session_authenticated_iff_token (s : AuthState) (h : AuthReachable s) :
    ((useAuth s).isAuthenticated = true ↔ s.token ≠ JsVal.null)
    ∧ s.token ≠ JsVal.undefined
    ∧ (useAuth s).isAdmin = (useAuth s).isAuthenticated
    ∧ ∀ (Loc Children : Type) (location : Loc) (children : Children) (requireAdmin : Bool),
        ProtectedRoute (useAuth s) location children requireAdmin
          ≠ Rendered.navigate "/login" true none := by
  have hw := tokenWellFormed_of_reachable h
  refine ⟨?_, ?_, rfl, ?_⟩
  · constructor
    · intro ha hn
      simp [useAuth, hn, truthy] at ha
    · intro hn
      rcases hw with hw | hw
      · exact absurd hw hn
      · exact hw
  · rcases hw with hw | hw
    · rw [hw]; simp
    · intro hu; rw [hu] at hw; simp [truthy] at hw
  · intro Loc Children location children requireAdmin
    unfold ProtectedRoute useAuth
    cases s.loading <;> cases truthy s.token <;> cases requireAdmin <;> simp

/-- C2, at a concrete run: start with the token `"t0"` in storage, sign out,
then sign in with a response carrying the token `"t1"`. -/
theorem session_authenticated_iff_token_witness :
    AuthReachable
        { token := .str "t1",
          user := .obj [("isAdmin", .bool true)],
          loading := true,
          client := { storedToken := some "t1", defaultAuthorization := some "Bearer t1" } }
    ∧ (useAuth
        { token := .str "t1",
          user := .obj [("isAdmin", .bool true)],
          loading := true,
          client := { storedToken := some "t1",
                      defaultAuthorization := some "Bearer t1" } }).isAuthenticated = true := by
  have hr : AuthReachable
      { token := .str "t1",
        user := .obj [("isAdmin", .bool true)],
        loading := true,
        client := { storedToken := some "t1", defaultAuthorization := some "Bearer t1" } } :=
    AuthReachable.signin (r := .success) (.ok (.obj [("token", .str "t1")]))
      (AuthReachable.signout (AuthReachable.init ⟨some "t0", none⟩)) rfl
  exact ⟨hr, (session_authenticated_iff_token _ hr).1.2 (by simp)⟩

/-! ## Properties: HTTP client -/

theorem lookupField_setField_same (key : String) (v : JsVal) (fields : List (String × JsVal)) :
    lookupField key (setField key v fields) = v := by
  induction fields with
  | nil => simp [setField, lookupField]
  | cons kv rest ih =>
    obtain ⟨k, w⟩ := kv
    by_cases hk : k = key
    · simp [setField, lookupField, hk]
    · simp [setField, lookupField, hk, ih]

theorem lookupField_setField_other (key other : String) (v : JsVal)
    (fields : List (String × JsVal)) (h : other ≠ key) :
    lookupField other (setField key v fields) = lookupField other fields := by
  induction fields with
  | nil => simp [setField, lookupField, Ne.symm h]
  | cons kv rest ih =>
    obtain ⟨k, w⟩ := kv
    by_cases hk : k = key
    · subst hk
      simp [setField, lookupField, Ne.symm h]
    · by_cases ho : k = other
      · subst ho
        simp [setField, lookupField, hk]
      · simp [setField, lookupField, hk, ho, ih]

/-- C3. The request interceptor decides from persisted storage alone: two
sessions with the same stored token give the same config, whatever their
in-memory state.  When a non-empty token `t` is stored, the returned config has
a `headers` object whose `Authorization` is exactly `"Bearer " ++ t` (replacing
any earlier one), every other header reads as before, and the other fields of
the config are unchanged; when no token is stored (or the stored string is
empty) the config is returned unchanged. -/
theorem requestInterceptor_bearer (c : ClientState) (config : RequestConfig) :
    (∀ t : String, c.storedToken = some t → t ≠ "" →
      ∃ hs, (requestInterceptor c config).headers = some hs
        ∧ lookupField "Authorization" hs = JsVal.str ("Bearer " ++ t)
        ∧ (∀ k : String, k ≠ "Authorization" →
            lookupField k hs = lookupField k (config.headers.getD []))
        ∧ (requestInterceptor c config).others = config.others)
    ∧ (c.storedToken = none ∨ c.storedToken = some "" → requestInterceptor c config = config)
    ∧ (∀ s1 s2 : AuthState, s1.client.storedToken = c.storedToken →
        s2.client.storedToken = c.storedToken →
        requestInterceptor s1.client config = requestInterceptor s2.client config) := by
  refine ⟨?_, ?_, ?_⟩
  · intro t ht hne
    refine ⟨setField "Authorization" (.str ("Bearer " ++ t)) (config.headers.getD []), ?_, ?_, ?_, ?_⟩
    · simp [requestInterceptor, getItemToken, ht, truthy, hne, toJsString]
    · exact lookupField_setField_same _ _ _
    · intro k hk
      exact lookupField_setField_other _ _ _ _ hk
    · simp [requestInterceptor, getItemToken, ht, truthy, hne]
  · rintro (h | h) <;> simp [requestInterceptor, getItemToken, h, truthy]
  · intro s1 s2 h1 h2
    simp [requestInterceptor, getItemToken, h1, h2]

/-- C3, at a concrete request: the stored token `"abc"` replaces a stale
`Authorization` header and leaves `Accept` alone. -/
theorem requestInterceptor_bearer_witness :
    ∃ hs, (requestInterceptor ⟨some "abc", none⟩
            ⟨some [("Accept", .str "json"), ("Authorization", .str "Bearer old")],
             [("url", .str "/shop/orders")]⟩).headers = some hs
      ∧ lookupField "Authorization" hs = JsVal.str ("Bearer " ++ "abc")
      ∧ (∀ k : String, k ≠ "Authorization" →
          lookupField k hs
            = lookupField k [("Accept", .str "json"), ("Authorization", .str "Bearer old")])
      ∧ (requestInterceptor ⟨some "abc", none⟩
            ⟨some [("Accept", .str "json"), ("Authorization", .str "Bearer old")],
             [("url", .str "/shop/orders")]⟩).others = [("url", .str "/shop/orders")] :=
  (requestInterceptor_bearer ⟨some "abc", none⟩
    ⟨some [("Accept", .str "json"), ("Authorization", .str "Bearer old")],
     [("url", .str "/shop/orders")]⟩).1 "abc" rfl (by decide)

/-! ## Properties: asset upload -/

/-- C4. For every file larger than `5 * 1024 * 1024` bytes
`uploadImageViaSignedUrl` fails with the size-limit error and has sent no
request (so no URL is returned), whatever the storage configuration and
whatever the API and the storage would have answered; a file of exactly
`5 * 1024 * 1024` bytes does not fail with the size-limit error, and with a
configured client and well-formed answers its upload returns the URL. -/
theorem upload_size_guard (m : SupabaseModule) (w : UploadWorld) (file : JsFile) :
    (file.size > 5 * 1024 * 1024 →
      uploadImageViaSignedUrl m w (some file) = (.error .maxSize, []))
    ∧ (file.size = 5 * 1024 * 1024 →
      ∀ e, (uploadImageViaSignedUrl m w (some file)).1 = .error e → e ≠ .maxSize)
    ∧ (file.size = 5 * 1024 * 1024 →
      ∀ (client : SupabaseClient) (token objectPath url : String),
        m.supabase = some client → token ≠ "" → objectPath ≠ "" → url ≠ "" →
        w.signResponse = .ok (.obj [("token", .str token), ("objectPath", .str objectPath)]) →
        w.uploadError = .null →
        (∀ b p, w.publicUrlData b p = .obj [("publicUrl", .str url)]) →
        (uploadImageViaSignedUrl m w (some file)).1 = .ok (.str url)) := by
  refine ⟨?_, ?_, ?_⟩
  · intro h
    have h2 : file.size > maxUploadBytes := h
    simp [uploadImageViaSignedUrl, h2]
  · intro h e he hmax
    have h2 : ¬ file.size > maxUploadBytes := by
      simp only [maxUploadBytes]; omega
    subst hmax
    unfold uploadImageViaSignedUrl at he
    simp only [h2, if_false] at he
    split at he
    · simp at he
    · split at he
      · simp at he
      · split at he
        · simp at he
        · split at he
          · simp at he
          · simp at he
  · intro h client token objectPath url hc ht ho hu hs hn hp
    have h2 : ¬ file.size > maxUploadBytes := by
      simp only [maxUploadBytes]; omega
    simp [uploadImageViaSignedUrl, h2, hc, hs, hn, hp, jsOr, truthy, getProp, lookupField,
      optChain, isNullish, ht, ho, hu]

/-- C4, at concrete files: one byte over the limit, with a configured client. -/
theorem upload_size_guard_witness :
    uploadImageViaSignedUrl (loadSupabaseModule "https://s.example" "key" "")
        ⟨.ok (.obj [("token", .str "tk"), ("objectPath", .str "a.png")]), .null,
          fun _ _ => .obj [("publicUrl", .str "https://s.example/a.png")]⟩
        (some ⟨"a.png", "image/png", 5 * 1024 * 1024 + 1⟩)
      = (.error .maxSize, []) :=
  (upload_size_guard _ _ ⟨"a.png", "image/png", 5 * 1024 * 1024 + 1⟩).1 (by decide)

/-! ## Properties: response normalisation -/

@[simp] theorem truthy_undefined : truthy .undefined = false := rfl
@[simp] theorem truthy_null : truthy .null = false := rfl
@[simp] theorem truthy_bool (b : Bool) : truthy (.bool b) = b := rfl
@[simp] theorem truthy_num (n : JsNum) : truthy (.num n) = n.truthy := rfl
@[simp] theorem truthy_str (s : String) : truthy (.str s) = decide (s ≠ "") := rfl
@[simp] theorem truthy_arr (xs : List JsVal) : truthy (.arr xs) = true := rfl
@[simp] theorem truthy_obj (fs : List (String × JsVal)) : truthy (.obj fs) = true := rfl
@[simp] theorem truthy_ofNat (n : Nat) : truthy (.ofNat n) = decide (n ≠ 0) := by
  simp [JsVal.ofNat, JsNum.truthy]
@[simp] theorem jsNum_truthy_nan : JsNum.truthy .nan = false := rfl
@[simp] theorem jsNum_truthy_inf (b : Bool) : JsNum.truthy (.inf b) = true := rfl
@[simp] theorem jsNum_truthy_fin (q : ℚ) : JsNum.truthy (.fin q) = decide (q ≠ 0) := rfl

theorem jsOr_of_truthy {a : JsVal} (b : JsVal) (h : truthy a = true) : jsOr a b = a := by
  simp [jsOr, h]

theorem jsOr_of_falsy {a : JsVal} (b : JsVal) (h : truthy a = false) : jsOr a b = b := by
  simp [jsOr, h]

theorem jsNum_or_of_truthy {a : JsNum} (b : JsNum) (h : a.truthy = true) : JsNum.or a b = a := by
  simp [JsNum.or, h]

theorem jsNum_or_of_falsy {a : JsNum} (b : JsNum) (h : a.truthy = false) : JsNum.or a b = b := by
  simp [JsNum.or, h]

theorem isArray_false_of_falsy {v : JsVal} (h : truthy v = false) : isArray v = false := by
  cases v <;> simp_all [isArray]

theorem truthy_of_isArray {v : JsVal} (h : isArray v = true) : truthy v = true := by
  cases v <;> simp_all [isArray]

/-! ### Decimal numerals: `Number(String(n)) = n` -/

theorem digitValue_digitChar (d : Nat) (h : d < 10) : digitValue 10 (digitChar d) = some d := by
  interval_cases d <;> rfl

theorem isJsSpace_digitChar (d : Nat) (h : d < 10) : isJsSpace (digitChar d) = false := by
  interval_cases d <;> rfl

theorem readDigits_natDigitsAux (fuel : Nat) :
    ∀ (n : Nat) (acc : List Char), 0 < fuel → n < 10 ^ fuel →
      ∃ k, 1 ≤ k ∧ ∀ a c, readDigits 10 (natDigitsAux fuel n acc) a c
        = readDigits 10 acc (a * 10 ^ k + n) (c + k) := by
  induction fuel with
  | zero => intro n acc h0 _; omega
  | succ fuel ih =>
    intro n acc _ h
    by_cases h10 : n < 10
    · refine ⟨1, le_refl _, fun a c => ?_⟩
      simp [natDigitsAux, h10, readDigits, digitValue_digitChar n h10]
    · have hdiv : n / 10 < 10 ^ fuel := by
        rw [Nat.div_lt_iff_lt_mul (by norm_num)]
        rw [pow_succ] at h; exact h
      have hf : 0 < fuel := by
        rcases Nat.eq_zero_or_pos fuel with h0 | h0
        · subst h0; simp at hdiv; omega
        · exact h0
      obtain ⟨k, hk, hrd⟩ := ih (n / 10) (digitChar (n % 10) :: acc) hf hdiv
      refine ⟨k + 1, by omega, fun a c => ?_⟩
      simp only [natDigitsAux, h10, if_false]
      rw [hrd]
      simp only [readDigits, digitValue_digitChar (n % 10) (Nat.mod_lt _ (by norm_num))]
      congr 1
      · rw [pow_succ]
        have := Nat.div_add_mod n 10
        nlinarith [this]
      
theorem natDigitsAux_chars (fuel : Nat) :
    ∀ (n : Nat) (acc : List Char), (∀ c ∈ acc, IsDigitChar c) → 0 < fuel →
      natDigitsAux fuel n acc ≠ [] ∧ ∀ c ∈ natDigitsAux fuel n acc, IsDigitChar c := by
  induction fuel with
  | zero => intro n acc _ h; omega
  | succ fuel ih =>
    intro n acc hacc _
    by_cases h10 : n < 10
    · simp only [natDigitsAux, h10, if_true]
      refine ⟨by simp, ?_⟩
      intro c hc
      rcases List.mem_cons.mp hc with h | h
      · exact ⟨n, h10, h⟩
      · exact hacc c h
    · simp only [natDigitsAux, h10, if_false]
      have hacc2 : ∀ c ∈ digitChar (n % 10) :: acc, IsDigitChar c := by
        intro c hc
        rcases List.mem_cons.mp hc with h | h
        · exact ⟨n % 10, Nat.mod_lt _ (by norm_num), h⟩
        · exact hacc c h
      cases fuel with
      | zero =>
        simp only [natDigitsAux]
        exact ⟨by simp, hacc2⟩
      | succ f => exact ih (n / 10) _ hacc2 (by omega)

theorem isDigitChar_bounds {c : Char} (h : IsDigitChar c) : 48 ≤ c.toNat ∧ c.toNat ≤ 57 := by
  obtain ⟨d, hd, rfl⟩ := h
  interval_cases d <;> decide

theorem natDigits_chars (n : Nat) :
    natDigits n ≠ [] ∧ ∀ c ∈ natDigits n, IsDigitChar c :=
  natDigitsAux_chars (n + 1) n [] (by simp) (by omega)

theorem readDigits_natDigits (n : Nat) :
    ∃ k, 1 ≤ k ∧ readDigits 10 (natDigits n) 0 0 = (n, k, []) := by
  have hlt : n < 10 ^ (n + 1) :=
    lt_trans (Nat.lt_succ_self n) (Nat.lt_pow_self (by norm_num) (n + 1))
  obtain ⟨k, hk, hrd⟩ := readDigits_natDigitsAux (n + 1) n [] (by omega) hlt
  exact ⟨k, hk, by rw [natDigits, hrd]; simp [readDigits]⟩

theorem dropWhile_space_digits (l : List Char) (h : ∀ c ∈ l, IsDigitChar c) :
    l.dropWhile isJsSpace = l := by
  cases l with
  | nil => rfl
  | cons c t =>
    obtain ⟨d, hd, hc⟩ := h c (List.mem_cons_self _ _)
    simp [List.dropWhile, hc, isJsSpace_digitChar d hd]

theorem parseUnsignedDecimal_natDigits (n : Nat) :
    parseUnsignedDecimal (natDigits n) = .fin n := by
  obtain ⟨hne, hch⟩ := natDigits_chars n
  obtain ⟨k, hk, hr⟩ := readDigits_natDigits n
  have hInf : natDigits n ≠ "Infinity".data := by
    intro h
    have := isDigitChar_bounds (hch 'I' (by rw [h]; decide))
    revert this; decide
  unfold parseUnsignedDecimal
  rw [if_neg hInf]
  simp only [hr]
  have hk0 : k ≠ 0 := by omega
  simp [hk0, parseExponent]

theorem parseNumber_natDigits (n : Nat) : parseNumber (String.mk (natDigits n)) = .fin n := by
  obtain ⟨hne, hch⟩ := natDigits_chars n
  have htrim : (((natDigits n).dropWhile isJsSpace).reverse.dropWhile isJsSpace).reverse
      = natDigits n := by
    rw [dropWhile_space_digits _ hch,
      dropWhile_space_digits _ (fun c hc => hch c (List.mem_reverse.mp hc)), List.reverse_reverse]
  unfold parseNumber
  simp only [htrim]
  have hno : ∀ c : Char, (c.toNat < 48 ∨ 57 < c.toNat) → c ∉ natDigits n := by
    intro c hc hmem
    have := isDigitChar_bounds (hch c hmem)
    omega
  split
  · rename_i h; exact absurd h hne
  · rename_i r h; exact absurd (by rw [h]; simp) (hno 'x' (by decide))
  · rename_i r h; exact absurd (by rw [h]; simp) (hno 'X' (by decide))
  · rename_i r h; exact absurd (by rw [h]; simp) (hno 'o' (by decide))
  · rename_i r h; exact absurd (by rw [h]; simp) (hno 'O' (by decide))
  · rename_i r h; exact absurd (by rw [h]; simp) (hno 'b' (by decide))
  · rename_i r h; exact absurd (by rw [h]; simp) (hno 'B' (by decide))
  · rename_i r h; exact absurd (by rw [h]; simp) (hno '-' (by decide))
  · rename_i r h; exact absurd (by rw [h]; simp) (hno '+' (by decide))
  · exact parseUnsignedDecimal_natDigits n

theorem toJsString_ofNat (n : Nat) : toJsString (.ofNat n) = String.mk (natDigits n) := by
  have h1 : ((n : ℚ)).num = n := Rat.num_natCast n
  have h2 : ((n : ℚ)).den = 1 := Rat.den_natCast n
  have h3 : ¬ ((n : ℤ) < 0) := by omega
  simp only [toJsString, JsVal.ofNat, JsNum.toJsString, h1, h2, Int.natAbs_ofNat, Nat.div_one,
    Nat.mod_one, h3, if_false]
  rfl

/-- `Number(String(n)) = n` for every natural number `n`. -/
theorem toNumber_toJsString_ofNat (n : Nat) :
    toNumber (.str (toJsString (.ofNat n))) = .fin n := by
  rw [toJsString_ofNat]
  exact parseNumber_natDigits n

/-! ### The Categories, Products and Orders queries -/

/-- C5. For every item sequence `xs` the Categories normaliser extracts `xs`
from each of the three encodings: the body being `xs` itself, an object whose
`items` is `xs`, and an object whose `data` is `xs` (its `items` being absent
or falsy, as `items` is read first).  When the body is not a sequence and
carries neither `items` nor `data`, the result is the empty sequence; and the
`categories` the view renders is empty as soon as none of the body, its `items`
and its `data` is a sequence. -/
theorem categories_items_normalised (xs : List JsVal) (headers : JsVal) :
    (Categories.queryFn ⟨.arr xs, headers⟩).items = .arr xs
    ∧ (∀ fields, lookupField "items" fields = .arr xs →
        (Categories.queryFn ⟨.obj fields, headers⟩).items = .arr xs)
    ∧ (∀ fields, truthy (lookupField "items" fields) = false →
        lookupField "data" fields = .arr xs →
        (Categories.queryFn ⟨.obj fields, headers⟩).items = .arr xs)
    ∧ (∀ body, isArray body = false → truthy (optChain body "items") = false →
        truthy (optChain body "data") = false →
        (Categories.queryFn ⟨body, headers⟩).items = .arr [])
    ∧ (∀ body, isArray body = false → isArray (optChain body "items") = false →
        isArray (optChain body "data") = false →
        Categories.categories (some (Categories.queryFn ⟨body, headers⟩)) = []) := by
  refine ⟨?_, ?_, ?_, ?_, ?_⟩
  · simp [Categories.queryFn, isArray]
  · intro fields h
    have e : optChain (.obj fields) "items" = .arr xs := by
      simp [optChain, isNullish, getProp, h]
    simp [Categories.queryFn, isArray, e, jsOr]
  · intro fields h1 h2
    have e1 : optChain (.obj fields) "items" = lookupField "items" fields := by
      simp [optChain, isNullish, getProp]
    have e2 : optChain (.obj fields) "data" = .arr xs := by
      simp [optChain, isNullish, getProp, h2]
    simp only [Categories.queryFn, isArray, e1, e2, jsOr_of_falsy _ h1]
    simp [jsOr]
  · intro body h0 h1 h2
    simp only [Categories.queryFn, h0, jsOr_of_falsy _ h1, jsOr_of_falsy _ h2]
    simp
  · intro body h0 h1 h2
    simp only [Categories.queryFn, h0, Categories.categories]
    by_cases t1 : truthy (optChain body "items") = true
    · rw [jsOr_of_truthy _ t1, jsOr_of_truthy _ t1]
      cases hb : optChain body "items" <;> simp_all [isArray]
    · have t1f : truthy (optChain body "items") = false := by simpa using t1
      rw [jsOr_of_falsy _ t1f]
      by_cases t2 : truthy (optChain body "data") = true
      · rw [jsOr_of_truthy _ t2]
        cases hb : optChain body "data" <;> simp_all [isArray]
      · have t2f : truthy (optChain body "data") = false := by simpa using t2
        rw [jsOr_of_falsy _ t2f]
        simp

/-- C5, at a concrete response: the body `{ data: ["a", "b"] }`. -/
theorem categories_items_normalised_witness :
    (Categories.queryFn
      ⟨.obj [("data", .arr [.str "a", .str "b"])], .obj []⟩).items
      = .arr [.str "a", .str "b"] :=
  (categories_items_normalised [.str "a", .str "b"] (.obj [])).2.2.1
    [("data", .arr [.str "a", .str "b"])] rfl rfl

/-- C6. The Categories total is the same `T` whether a positive `T` is what
`Number` reads from the body's `total`, from the body's `pagination.total`
(when `total` gives no non-zero number) or from the `x-total-count` header
(when neither body field gives one): the body fields win over the header.
When none of the three gives a non-zero number and the extracted items are a
sequence, the total is the number of items.  In particular a header whose
value is the decimal numeral of a positive integer `n` gives the total `n`. -/
theorem categories_total_normalised (res : AxiosResponse) (T : ℚ) (hT : 0 < T) :
    (toNumber (optChain res.data "total") = .fin T →
        (Categories.queryFn res).total = .ofRat T)
    ∧ ((toNumber (optChain res.data "total")).truthy = false →
        toNumber (optChain (optChain res.data "pagination") "total") = .fin T →
        (Categories.queryFn res).total = .ofRat T)
    ∧ ((toNumber (optChain res.data "total")).truthy = false →
        (toNumber (optChain (optChain res.data "pagination") "total")).truthy = false →
        toNumber (optChain res.headers "x-total-count") = .fin T →
        (Categories.queryFn res).total = .ofRat T)
    ∧ ((toNumber (optChain res.data "total")).truthy = false →
        (toNumber (optChain (optChain res.data "pagination") "total")).truthy = false →
        (toNumber (optChain res.headers "x-total-count")).truthy = false →
        ∀ xs, (Categories.queryFn res).items = .arr xs →
          (Categories.queryFn res).total = .ofNat xs.length)
    ∧ (∀ n : ℕ, 0 < n → (toNumber (optChain res.data "total")).truthy = false →
        (toNumber (optChain (optChain res.data "pagination") "total")).truthy = false →
        optChain res.headers "x-total-count" = .str (toJsString (.ofNat n)) →
        (Categories.queryFn res).total = .ofNat n) := by
  have hne : T ≠ 0 := ne_of_gt hT
  have hTt : (JsNum.fin T).truthy = true := by simp [hne]
  have hv : truthy (.num (.fin T)) = true := by simpa using hne
  refine ⟨?_, ?_, ?_, ?_, ?_⟩
  rotate_right
  · intro n hn h1 h2 h3
    have hn0 : ((n : ℚ)) ≠ 0 := by exact_mod_cast (Nat.pos_iff_ne_zero.mp hn)
    have hnt : (JsNum.fin (n : ℚ)).truthy = true := by simp [hn0]
    have hnv : truthy (.num (.fin (n : ℚ))) = true := by simpa using hn0
    have h4 : toNumber (optChain res.headers "x-total-count") = .fin n := by
      rw [h3]; exact toNumber_toJsString_ofNat n
    simp only [Categories.queryFn, h4, jsNum_or_of_falsy _ h1, jsNum_or_of_falsy _ h2,
      jsNum_or_of_truthy _ hnt]
    rw [jsOr_of_falsy (a := .num (.fin 0)) _ (by simp),
      jsOr_of_truthy (a := .num (.fin (n : ℚ))) _ hnv]
    rfl
  · intro h
    simp only [Categories.queryFn, h, jsNum_or_of_truthy _ hTt]
    rw [jsOr_of_truthy (a := .num (.fin T)) _ hv, jsOr_of_truthy (a := .num (.fin T)) _ hv]
    rfl
  · intro h1 h2
    simp only [Categories.queryFn, h2, jsNum_or_of_falsy _ h1, jsNum_or_of_truthy _ hTt]
    rw [jsOr_of_truthy (a := .num (.fin T)) _ hv, jsOr_of_truthy (a := .num (.fin T)) _ hv]
    rfl
  · intro h1 h2 h3
    simp only [Categories.queryFn, h3, jsNum_or_of_falsy _ h1, jsNum_or_of_falsy _ h2,
      jsNum_or_of_truthy _ hTt]
    rw [jsOr_of_falsy (a := .num (.fin 0)) _ (by simp),
      jsOr_of_truthy (a := .num (.fin T)) _ hv]
    rfl
  · intro h1 h2 h3 xs hx
    simp only [Categories.queryFn] at hx
    simp only [Categories.queryFn, hx, jsNum_or_of_falsy _ h1, jsNum_or_of_falsy _ h2,
      jsNum_or_of_falsy _ h3]
    rw [jsOr_of_falsy (a := .num (.fin 0)) _ (by simp),
      jsOr_of_falsy (a := .num (.fin 0)) _ (by simp)]
    simp [getProp]

/-- C6, at concrete responses: the total 42 given as the header string `"42"`
next to a body that is a bare sequence. -/
theorem categories_total_normalised_witness :
    (Categories.queryFn
      ⟨.arr [.str "a"], .obj [("x-total-count", .str "42")]⟩).total = .ofRat 42 :=
  (categories_total_normalised ⟨.arr [.str "a"], .obj [("x-total-count", .str "42")]⟩ 42
    (by norm_num)).2.2.1 rfl rfl (by with_unfolding_all rfl)

/-- C7, as stated, fails: the Products and Orders queries do not read
`items`, so the body `{ items: ["x"] }` yields the empty sequence; and for the
bare sequence `["x"]`, which carries no total, they report 0, not 1. -/
theorem products_orders_normalisation_counterexample :
    (Products.queryFn ⟨.obj [("items", .arr [.str "x"])], .obj []⟩).items = .arr []
    ∧ (Orders.queryFn ⟨.obj [("items", .arr [.str "x"])], .obj []⟩).items = .arr []
    ∧ (Products.queryFn ⟨.obj [("items", .arr [.str "x"])], .obj []⟩).items ≠ .arr [.str "x"]
    ∧ (Orders.queryFn ⟨.obj [("items", .arr [.str "x"])], .obj []⟩).items ≠ .arr [.str "x"]
    ∧ (Products.queryFn ⟨.arr [.str "x"], .obj []⟩).total = .ofNat 0
    ∧ (Orders.queryFn ⟨.arr [.str "x"], .obj []⟩).total = .ofNat 0
    ∧ (Categories.queryFn ⟨.obj [("items", .arr [.str "x"])], .obj []⟩).items = .arr [.str "x"]
    ∧ (Categories.queryFn ⟨.arr [.str "x"], .obj []⟩).total = .ofNat 1 := by
  have e : (Products.queryFn ⟨.obj [("items", .arr [.str "x"])], .obj []⟩).items = .arr [] := rfl
  have e2 : (Orders.queryFn ⟨.obj [("items", .arr [.str "x"])], .obj []⟩).items = .arr [] := rfl
  refine ⟨e, e2, ?_, ?_, ?_, ?_, rfl, ?_⟩
  · rw [e]; simp
  · rw [e2]; simp
  · with_unfolding_all rfl
  · with_unfolding_all rfl
  · with_unfolding_all rfl

/-- C7, amended.  The Products and Orders queries read two body shapes: for
every item sequence `xs` they extract `xs` when the body is `xs` itself or an
object whose `data` is `xs`; an object without `data` (such as one carrying the
sequence under `items`) yields the empty sequence; and when the body carries no
`total` the reported total is 0, whatever the headers and the items. -/
theorem products_orders_items_normalised (xs : List JsVal) (headers : JsVal) :
    ((Products.queryFn ⟨.arr xs, headers⟩).items = .arr xs
      ∧ (Orders.queryFn ⟨.arr xs, headers⟩).items = .arr xs)
    ∧ (∀ fields, lookupField "data" fields = .arr xs →
        (Products.queryFn ⟨.obj fields, headers⟩).items = .arr xs
        ∧ (Orders.queryFn ⟨.obj fields, headers⟩).items = .arr xs)
    ∧ (∀ fields, truthy (lookupField "data" fields) = false →
        (Products.queryFn ⟨.obj fields, headers⟩).items = .arr []
        ∧ (Orders.queryFn ⟨.obj fields, headers⟩).items = .arr [])
    ∧ (∀ body, truthy (optChain body "total") = false →
        (Products.queryFn ⟨body, headers⟩).total = .ofNat 0
        ∧ (Orders.queryFn ⟨body, headers⟩).total = .ofNat 0) := by
  refine ⟨⟨?_, ?_⟩, ?_, ?_, ?_⟩
  · simp [Products.queryFn, isArray]
  · simp [Orders.queryFn, isArray]
  · intro fields h
    have e : optChain (.obj fields) "data" = .arr xs := by
      simp [optChain, isNullish, getProp, h]
    constructor
    · simp [Products.queryFn, isArray, e, jsOr]
    · simp [Orders.queryFn, isArray, e, jsOr]
  · intro fields h
    have e : optChain (.obj fields) "data" = lookupField "data" fields := by
      simp [optChain, isNullish, getProp]
    constructor
    · simp only [Products.queryFn, isArray, e, jsOr_of_falsy _ h]
      simp
    · simp only [Orders.queryFn, isArray, e, jsOr_of_falsy _ h]
      simp
  · intro body h
    constructor
    · simp only [Products.queryFn, jsOr_of_falsy _ h]
      simp [toNumber, JsVal.ofNat]
    · simp only [Orders.queryFn, jsOr_of_falsy _ h]
      simp [toNumber, JsVal.ofNat]

/-- C7 amended, at a concrete response: the body `{ data: ["a"] }`. -/
theorem products_orders_items_normalised_witness :
    (Products.queryFn ⟨.obj [("data", .arr [.str "a"])], .obj []⟩).items = .arr [.str "a"]
    ∧ (Orders.queryFn ⟨.obj [("data", .arr [.str "a"])], .obj []⟩).items = .arr [.str "a"] :=
  (products_orders_items_normalised [.str "a"] (.obj [])).2.1 [("data", .arr [.str "a"])] rfl

/-! ## Properties: pagination and ordering in the Categories view -/

theorem totalCount_ofRat (items pages : JsVal) (t : ℚ) :
    Categories.totalCount (some ⟨items, .ofRat t, pages⟩) = .fin t := by
  unfold Categories.totalCount
  by_cases h : t = 0
  · subst h
    rw [jsOr_of_falsy _ (by simp [JsVal.ofRat])]
    simp [toNumber, JsVal.ofNat]
  · rw [jsOr_of_truthy _ (by simp [JsVal.ofRat, h])]
    simp [toNumber, JsVal.ofRat]

theorem jsNum_or_fin_zero (t : ℚ) : JsNum.or (.fin t) (.fin 0) = .fin t := by
  by_cases h : t = 0 <;> simp [JsNum.or, h]

theorem mathMax_one_fin (c : ℤ) : mathMax (.fin 1) (.fin c) = .fin ((max 1 c : ℤ) : ℚ) := by
  unfold mathMax
  by_cases h : (1 : ℤ) < c
  · have : (1 : ℚ) < c := by exact_mod_cast h
    simp [JsNum.lt, this, max_eq_right (le_of_lt h)]
  · have h2 : ¬ (1 : ℚ) < c := by exact_mod_cast h
    simp [JsNum.lt, h2, max_eq_left (not_lt.mp h)]

theorem totalPages_ofRat (items pages : JsVal) (t l : ℚ) (hl : 0 < l) :
    Categories.totalPages (some ⟨items, .ofRat t, pages⟩) (.fin l)
      = .fin ((max 1 ⌈t / l⌉ : ℤ) : ℚ) := by
  have hlne : l ≠ 0 := ne_of_gt hl
  unfold Categories.totalPages
  rw [totalCount_ofRat, jsNum_or_fin_zero, jsNum_or_of_truthy (a := .fin l) _ (by simp [hlne])]
  simp only [JsNum.div, hlne, if_false, mathCeil]
  exact mathMax_one_fin _

/-- C8. In the Categories view, for every total `t ≥ 0` held by the list data
and every limit `l` among 10, 20 and 50, `totalPages` is
`max(1, ceil(t / l))`; it is at least 1, `totalPages * l ≥ t`, and when
`t > 0` also `(totalPages - 1) * l < t`.  For the response body
`{ items: [{ id: 1, name: "Shoes", sortId: 2 }], total: 1 }` and limit 10,
whatever the headers, the view renders exactly that one item and `totalPages`
is 1. -/
theorem categories_totalPages (items pages : JsVal) (t l : ℚ) (_ht : 0 ≤ t)
    (hl : l = 10 ∨ l = 20 ∨ l = 50) :
    (Categories.totalPages (some ⟨items, .ofRat t, pages⟩) (.fin l)
        = .fin ((max 1 ⌈t / l⌉ : ℤ) : ℚ)
      ∧ (1 : ℤ) ≤ max 1 ⌈t / l⌉
      ∧ t ≤ ((max 1 ⌈t / l⌉ : ℤ) : ℚ) * l
      ∧ (0 < t → (((max 1 ⌈t / l⌉ : ℤ) : ℚ) - 1) * l < t))
    ∧ (∀ headers : JsVal,
        Categories.filtered (some (Categories.queryFn ⟨shoesBody, headers⟩)) = [shoesCategory]
        ∧ Categories.totalPages (some (Categories.queryFn ⟨shoesBody, headers⟩)) (.fin 10)
            = .fin 1) := by
  have hlpos : 0 < l := by rcases hl with h | h | h <;> rw [h] <;> norm_num
  refine ⟨⟨totalPages_ofRat items pages t l hlpos, le_max_left _ _, ?_, ?_⟩, ?_⟩
  · have h1 : t / l ≤ (⌈t / l⌉ : ℚ) := Int.le_ceil _
    have h2 : (⌈t / l⌉ : ℚ) ≤ ((max 1 ⌈t / l⌉ : ℤ) : ℚ) := by exact_mod_cast le_max_right _ _
    have h3 : t / l ≤ ((max 1 ⌈t / l⌉ : ℤ) : ℚ) := le_trans h1 h2
    rwa [div_le_iff₀ hlpos] at h3
  · intro htp
    have hpos : 0 < t / l := div_pos htp hlpos
    have hc : (1 : ℤ) ≤ ⌈t / l⌉ := Int.one_le_ceil_iff.mpr hpos
    rw [max_eq_right hc]
    have h1 : (⌈t / l⌉ : ℚ) < t / l + 1 := Int.ceil_lt_add_one _
    have h2 : (⌈t / l⌉ : ℚ) - 1 < t / l := by linarith
    rwa [lt_div_iff₀ hlpos] at h2
  · intro headers
    have ht : toNumber (optChain shoesBody "total") = .fin 1 := by with_unfolding_all rfl
    have hi : (Categories.queryFn ⟨shoesBody, headers⟩).items = .arr [shoesCategory] := rfl
    have hq : (Categories.queryFn ⟨shoesBody, headers⟩).total = .ofRat 1 := by
      simp only [Categories.queryFn, ht]
      rfl
    constructor
    · simp only [Categories.filtered, Categories.categories, hi]
      rfl
    · generalize Categories.queryFn ⟨shoesBody, headers⟩ = d at hq
      obtain ⟨i, tt, pp⟩ := d
      simp only at hq
      subst hq
      rw [totalPages_ofRat i pp 1 10 (by norm_num)]
      have hc : ⌈(1 : ℚ) / 10⌉ = 1 := by with_unfolding_all rfl
      rw [hc]; rfl

/-- C8, at a concrete total: 21 items at 10 per page make 3 pages. -/
theorem categories_totalPages_witness :
    Categories.totalPages (some ⟨.arr [], .ofRat 21, .undefined⟩) (.fin 10)
      = .fin ((max 1 ⌈(21 : ℚ) / 10⌉ : ℤ) : ℚ)
    ∧ ((max 1 ⌈(21 : ℚ) / 10⌉ : ℤ) : ℚ) = 3 :=
  ⟨(categories_totalPages (.arr []) .undefined 21 10 (by norm_num) (Or.inl rfl)).1.1,
    by with_unfolding_all rfl⟩

/-- Insertion sort yields a sorted list as soon as the relation is total and
transitive on the elements of the list. -/
theorem pairwise_orderedInsert_of {α : Type} (r : α → α → Prop) [DecidableRel r] (P : α → Prop)
    (htot : ∀ a b, P a → P b → r a b ∨ r b a)
    (htr : ∀ a b c, P a → P b → P c → r a b → r b c → r a c)
    (a : α) (ha : P a) :
    ∀ l : List α, (∀ x ∈ l, P x) → l.Pairwise r → (l.orderedInsert r a).Pairwise r := by
  intro l
  induction l with
  | nil => intro _ _; simp
  | cons b l ih =>
    intro hP hs
    have hb : P b := hP b (List.mem_cons_self _ _)
    have hl : ∀ x ∈ l, P x := fun x hx => hP x (List.mem_cons_of_mem _ hx)
    rw [List.pairwise_cons] at hs
    by_cases hab : r a b
    · simp only [List.orderedInsert, hab, if_true]
      refine List.pairwise_cons.mpr ⟨?_, List.pairwise_cons.mpr hs⟩
      intro x hx
      rcases List.mem_cons.mp hx with hx | hx
      · rw [hx]; exact hab
      · exact htr a b x ha hb (hl x hx) hab (hs.1 x hx)
    · have hba : r b a := (htot a b ha hb).resolve_left hab
      simp only [List.orderedInsert, hab, if_false]
      refine List.pairwise_cons.mpr ⟨?_, ih hl hs.2⟩
      intro x hx
      rcases (List.mem_orderedInsert r).mp hx with hx | hx
      · rw [hx]; exact hba
      · exact hs.1 x hx

theorem pairwise_insertionSort_of {α : Type} (r : α → α → Prop) [DecidableRel r] (P : α → Prop)
    (htot : ∀ a b, P a → P b → r a b ∨ r b a)
    (htr : ∀ a b c, P a → P b → P c → r a b → r b c → r a c) :
    ∀ l : List α, (∀ x ∈ l, P x) → (l.insertionSort r).Pairwise r := by
  intro l
  induction l with
  | nil => intro _; simp
  | cons b l ih =>
    intro hP
    have hb : P b := hP b (List.mem_cons_self _ _)
    have hl : ∀ x ∈ l, P x := fun x hx => hP x (List.mem_cons_of_mem _ hx)
    simp only [List.insertionSort]
    refine pairwise_orderedInsert_of r P htot htr b hb _ ?_ (ih hl)
    intro x hx
    exact hl x ((List.mem_insertionSort r).mp hx)

theorem jsNum_keeps_iff_le (a b : JsNum) (ha : a ≠ .nan) (hb : b ≠ .nan) :
    JsNum.gt (JsNum.sub a b) (.fin 0) = false ↔ JsNum.le a b = true := by
  cases a with
  | nan => exact absurd rfl ha
  | inf s =>
    cases b with
    | nan => exact absurd rfl hb
    | inf t => cases s <;> cases t <;> simp [JsNum.gt, JsNum.sub, JsNum.neg, JsNum.add, JsNum.lt, JsNum.le]
    | fin y => cases s <;> simp [JsNum.gt, JsNum.sub, JsNum.neg, JsNum.add, JsNum.lt, JsNum.le]
  | fin x =>
    cases b with
    | nan => exact absurd rfl hb
    | inf t => cases t <;> simp [JsNum.gt, JsNum.sub, JsNum.neg, JsNum.add, JsNum.lt, JsNum.le]
    | fin y =>
      simp [JsNum.gt, JsNum.sub, JsNum.neg, JsNum.add, JsNum.lt, JsNum.le]

theorem jsNum_le_total (a b : JsNum) (ha : a ≠ .nan) (hb : b ≠ .nan) :
    JsNum.le a b = true ∨ JsNum.le b a = true := by
  cases a with
  | nan => exact absurd rfl ha
  | inf s =>
    cases b with
    | nan => exact absurd rfl hb
    | inf t => cases s <;> cases t <;> simp [JsNum.le]
    | fin y => cases s <;> simp [JsNum.le]
  | fin x =>
    cases b with
    | nan => exact absurd rfl hb
    | inf t => cases t <;> simp [JsNum.le]
    | fin y => simp [JsNum.le]; exact le_total x y

theorem jsNum_le_trans (a b c : JsNum) (hab : JsNum.le a b = true) (hbc : JsNum.le b c = true) :
    JsNum.le a c = true := by
  cases a with
  | nan => simp [JsNum.le] at hab
  | inf s =>
    cases b with
    | nan => simp [JsNum.le] at hbc
    | inf t =>
      cases c with
      | nan => cases t <;> simp [JsNum.le] at hbc
      | inf u => cases s <;> cases t <;> cases u <;> simp_all [JsNum.le]
      | fin z => cases s <;> cases t <;> simp_all [JsNum.le]
    | fin y =>
      cases c with
      | nan => simp [JsNum.le] at hbc
      | inf u => cases s <;> cases u <;> simp_all [JsNum.le]
      | fin z => cases s <;> simp_all [JsNum.le]
  | fin x =>
    cases b with
    | nan => simp [JsNum.le] at hbc
    | inf t =>
      cases c with
      | nan => cases t <;> simp [JsNum.le] at hbc
      | inf u => cases t <;> cases u <;> simp_all [JsNum.le]
      | fin z => cases t <;> simp_all [JsNum.le]
    | fin y =>
      cases c with
      | nan => simp [JsNum.le] at hbc
      | inf u => cases u <;> simp_all [JsNum.le]
      | fin z =>
        simp only [JsNum.le, decide_eq_true_eq] at *
        exact le_trans hab hbc

theorem jsNum_le_antisymm (a b : JsNum) (hab : JsNum.le a b = true) (hba : JsNum.le b a = true) :
    a = b := by
  cases a with
  | nan => simp [JsNum.le] at hab
  | inf s =>
    cases b with
    | nan => simp [JsNum.le] at hba
    | inf t => cases s <;> cases t <;> simp_all [JsNum.le]
    | fin y => cases s <;> simp_all [JsNum.le]
  | fin x =>
    cases b with
    | nan => simp [JsNum.le] at hab
    | inf t => cases t <;> simp_all [JsNum.le]
    | fin y =>
      simp only [JsNum.le, decide_eq_true_eq] at *
      rw [le_antisymm hab hba]

theorem optChain_obj (fields : List (String × JsVal)) (key : String) :
    optChain (.obj fields) key = lookupField key fields := rfl

theorem jsNullish_of_nullish {a : JsVal} (b : JsVal) (h : isNullish a = true) :
    jsNullish a b = b := by
  simp [jsNullish, h]

theorem jsNullish_of_value {a : JsVal} (b : JsVal) (h : isNullish a = false) :
    jsNullish a b = a := by
  simp [jsNullish, h]

theorem isUndefined_eq_false {x : JsVal} (h : x ≠ .undefined) : isUndefined x = false := by
  cases x <;> simp_all [isUndefined]

theorem arraySort_eq_insertionSort (cmp : JsVal → JsVal → JsNum) (xs : List JsVal)
    (hdef : ∀ x ∈ xs, x ≠ .undefined) :
    arraySort cmp xs = xs.insertionSort (sortKeeps cmp) := by
  unfold arraySort
  have h1 : xs.filter (fun x => !isUndefined x) = xs := by
    apply List.filter_eq_self.mpr
    intro x hx
    simp [isUndefined_eq_false (hdef x hx)]
  have h2 : xs.filter isUndefined = [] := by
    apply List.filter_eq_nil_iff.mpr
    intro x hx
    simp [isUndefined_eq_false (hdef x hx)]
  rw [h1, h2, List.append_nil]

theorem filtered_perm_sorted (xs : List JsVal) (total pages : JsVal)
    (hdef : ∀ x ∈ xs, x ≠ .undefined) (hnum : ∀ x ∈ xs, Categories.sortKey x ≠ .nan) :
    (Categories.filtered (some ⟨.arr xs, total, pages⟩)).Perm xs
    ∧ (Categories.filtered (some ⟨.arr xs, total, pages⟩)).Pairwise
        (fun a b => JsNum.le (Categories.sortKey a) (Categories.sortKey b) = true) := by
  have e : Categories.filtered (some ⟨.arr xs, total, pages⟩)
      = xs.insertionSort (sortKeeps Categories.compareSort) := by
    simp only [Categories.filtered, Categories.categories]
    exact arraySort_eq_insertionSort _ xs hdef
  rw [e]
  refine ⟨List.perm_insertionSort _ xs, ?_⟩
  have hs := pairwise_insertionSort_of (sortKeeps Categories.compareSort)
    (fun x => Categories.sortKey x ≠ .nan)
    (fun a b ha hb => by
      rcases jsNum_le_total _ _ ha hb with h | h
      · left; exact (jsNum_keeps_iff_le _ _ ha hb).mpr h
      · right; exact (jsNum_keeps_iff_le _ _ hb ha).mpr h)
    (fun a b c ha hb hc hab hbc =>
      (jsNum_keeps_iff_le _ _ ha hc).mpr
        (jsNum_le_trans _ _ _ ((jsNum_keeps_iff_le _ _ ha hb).mp hab)
          ((jsNum_keeps_iff_le _ _ hb hc).mp hbc)))
    xs hnum
  have hmem : ∀ x ∈ xs.insertionSort (sortKeeps Categories.compareSort),
      Categories.sortKey x ≠ .nan :=
    fun x hx => hnum x ((List.mem_insertionSort _).mp hx)
  exact hs.imp_of_mem (fun {a b} ha hb hab => (jsNum_keeps_iff_le _ _ (hmem a ha) (hmem b hb)).mp hab)

/-- C9. For every fetched category sequence `xs` (decoded items, so none is
`undefined`) whose sort keys are numbers, the sequence the Categories view
renders is a permutation of `xs`, is in non-decreasing order of the key, and
its keys do not depend on the order in which `xs` arrived.  The key of an item
is `Number(sortId)`, or `Number(sort)` when `sortId` is absent (or `null`), or
0 when both are; items with `sortId` 3, 1, 2 are rendered in the order
1, 2, 3. -/
theorem categories_filtered_sorted (xs : List JsVal) (total pages : JsVal)
    (hdef : ∀ x ∈ xs, x ≠ .undefined) (hnum : ∀ x ∈ xs, Categories.sortKey x ≠ .nan) :
    ((Categories.filtered (some ⟨.arr xs, total, pages⟩)).Perm xs
      ∧ (Categories.filtered (some ⟨.arr xs, total, pages⟩)).Pairwise
          (fun a b => JsNum.le (Categories.sortKey a) (Categories.sortKey b) = true)
      ∧ (∀ ys : List JsVal, ys.Perm xs →
          (Categories.filtered (some ⟨.arr ys, total, pages⟩)).map Categories.sortKey
            = (Categories.filtered (some ⟨.arr xs, total, pages⟩)).map Categories.sortKey))
    ∧ (∀ fields, isNullish (lookupField "sortId" fields) = false →
        Categories.sortKey (.obj fields) = toNumber (lookupField "sortId" fields))
    ∧ (∀ fields, isNullish (lookupField "sortId" fields) = true →
        isNullish (lookupField "sort" fields) = false →
        Categories.sortKey (.obj fields) = toNumber (lookupField "sort" fields))
    ∧ (∀ fields, isNullish (lookupField "sortId" fields) = true →
        isNullish (lookupField "sort" fields) = true →
        Categories.sortKey (.obj fields) = .fin 0)
    ∧ Categories.filtered (some ⟨.arr [categoryWithSortId 3, categoryWithSortId 1, categoryWithSortId 2], total, pages⟩)
        = [categoryWithSortId 1, categoryWithSortId 2, categoryWithSortId 3] := by
  obtain ⟨hp, hs⟩ := filtered_perm_sorted xs total pages hdef hnum
  refine ⟨⟨hp, hs, ?_⟩, ?_, ?_, ?_, ?_⟩
  · intro ys hys
    obtain ⟨hp2, hs2⟩ := filtered_perm_sorted ys total pages
      (fun x hx => hdef x (hys.mem_iff.mp hx)) (fun x hx => hnum x (hys.mem_iff.mp hx))
    haveI : IsAntisymm JsNum (fun a b => JsNum.le a b = true) := ⟨jsNum_le_antisymm⟩
    refine List.eq_of_perm_of_sorted (r := fun a b => JsNum.le a b = true) ?_ ?_ ?_
    · exact ((hp2.trans hys).trans hp.symm).map _
    · exact List.pairwise_map.mpr hs2
    · exact List.pairwise_map.mpr hs
  · intro fields h
    simp only [Categories.sortKey, optChain_obj]
    rw [jsNullish_of_value _ h, jsNullish_of_value _ h]
  · intro fields h1 h2
    simp only [Categories.sortKey, optChain_obj]
    rw [jsNullish_of_nullish _ h1, jsNullish_of_value _ h2]
  · intro fields h1 h2
    simp only [Categories.sortKey, optChain_obj]
    rw [jsNullish_of_nullish _ h1, jsNullish_of_nullish _ h2]
    rfl
  · with_unfolding_all rfl

/-- C9, at a concrete sequence: keys 2 (from `sort`), 1 and 0 (no key). -/
theorem categories_filtered_sorted_witness :
    (Categories.filtered (some ⟨.arr [.obj [("sort", .ofNat 2)], categoryWithSortId 1, .obj []],
        .undefined, .undefined⟩)).Perm [.obj [("sort", .ofNat 2)], categoryWithSortId 1, .obj []]
    ∧ Categories.filtered (some ⟨.arr [.obj [("sort", .ofNat 2)], categoryWithSortId 1, .obj []],
        .undefined, .undefined⟩) = [.obj [], categoryWithSortId 1, .obj [("sort", .ofNat 2)]] :=
  ⟨(categories_filtered_sorted [.obj [("sort", .ofNat 2)], categoryWithSortId 1, .obj []]
      .undefined .undefined
      (by intro x hx; simp at hx; rcases hx with h | h | h <;> rw [h] <;> simp [categoryWithSortId])
      (by
        intro x hx
        simp at hx
        rcases hx with h | h | h <;> rw [h] <;> intro hk
        · have e : Categories.sortKey (.obj [("sort", .ofNat 2)]) = .fin 2 := by
            with_unfolding_all rfl
          rw [e] at hk; cases hk
        · have e : Categories.sortKey (categoryWithSortId 1) = .fin 1 := by
            with_unfolding_all rfl
          rw [e] at hk; cases hk
        · have e : Categories.sortKey (.obj []) = .fin 0 := by
            with_unfolding_all rfl
          rw [e] at hk; cases hk)).1.1,
    by with_unfolding_all rfl⟩

/-! ## Properties: pagination state of the three views -/

theorem onLimitChange_limit (o : LimitOption) (s : PageState) :
    LimitIsOffered (onLimitChange o s) := by
  cases o
  · left; with_unfolding_all rfl
  · right; left; with_unfolding_all rfl
  · right; right; with_unfolding_all rfl

theorem onPrevious_page_ge (s : PageState) (h : PageIsAtLeastOne s) :
    PageIsAtLeastOne (onPrevious s) := by
  obtain ⟨q, hq, hp⟩ := h
  by_cases hlt : (1 : ℚ) < q + -1
  · exact ⟨q + -1, le_of_lt hlt, by
      simp [onPrevious, hp, JsNum.sub, JsNum.neg, JsNum.add, mathMax, JsNum.lt, hlt]⟩
  · exact ⟨1, le_refl _, by
      simp [onPrevious, hp, JsNum.sub, JsNum.neg, JsNum.add, mathMax, JsNum.lt, hlt]⟩

theorem onPrevious_page_int (s : PageState) (h : PageIsPositiveInteger s) :
    PageIsPositiveInteger (onPrevious s) := by
  obtain ⟨n, hn, hp⟩ := h
  by_cases hlt : (1 : ℚ) < (n : ℚ) + -1
  · refine ⟨n - 1, ?_, ?_⟩
    · have : (1 : ℚ) < ((n - 1 : ℤ) : ℚ) := by push_cast; linarith
      have h2 : (1 : ℤ) < n - 1 := by exact_mod_cast this
      omega
    · simp [onPrevious, hp, JsNum.sub, JsNum.neg, JsNum.add, mathMax, JsNum.lt, hlt]
      ring
  · exact ⟨1, le_refl _, by
      simp [onPrevious, hp, JsNum.sub, JsNum.neg, JsNum.add, mathMax, JsNum.lt, hlt]⟩

theorem ge_false_of_nextEnabled {n : JsNum} {isLoading : Bool} {s : PageState}
    (hn : n.truthy = true) (h : nextDisabled n isLoading s = false) :
    JsNum.ge s.page n = false := by
  simp only [nextDisabled, hn, if_true, Bool.or_eq_false_iff] at h
  exact h.2

theorem onNext_page_ge (n : JsNum) (s : PageState) (hn : n.truthy = true)
    (hen : JsNum.ge s.page n = false) (h : PageIsAtLeastOne s) :
    PageIsAtLeastOne (onNext n s) := by
  obtain ⟨p, hp1, hp⟩ := h
  cases n with
  | nan => simp at hn
  | inf b =>
    cases b
    · exact ⟨p + 1, by linarith, by simp [onNext, hp, JsNum.add, mathMin, JsNum.lt]⟩
    · simp [JsNum.ge, JsNum.le, hp] at hen
  | fin q =>
    have hlt : p < q := by
      simpa [JsNum.ge, JsNum.le, hp] using hen
    by_cases hc : p + 1 < q
    · exact ⟨p + 1, by linarith, by simp [onNext, hp, JsNum.add, mathMin, JsNum.lt, hc, hn]⟩
    · refine ⟨q, by linarith, ?_⟩
      have hq0 : q ≠ 0 := by linarith
      simp [onNext, hp, JsNum.add, mathMin, JsNum.lt, hc, hq0]

theorem onNext_page_int (n : JsNum) (s : PageState) (hn : n.truthy = true)
    (hint : n = .inf false ∨ n.isInteger = true)
    (hen : JsNum.ge s.page n = false) (h : PageIsPositiveInteger s) :
    PageIsPositiveInteger (onNext n s) := by
  obtain ⟨p, hp1, hp⟩ := h
  cases n with
  | nan => simp at hn
  | inf b =>
    cases b
    · exact ⟨p + 1, by omega, by simp [onNext, hp, JsNum.add, mathMin, JsNum.lt]⟩
    · simp [JsNum.isInteger] at hint
  | fin q =>
    have hden : q.den = 1 := by
      rcases hint with h | h
      · cases h
      · simpa [JsNum.isInteger] using h
    have hq : q = (q.num : ℚ) := (Rat.coe_int_num_of_den_eq_one hden).symm
    have hlt : (p : ℚ) < q := by
      simpa [JsNum.ge, JsNum.le, hp] using hen
    by_cases hc : (p : ℚ) + 1 < q
    · exact ⟨p + 1, by omega, by simp [onNext, hp, JsNum.add, mathMin, JsNum.lt, hc, hn]⟩
    · refine ⟨q.num, ?_, ?_⟩
      · have h1 : (p : ℚ) < (q.num : ℚ) := by rw [← hq]; exact hlt
        have h2 : p < q.num := by exact_mod_cast h1
        omega
      · have hq0 : q ≠ 0 := by
          have : (1 : ℚ) ≤ p := by exact_mod_cast hp1
          linarith
        simp [onNext, hp, JsNum.add, mathMin, JsNum.lt, hc, hq0]
        exact hq

theorem totalPages_shape (data : Option ListResult) (limit : JsNum)
    (hl : limit = .fin 10 ∨ limit = .fin 20 ∨ limit = .fin 50) :
    Categories.totalPages data limit = .inf false
    ∨ ∃ k : ℤ, 1 ≤ k ∧ Categories.totalPages data limit = .fin k := by
  obtain ⟨l, hlim, hlpos⟩ : ∃ l : ℚ, limit = .fin l ∧ 0 < l := by
    rcases hl with h | h | h
    · exact ⟨10, h, by norm_num⟩
    · exact ⟨20, h, by norm_num⟩
    · exact ⟨50, h, by norm_num⟩
  have hlne : l ≠ 0 := ne_of_gt hlpos
  have hnl : ¬ l < 0 := not_lt.mpr (le_of_lt hlpos)
  subst hlim
  unfold Categories.totalPages
  rw [jsNum_or_of_truthy (a := .fin l) _ (by simp [hlne])]
  cases hc : Categories.totalCount data with
  | nan =>
    right
    refine ⟨1, le_refl _, ?_⟩
    simp [JsNum.or, JsNum.div, hlne, mathCeil, mathMax, JsNum.lt]
  | inf b =>
    cases b
    · left
      simp [JsNum.or, JsNum.div, hnl, mathCeil, mathMax, JsNum.lt]
    · right
      refine ⟨1, le_refl _, ?_⟩
      simp [JsNum.or, JsNum.div, hnl, mathCeil, mathMax, JsNum.lt]
  | fin t =>
    right
    refine ⟨max 1 ⌈t / l⌉, le_max_left _ _, ?_⟩
    rw [jsNum_or_fin_zero]
    simp only [JsNum.div, hlne, if_false, mathCeil]
    exact mathMax_one_fin _

theorem products_pages_truthy (res : Option AxiosResponse) :
    (Products.pages (res.map Products.queryFn)).truthy = true := by
  cases res with
  | none =>
    have e : Products.pages (Option.map Products.queryFn none) = .fin 1 := by
      with_unfolding_all rfl
    rw [e]; simp
  | some r =>
    simp only [Option.map, Products.pages, Products.queryFn]
    by_cases h : (toNumber (jsOr (optChain r.data "pages") (JsVal.ofNat 1))).truthy = true
    · rw [jsOr_of_truthy _ (by simpa using h)]
      exact h
    · have hf : (toNumber (jsOr (optChain r.data "pages") (JsVal.ofNat 1))).truthy = false := by
        simpa using h
      rw [jsOr_of_falsy _ (by simpa using hf)]
      simp [toNumber, JsVal.ofNat]

theorem orders_pages_truthy (res : Option AxiosResponse) :
    (Orders.pages (res.map Orders.queryFn)).truthy = true :=
  products_pages_truthy res

theorem reachable_int_of_step (pageCount : Option AxiosResponse → PageState → JsNum)
    (admissible : JsNum → Prop)
    (hcount : ∀ res s, LimitIsOffered s → admissible (pageCount res s) →
      (pageCount res s).truthy = true
      ∧ (pageCount res s = .inf false ∨ (pageCount res s).isInteger = true))
    (s : PageState) (h : ReachableBy (ViewStep pageCount admissible) s) :
    PageIsPositiveInteger s ∧ LimitIsOffered s := by
  induction h with
  | init => exact ⟨⟨1, le_refl _, by simp [PageState.init]⟩, Or.inl rfl⟩
  | step _ hstep ih =>
    cases hstep with
    | previous isLoading _ _ => exact ⟨onPrevious_page_int _ ih.1, ih.2⟩
    | next res isLoading _ hadm hen =>
      obtain ⟨ht, hi⟩ := hcount res _ ih.2 hadm
      exact ⟨onNext_page_int _ _ ht hi (ge_false_of_nextEnabled ht hen) ih.1, ih.2⟩
    | changeLimit o _ => exact ⟨⟨1, le_refl _, by simp [onLimitChange]⟩, onLimitChange_limit o _⟩

theorem reachable_ge_of_step (pageCount : Option AxiosResponse → PageState → JsNum)
    (admissible : JsNum → Prop)
    (hcount : ∀ res s, (pageCount res s).truthy = true)
    (s : PageState) (h : ReachableBy (ViewStep pageCount admissible) s) :
    PageIsAtLeastOne s ∧ LimitIsOffered s := by
  induction h with
  | init => exact ⟨⟨1, le_refl _, rfl⟩, Or.inl rfl⟩
  | step _ hstep ih =>
    cases hstep with
    | previous isLoading _ _ => exact ⟨onPrevious_page_ge _ ih.1, ih.2⟩
    | next res isLoading _ hadm hen =>
      exact ⟨onNext_page_ge _ _ (hcount res _)
        (ge_false_of_nextEnabled (hcount res _) hen) ih.1, ih.2⟩
    | changeLimit o _ => exact ⟨⟨1, le_refl _, rfl⟩, onLimitChange_limit o _⟩

/-- C10, amended.  From `(page = 1, limit = 10)`, every sequence of enabled
Previous, Next and change-limit actions keeps `limit` among 10, 20 and 50 in
the three views.  In the Categories view, under every list response, `page`
stays an integer `≥ 1`.  In the Products and Orders views `page` stays an
integer `≥ 1` under every response whose `pages` reads as an integer (an absent
`pages` reads as 1), and under every response whatsoever it stays a finite
number `≥ 1`.  Every change-limit action leaves `page = 1`. -/
theorem pagination_invariant :
    (∀ s, ReachableBy (ViewStep Categories.pageCount anyPageCount) s →
      PageIsPositiveInteger s ∧ LimitIsOffered s)
    ∧ (∀ s, ReachableBy (ViewStep Products.pageCount integerPageCount) s →
      PageIsPositiveInteger s ∧ LimitIsOffered s)
    ∧ (∀ s, ReachableBy (ViewStep Orders.pageCount integerPageCount) s →
      PageIsPositiveInteger s ∧ LimitIsOffered s)
    ∧ (∀ s, ReachableBy (ViewStep Products.pageCount anyPageCount) s →
      PageIsAtLeastOne s ∧ LimitIsOffered s)
    ∧ (∀ s, ReachableBy (ViewStep Orders.pageCount anyPageCount) s →
      PageIsAtLeastOne s ∧ LimitIsOffered s)
    ∧ (∀ (o : LimitOption) (s : PageState), (onLimitChange o s).page = .fin 1) := by
  refine ⟨?_, ?_, ?_, ?_, ?_, fun _ _ => rfl⟩
  · intro s h
    refine reachable_int_of_step _ _ ?_ s h
    intro res s hl _
    rcases totalPages_shape (res.map Categories.queryFn) s.limit hl with h | ⟨k, hk, h⟩
    · exact ⟨by simp [Categories.pageCount, h], Or.inl h⟩
    · refine ⟨?_, Or.inr ?_⟩
      · have hk0 : (k : ℚ) ≠ 0 := by
          have : (1 : ℚ) ≤ k := by exact_mod_cast hk
          linarith
        simp [Categories.pageCount, h, hk0]
      · simp [Categories.pageCount, h, JsNum.isInteger]
  · intro s h
    refine reachable_int_of_step _ _ ?_ s h
    intro res s _ hadm
    exact ⟨products_pages_truthy res, Or.inr hadm⟩
  · intro s h
    refine reachable_int_of_step _ _ ?_ s h
    intro res s _ hadm
    exact ⟨orders_pages_truthy res, Or.inr hadm⟩
  · intro s h
    exact reachable_ge_of_step _ _ (fun res _ => products_pages_truthy res) s h
  · intro s h
    exact reachable_ge_of_step _ _ (fun res _ => orders_pages_truthy res) s h

/-- C10, as stated, fails in the Products and Orders views: with list
responses whose body is `{ data: [], total: 25, pages: 2.5 }`, two enabled
clicks on Next lead from page 1 to page 2 and then to page 2.5, which is not an
integer. -/
theorem pagination_integer_counterexample :
    ReachableBy (ViewStep Products.pageCount anyPageCount) ⟨.fin (5 / 2), .fin 10⟩
    ∧ ReachableBy (ViewStep Orders.pageCount anyPageCount) ⟨.fin (5 / 2), .fin 10⟩
    ∧ ¬ PageIsPositiveInteger ⟨.fin (5 / 2), .fin 10⟩ := by
  refine ⟨?_, ?_, ?_⟩
  · have h1 : onNext (Products.pageCount (some fractionalPagesResponse) PageState.init)
        PageState.init = ⟨.fin 2, .fin 10⟩ := by with_unfolding_all rfl
    have h2 : onNext (Products.pageCount (some fractionalPagesResponse) ⟨.fin 2, .fin 10⟩)
        ⟨.fin 2, .fin 10⟩ = ⟨.fin (5 / 2), .fin 10⟩ := by with_unfolding_all rfl
    have r1 : ReachableBy (ViewStep Products.pageCount anyPageCount) ⟨.fin 2, .fin 10⟩ :=
      h1 ▸ ReachableBy.step ReachableBy.init
        (ViewStep.next (some fractionalPagesResponse) false PageState.init trivial
          (by with_unfolding_all rfl))
    exact h2 ▸ ReachableBy.step r1
      (ViewStep.next (some fractionalPagesResponse) false ⟨.fin 2, .fin 10⟩ trivial
        (by with_unfolding_all rfl))
  · have h1 : onNext (Orders.pageCount (some fractionalPagesResponse) PageState.init)
        PageState.init = ⟨.fin 2, .fin 10⟩ := by with_unfolding_all rfl
    have h2 : onNext (Orders.pageCount (some fractionalPagesResponse) ⟨.fin 2, .fin 10⟩)
        ⟨.fin 2, .fin 10⟩ = ⟨.fin (5 / 2), .fin 10⟩ := by with_unfolding_all rfl
    have r1 : ReachableBy (ViewStep Orders.pageCount anyPageCount) ⟨.fin 2, .fin 10⟩ :=
      h1 ▸ ReachableBy.step ReachableBy.init
        (ViewStep.next (some fractionalPagesResponse) false PageState.init trivial
          (by with_unfolding_all rfl))
    exact h2 ▸ ReachableBy.step r1
      (ViewStep.next (some fractionalPagesResponse) false ⟨.fin 2, .fin 10⟩ trivial
        (by with_unfolding_all rfl))
  · rintro ⟨n, _, hn⟩
    simp only [JsNum.fin.injEq] at hn
    have h2 : ((5 : ℤ) : ℚ) = ((2 * n : ℤ) : ℚ) := by push_cast; linarith
    have h3 : (5 : ℤ) = 2 * n := by exact_mod_cast h2
    omega

/-- C10 amended, at a concrete run of the Categories view: choose 20 per page,
then click Next with 45 items reported. -/
theorem pagination_invariant_witness :
    PageIsPositiveInteger ⟨.fin 2, .fin 20⟩ ∧ LimitIsOffered ⟨.fin 2, .fin 20⟩ := by
  have h0 : onLimitChange LimitOption.twenty PageState.init = ⟨.fin 1, .fin 20⟩ := by
    with_unfolding_all rfl
  have h1 : onNext (Categories.pageCount
        (some ⟨.obj [("items", .arr []), ("total", .ofNat 45)], .obj []⟩) ⟨.fin 1, .fin 20⟩)
        ⟨.fin 1, .fin 20⟩ = ⟨.fin 2, .fin 20⟩ := by with_unfolding_all rfl
  have r0 : ReachableBy (ViewStep Categories.pageCount anyPageCount) ⟨.fin 1, .fin 20⟩ :=
    h0 ▸ ReachableBy.step ReachableBy.init (ViewStep.changeLimit LimitOption.twenty PageState.init)
  have r1 : ReachableBy (ViewStep Categories.pageCount anyPageCount) ⟨.fin 2, .fin 20⟩ :=
    h1 ▸ ReachableBy.step r0
      (ViewStep.next (some ⟨.obj [("items", .arr []), ("total", .ofNat 45)], .obj []⟩) false
        ⟨.fin 1, .fin 20⟩ trivial (by with_unfolding_all rfl))
  exact pagination_invariant.1 _ r1

/-! ## Properties: sign-in, sign-out and header consistency -/

theorem signin_userRegistered_false (data : JsVal) (s : AuthState)
    (h : optChain data "userRegistered" = .bool false) :
    signin (.ok data) s = .ok (.userRegisteredFalse, s) := by
  simp [signin, h]

theorem signin_with_token (data : JsVal) (s : AuthState)
    (h : optChain data "userRegistered" ≠ .bool false)
    (ht : truthy (optChain data "token") = true) :
    signin (.ok data) s = .ok (.success,
      { s with
        token := optChain data "token",
        client := setAuthToken (optChain data "token") s.client,
        user := .obj (setField "isAdmin" (.bool true) (spreadFields (optChain data "user"))) }) := by
  unfold signin
  simp only
  generalize optChain data "userRegistered" = u at h
  cases u with
  | bool b => cases b <;> simp_all
  | _ => simp [ht]

theorem signin_without_token (data : JsVal) (s : AuthState)
    (h : optChain data "userRegistered" ≠ .bool false)
    (ht : truthy (optChain data "token") = false) :
    signin (.ok data) s = .ok (.success, s) := by
  unfold signin
  simp only
  generalize optChain data "userRegistered" = u at h
  cases u with
  | bool b => cases b <;> simp_all
  | _ => simp [ht]

theorem signin_success_exists (data : JsVal) (s : AuthState)
    (h : optChain data "userRegistered" ≠ .bool false) :
    ∃ s1, signin (.ok data) s = .ok (.success, s1) := by
  by_cases ht : truthy (optChain data "token") = true
  · exact ⟨_, signin_with_token data s h ht⟩
  · exact ⟨s, signin_without_token data s h (by simpa using ht)⟩

/-- C11. `signin` returns `{ userRegistered: false }` exactly when the response
body has `userRegistered` strictly equal to `false`, and then the whole session
(token, user, default header, persisted token) is as before; for every other
2xx response it returns `{ success: true }`; and when the request fails it
throws the error and the session is as before. -/
theorem signin_outcomes (s : AuthState) :
    (∀ data : JsVal, optChain data "userRegistered" = .bool false →
      signin (.ok data) s = .ok (.userRegisteredFalse, s)
      ∧ sessionAfterSignin (.ok data) s = s)
    ∧ (∀ data : JsVal, optChain data "userRegistered" ≠ .bool false →
      ∃ s1, signin (.ok data) s = .ok (.success, s1))
    ∧ (∀ (data : JsVal) (s1 : AuthState),
      signin (.ok data) s = .ok (.userRegisteredFalse, s1) ↔
        (optChain data "userRegistered" = .bool false ∧ s1 = s))
    ∧ (∀ e : JsVal, signin (.error e) s = .error e ∧ sessionAfterSignin (.error e) s = s) := by
  refine ⟨?_, ?_, ?_, ?_⟩
  · intro data h
    have e := signin_userRegistered_false data s h
    exact ⟨e, by simp [sessionAfterSignin, e]⟩
  · intro data h
    exact signin_success_exists data s h
  · intro data s1
    constructor
    · intro hs
      by_cases h : optChain data "userRegistered" = .bool false
      · rw [signin_userRegistered_false data s h] at hs
        simp only [Except.ok.injEq, Prod.mk.injEq, true_and] at hs
        exact ⟨h, hs.symm⟩
      · obtain ⟨s2, h2⟩ := signin_success_exists data s h
        rw [h2] at hs
        simp at hs
    · rintro ⟨h, rfl⟩
      exact signin_userRegistered_false data s1 h
  · intro e
    exact ⟨rfl, rfl⟩

/-- C11, at a concrete response: the body `{ userRegistered: false }`. -/
theorem signin_outcomes_witness :
    signin (.ok (.obj [("userRegistered", .bool false)])) (AuthProvider.init ⟨none, none⟩)
      = .ok (.userRegisteredFalse, AuthProvider.init ⟨none, none⟩)
    ∧ sessionAfterSignin (.ok (.obj [("userRegistered", .bool false)]))
        (AuthProvider.init ⟨none, none⟩) = AuthProvider.init ⟨none, none⟩ :=
  (signin_outcomes (AuthProvider.init ⟨none, none⟩)).1 (.obj [("userRegistered", .bool false)]) rfl

theorem setAuthToken_of_truthy (token : JsVal) (c : ClientState) (h : truthy token = true) :
    setAuthToken token c
      = { defaultAuthorization := some ("Bearer " ++ toJsString token),
          storedToken := some (toJsString token) } := by
  simp [setAuthToken, h]

theorem setAuthToken_of_falsy (token : JsVal) (c : ClientState) (h : truthy token = false) :
    setAuthToken token c = { defaultAuthorization := none, storedToken := none } := by
  simp [setAuthToken, h]

/-- C12, as stated, fails: for the 2xx response body `{ user: { email } }`,
which carries no token, `signin` returns `{ success: true }` on a signed-out
session and leaves it signed out: no token, no user, nothing persisted, and
`isAuthenticated` false. -/
theorem signin_tokenless_counterexample :
    signin (.ok (.obj [("user", .obj [("email", .str "a@b.c")])]))
        (AuthProvider.effect (AuthProvider.init ⟨none, none⟩))
      = .ok (.success, AuthProvider.effect (AuthProvider.init ⟨none, none⟩))
    ∧ (AuthProvider.effect (AuthProvider.init ⟨none, none⟩)).token = .null
    ∧ (AuthProvider.effect (AuthProvider.init ⟨none, none⟩)).user = .null
    ∧ (AuthProvider.effect (AuthProvider.init ⟨none, none⟩)).client.storedToken = none
    ∧ (useAuth (AuthProvider.effect (AuthProvider.init ⟨none, none⟩))).isAuthenticated = false :=
  ⟨rfl, rfl, rfl, rfl, rfl⟩

/-- C12, amended.  For every sign-in response whose `userRegistered` is not
`false`: when it carries a non-empty string token `t`, `signin` returns
`{ success: true }` and the session then holds the token `t`, a user object
with `isAdmin: true`, the persisted token `t` and the header `"Bearer " ++ t`,
so `isAuthenticated` is true, and the token effect keeps all this; for any
truthy token the session holds it and persists its string form; and when the
response carries no token, `signin` still returns `{ success: true }` and
leaves the session as it was. -/
theorem signin_success_session (data : JsVal) (s : AuthState)
    (h : optChain data "userRegistered" ≠ .bool false) :
    (∀ t : String, optChain data "token" = .str t → t ≠ "" →
      ∃ s1, signin (.ok data) s = .ok (.success, s1)
        ∧ s1.token = .str t
        ∧ (∃ fields, s1.user = .obj fields ∧ lookupField "isAdmin" fields = .bool true)
        ∧ s1.client.storedToken = some t
        ∧ s1.client.defaultAuthorization = some ("Bearer " ++ t)
        ∧ (useAuth s1).isAuthenticated = true
        ∧ (AuthProvider.effect s1).token = .str t
        ∧ (∃ fields, (AuthProvider.effect s1).user = .obj fields)
        ∧ (AuthProvider.effect s1).client.storedToken = some t)
    ∧ (∀ tok : JsVal, optChain data "token" = tok → truthy tok = true →
      ∃ s1, signin (.ok data) s = .ok (.success, s1)
        ∧ s1.token = tok
        ∧ s1.client.storedToken = some (toJsString tok))
    ∧ (truthy (optChain data "token") = false → signin (.ok data) s = .ok (.success, s)) := by
  refine ⟨?_, ?_, ?_⟩
  · intro t ht hne
    have htr : truthy (optChain data "token") = true := by rw [ht]; simp [hne]
    refine ⟨_, signin_with_token data s h htr, ?_⟩
    have htr2 : truthy (JsVal.str t) = true := by simp [hne]
    refine ⟨ht, ⟨_, rfl, lookupField_setField_same _ _ _⟩, ?_, ?_, ?_, ?_, ?_, ?_⟩
    · simp [ht, setAuthToken_of_truthy _ _ htr2, toJsString]
    · simp [ht, setAuthToken_of_truthy _ _ htr2, toJsString]
    · simp [useAuth, ht, hne]
    · simp [AuthProvider.effect, ht, hne]
    · simp [AuthProvider.effect, ht, hne]
    · simp [AuthProvider.effect, ht, hne, setAuthToken_of_truthy _ _ htr2, toJsString]
  · intro tok ht htr
    have htr' : truthy (optChain data "token") = true := by rw [ht]; exact htr
    refine ⟨_, signin_with_token data s h htr', ht, ?_⟩
    simp [ht, setAuthToken_of_truthy _ _ htr]
  · intro hf
    exact signin_without_token data s h hf

/-- C12 amended, at a concrete response: `{ token: "t1", user: { name } }`. -/
theorem signin_success_session_witness :
    ∃ s1, signin (.ok (.obj [("token", .str "t1"), ("user", .obj [("name", .str "Ann")])]))
        (AuthProvider.init ⟨none, none⟩) = .ok (.success, s1)
      ∧ s1.token = .str "t1"
      ∧ (∃ fields, s1.user = .obj fields ∧ lookupField "isAdmin" fields = .bool true)
      ∧ s1.client.storedToken = some "t1"
      ∧ s1.client.defaultAuthorization = some ("Bearer " ++ "t1")
      ∧ (useAuth s1).isAuthenticated = true
      ∧ (AuthProvider.effect s1).token = .str "t1"
      ∧ (∃ fields, (AuthProvider.effect s1).user = .obj fields)
      ∧ (AuthProvider.effect s1).client.storedToken = some "t1" :=
  (signin_success_session (.obj [("token", .str "t1"), ("user", .obj [("name", .str "Ann")])])
    (AuthProvider.init ⟨none, none⟩) (by simp [optChain, isNullish, getProp, lookupField])).1
    "t1" rfl (by decide)

theorem signout_signedOut (s : AuthState) : SignedOut (signout s) := by
  simp [SignedOut, signout, setAuthToken]

/-- C13. From every session state `signout` leaves `token = null`,
`user = null`, no default `Authorization` header and no persisted token; doing
it twice is the same as doing it once; on a state that is already signed out it
changes nothing; and the token effect that follows keeps the session signed
out. -/
theorem signout_idempotent (s : AuthState) :
    SignedOut (signout s)
    ∧ signout (signout s) = signout s
    ∧ (SignedOut s → signout s = s)
    ∧ SignedOut (AuthProvider.effect (signout s)) := by
  refine ⟨signout_signedOut s, ?_, ?_, ?_⟩
  · simp [signout, setAuthToken]
  · rintro ⟨h1, h2, h3, h4⟩
    obtain ⟨token, user, loading, client⟩ := s
    obtain ⟨stored, hdr⟩ := client
    simp only at h1 h2 h3 h4
    subst h1 h2 h3 h4
    simp [signout, setAuthToken]
  · simp [SignedOut, signout, AuthProvider.effect, setAuthToken]

/-- C13, at a concrete signed-out state. -/
theorem signout_idempotent_witness :
    signout { token := .null, user := .null, loading := false, client := ⟨none, none⟩ }
      = { token := .null, user := .null, loading := false, client := ⟨none, none⟩ } :=
  (signout_idempotent
    { token := .null, user := .null, loading := false, client := ⟨none, none⟩ }).2.2.1
    ⟨rfl, rfl, rfl, rfl⟩

theorem setAuthToken_consistent (token : JsVal) (c : ClientState) :
    AuthHeaderConsistent (setAuthToken token c) := by
  by_cases h : truthy token = true
  · rw [setAuthToken_of_truthy _ _ h]
    refine ⟨rfl, ?_⟩
    intro t ht
    simp only [Option.some.injEq] at ht
    simp [ht]
  · rw [setAuthToken_of_falsy _ _ (by simpa using h)]
    exact ⟨rfl, fun t ht => by simp at ht⟩

theorem effect_client (s : AuthState) :
    (AuthProvider.effect s).client
      = setAuthToken (if truthy s.token then s.token else .null) s.client := by
  unfold AuthProvider.effect
  split <;> rfl

/-- C16. After each token change of the session store (the token effect,
a `signin` that receives a token, `signout`) the default `Authorization` header
is present exactly when a token is persisted and is then `"Bearer "` followed
by the persisted token.  Whenever a non-empty token is persisted the request
interceptor writes that same header value, and a string token is never
persisted as the empty string. -/
theorem authorization_consistent (s : AuthState) :
    AuthHeaderConsistent (AuthProvider.effect s).client
    ∧ (∀ (data : JsVal) (s1 : AuthState), truthy (optChain data "token") = true →
        signin (.ok data) s = .ok (.success, s1) → AuthHeaderConsistent s1.client)
    ∧ AuthHeaderConsistent (signout s).client
    ∧ (∀ (c : ClientState) (config : RequestConfig) (t : String),
        AuthHeaderConsistent c → c.storedToken = some t → t ≠ "" →
        ∃ hs, (requestInterceptor c config).headers = some hs
          ∧ c.defaultAuthorization = some ("Bearer " ++ t)
          ∧ lookupField "Authorization" hs = .str ("Bearer " ++ t))
    ∧ (∀ (tok : String) (c : ClientState),
        (setAuthToken (.str tok) c).storedToken ≠ some "") := by
  refine ⟨?_, ?_, ?_, ?_, ?_⟩
  · rw [effect_client]; exact setAuthToken_consistent _ _
  · intro data s1 ht hs
    by_cases hu : optChain data "userRegistered" = .bool false
    · rw [signin_userRegistered_false data s hu] at hs
      simp at hs
    · rw [signin_with_token data s hu ht] at hs
      simp only [Except.ok.injEq, Prod.mk.injEq, true_and] at hs
      rw [← hs]
      exact setAuthToken_consistent (optChain data "token") s.client
  · exact setAuthToken_consistent _ _
  · intro c config t hc ht hne
    refine ⟨setField "Authorization" (.str ("Bearer " ++ t)) (config.headers.getD []), ?_,
      hc.2 t ht, lookupField_setField_same _ _ _⟩
    simp [requestInterceptor, getItemToken, ht, hne, toJsString]
  · intro tok c
    by_cases h : tok = ""
    · subst h
      simp [setAuthToken]
    · simp [setAuthToken, h, toJsString]

/-- C16, at a concrete rehydration: the stored token `"t0"`. -/
theorem authorization_consistent_witness :
    AuthHeaderConsistent (AuthProvider.effect (AuthProvider.init ⟨some "t0", none⟩)).client
    ∧ (AuthProvider.effect (AuthProvider.init ⟨some "t0", none⟩)).client
        = ⟨some "t0", some "Bearer t0"⟩ :=
  ⟨(authorization_consistent (AuthProvider.init ⟨some "t0", none⟩)).1, rfl⟩

/-! ## Properties: login page -/

/-- C14. For every location `L` (with a non-empty path, as every router
location has): `ProtectedRoute` sends an unauthenticated visit to `L` to
`/login` with `state.from = L`, and a submission of the login form there whose
`signin` succeeds navigates, replacing, to the path of `L`.  When no original
location was recorded (`state` is `null` or has no `from.pathname`) the
destination is `/admin`. -/
theorem postLogin_destination {Children : Type} (L : Location) (children : Children)
    (requireAdmin isAdmin : Bool) (key : String) (hp : L.pathname ≠ "") :
    (∃ loginLocation : Location,
      (ProtectedRoute ⟨false, isAdmin, false⟩ L children requireAdmin).destination key
        = some loginLocation
      ∧ loginLocation.pathname = "/login"
      ∧ ∀ (response : Except JsVal JsVal) (s s1 : AuthState) (serverError : String),
          signin response s = .ok (.success, s1) →
          LoginPage.submit loginLocation.state response s serverError
            = ("", some { target := .str L.pathname, replace := true }, s1))
    ∧ (∀ (state : JsVal) (response : Except JsVal JsVal) (s s1 : AuthState)
        (serverError : String),
        truthy (optChain (optChain state "from") "pathname") = false →
        signin response s = .ok (.success, s1) →
        LoginPage.submit state response s serverError
          = ("", some { target := .str "/admin", replace := true }, s1))
    ∧ truthy (optChain (optChain JsVal.null "from") "pathname") = false
    ∧ truthy (optChain (optChain JsVal.undefined "from") "pathname") = false := by
  refine ⟨⟨_, rfl, rfl, ?_⟩, ?_, rfl, rfl⟩
  · intro response s s1 serverError hs
    have hd : jsOr (optChain (optChain (JsVal.obj [("from", L.toJs)]) "from") "pathname")
        (.str "/admin") = .str L.pathname := by
      have e : optChain (optChain (JsVal.obj [("from", L.toJs)]) "from") "pathname"
          = .str L.pathname := rfl
      rw [e, jsOr_of_truthy _ (by simp [hp])]
    simp only [LoginPage.submit, LoginPage.onSubmit, sessionAfterSignin, hs, Except.map]
    rw [hd]
  · intro state response s s1 serverError hf hs
    simp only [LoginPage.submit, LoginPage.onSubmit, sessionAfterSignin, hs, Except.map]
    rw [jsOr_of_falsy _ hf]

/-- C14, at a concrete location: `/admin/products?page=2`. -/
theorem postLogin_destination_witness :
    ∃ loginLocation : Location,
      (ProtectedRoute ⟨false, false, false⟩
          (⟨"/admin/products", "?page=2", "", .null, "k1"⟩ : Location) () true).destination "k2"
        = some loginLocation
      ∧ loginLocation.pathname = "/login"
      ∧ ∀ (response : Except JsVal JsVal) (s s1 : AuthState) (serverError : String),
          signin response s = .ok (.success, s1) →
          LoginPage.submit loginLocation.state response s serverError
            = ("", some { target := .str "/admin/products", replace := true }, s1) :=
  (postLogin_destination ⟨"/admin/products", "?page=2", "", .null, "k1"⟩ () true false "k2"
    (by decide)).1

/-- C15. A submission of the login form navigates exactly when `signin`
succeeds.  When `signin` returns `{ userRegistered: false }` the page shows
"Account not found. Please register first." and does not navigate; when
`signin` throws it shows "Invalid credentials" and does not navigate; the two
messages differ, and the session is as before in both cases. -/
theorem login_failure_messages (locationState : JsVal) (s : AuthState) (serverError : String) :
    (∀ data : JsVal, optChain data "userRegistered" = .bool false →
      LoginPage.submit locationState (.ok data) s serverError
        = (LoginPage.accountNotFoundMessage, none, s))
    ∧ (∀ e : JsVal,
      LoginPage.submit locationState (.error e) s serverError
        = (LoginPage.invalidCredentialsMessage, none, s))
    ∧ LoginPage.onSubmit locationState (.ok .userRegisteredFalse) serverError
        = (LoginPage.accountNotFoundMessage, none)
    ∧ (∀ e : JsVal, LoginPage.onSubmit locationState (.error e) serverError
        = (LoginPage.invalidCredentialsMessage, none))
    ∧ (∀ response : Except JsVal JsVal,
        (LoginPage.submit locationState response s serverError).2.1 = none ↔
          ¬ ∃ s1, signin response s = .ok (.success, s1))
    ∧ LoginPage.accountNotFoundMessage = "Account not found. Please register first."
    ∧ LoginPage.invalidCredentialsMessage = "Invalid credentials"
    ∧ LoginPage.accountNotFoundMessage ≠ LoginPage.invalidCredentialsMessage := by
  have h1 : ∀ data : JsVal, optChain data "userRegistered" = .bool false →
      LoginPage.submit locationState (.ok data) s serverError
        = (LoginPage.accountNotFoundMessage, none, s) := by
    intro data h
    simp [LoginPage.submit, LoginPage.onSubmit, sessionAfterSignin,
      signin_userRegistered_false data s h, Except.map]
  have h2 : ∀ e : JsVal, LoginPage.submit locationState (.error e) s serverError
        = (LoginPage.invalidCredentialsMessage, none, s) := by
    intro e
    simp [LoginPage.submit, LoginPage.onSubmit, sessionAfterSignin, signin, Except.map]
  refine ⟨h1, h2, rfl, fun _ => rfl, ?_, rfl, rfl, by decide⟩
  intro response
  cases response with
  | error e =>
    rw [h2 e]
    simp [signin]
  | ok data =>
    by_cases hu : optChain data "userRegistered" = .bool false
    · rw [h1 data hu, signin_userRegistered_false data s hu]
      simp
    · obtain ⟨s1, hs⟩ := signin_success_exists data s hu
      simp [LoginPage.submit, LoginPage.onSubmit, hs, Except.map]

/-- C15, at a concrete response: the body `{ userRegistered: false }`. -/
theorem login_failure_messages_witness :
    LoginPage.submit .null (.ok (.obj [("userRegistered", .bool false)]))
        (AuthProvider.init ⟨none, none⟩) ""
      = (LoginPage.accountNotFoundMessage, none, AuthProvider.init ⟨none, none⟩) :=
  (login_failure_messages .null (AuthProvider.init ⟨none, none⟩) "").1
    (.obj [("userRegistered", .bool false)]) rfl

/-! ## Properties: asset upload, continued -/

theorem upload_after_sign (m : SupabaseModule) (w : UploadWorld) (file : JsFile)
    (client : SupabaseClient) (data : JsVal) (hsz : file.size ≤ 5 * 1024 * 1024)
    (hc : m.supabase = some client) (hs : w.signResponse = .ok data) :
    uploadImageViaSignedUrl m w (some file)
      = if !truthy (getProp (signedTicket data) "token")
            || !truthy (getProp (signedTicket data) "objectPath") then
          (.error .noSignedToken, [NetCall.signPost file.name (uploadContentType file)])
        else if truthy w.uploadError then
          (.error (.storage w.uploadError),
            [NetCall.signPost file.name (uploadContentType file),
             NetCall.storageUpload client (targetBucket m (signedTicket data))
               (getProp (signedTicket data) "objectPath") (getProp (signedTicket data) "token")
               (uploadContentType file)])
        else
          (.ok (resolvedPublicUrl m w (signedTicket data)),
            [NetCall.signPost file.name (uploadContentType file),
             NetCall.storageUpload client (targetBucket m (signedTicket data))
               (getProp (signedTicket data) "objectPath") (getProp (signedTicket data) "token")
               (uploadContentType file)]) := by
  have h2 : ¬ file.size > maxUploadBytes := by
    simp only [maxUploadBytes]; omega
  simp only [uploadImageViaSignedUrl, h2, if_false, hc, hs, signedTicket, uploadContentType,
    targetBucket, resolvedPublicUrl]

/-- C17. For a file within the size limit, a configured client and every
response body of `POST /uploads/sign`: the upload fails with the signed-token
error exactly when the ticket lacks a truthy `token` or a truthy `objectPath`,
and then the sign request is the only request sent (no upload to storage) and
no URL is returned.  When both are present the upload to storage is attempted,
and the call returns a URL unless the storage rejects it. -/
theorem upload_sign_response (m : SupabaseModule) (w : UploadWorld) (file : JsFile)
    (client : SupabaseClient) (data : JsVal) (hsz : file.size ≤ 5 * 1024 * 1024)
    (hc : m.supabase = some client) (hs : w.signResponse = .ok data) :
    ((truthy (getProp (signedTicket data) "token") = false
        ∨ truthy (getProp (signedTicket data) "objectPath") = false) →
      uploadImageViaSignedUrl m w (some file)
        = (.error .noSignedToken, [NetCall.signPost file.name (uploadContentType file)]))
    ∧ ((uploadImageViaSignedUrl m w (some file)).1 = .error .noSignedToken ↔
        (truthy (getProp (signedTicket data) "token") = false
          ∨ truthy (getProp (signedTicket data) "objectPath") = false))
    ∧ (truthy (getProp (signedTicket data) "token") = true →
        truthy (getProp (signedTicket data) "objectPath") = true →
        NetCall.storageUpload client (targetBucket m (signedTicket data))
            (getProp (signedTicket data) "objectPath") (getProp (signedTicket data) "token")
            (uploadContentType file) ∈ (uploadImageViaSignedUrl m w (some file)).2
        ∧ (truthy w.uploadError = false →
            (uploadImageViaSignedUrl m w (some file)).1
              = .ok (resolvedPublicUrl m w (signedTicket data)))
        ∧ (truthy w.uploadError = true →
            (uploadImageViaSignedUrl m w (some file)).1 = .error (.storage w.uploadError))) := by
  have e := upload_after_sign m w file client data hsz hc hs
  refine ⟨?_, ?_, ?_⟩
  · rintro (h | h) <;> simp [e, h]
  · constructor
    · intro h
      rw [e] at h
      by_cases ht : truthy (getProp (signedTicket data) "token") = true
      · by_cases ho : truthy (getProp (signedTicket data) "objectPath") = true
        · by_cases hu : truthy w.uploadError = true <;> simp [ht, ho, hu] at h
        · right; simpa using ho
      · left; simpa using ht
    · rintro (h | h) <;> simp [e, h]
  · intro ht ho
    refine ⟨?_, ?_, ?_⟩
    · by_cases hu : truthy w.uploadError = true <;> simp [e, ht, ho, hu]
    · intro hu; simp [e, ht, ho, hu]
    · intro hu; simp [e, ht, ho, hu]

/-- C17, at a concrete response: a ticket with a token but no `objectPath`. -/
theorem upload_sign_response_witness :
    uploadImageViaSignedUrl (loadSupabaseModule "https://s.example" "key" "")
        ⟨.ok (.obj [("token", .str "tk")]), .null, fun _ _ => .null⟩
        (some ⟨"a.png", "image/png", 10⟩)
      = (.error .noSignedToken, [NetCall.signPost "a.png" (uploadContentType ⟨"a.png", "image/png", 10⟩)]) :=
  (upload_sign_response (loadSupabaseModule "https://s.example" "key" "")
    ⟨.ok (.obj [("token", .str "tk")]), .null, fun _ _ => .null⟩ ⟨"a.png", "image/png", 10⟩
    ⟨"https://s.example", "key"⟩ (.obj [("token", .str "tk")]) (by decide) rfl rfl).1
    (Or.inr rfl)

theorem upload_ok_inversion (m : SupabaseModule) (w : UploadWorld) (file : JsFile) (v : JsVal)
    (h : (uploadImageViaSignedUrl m w (some file)).1 = .ok v) :
    file.size ≤ 5 * 1024 * 1024
    ∧ ∃ client data, m.supabase = some client ∧ w.signResponse = .ok data
      ∧ truthy (getProp (signedTicket data) "token") = true
      ∧ truthy (getProp (signedTicket data) "objectPath") = true
      ∧ truthy w.uploadError = false := by
  by_cases hsz : file.size > maxUploadBytes
  · simp [uploadImageViaSignedUrl, hsz] at h
  · have hsz2 : file.size ≤ 5 * 1024 * 1024 := by
      simp only [maxUploadBytes] at hsz; omega
    refine ⟨hsz2, ?_⟩
    cases hc : m.supabase with
    | none => simp [uploadImageViaSignedUrl, hsz, hc] at h
    | some client =>
      cases hs : w.signResponse with
      | error e => simp [uploadImageViaSignedUrl, hsz, hc, hs] at h
      | ok data =>
        rw [upload_after_sign m w file client data hsz2 hc hs] at h
        refine ⟨client, data, rfl, rfl, ?_⟩
        by_cases ht : truthy (getProp (signedTicket data) "token") = true
        · by_cases ho : truthy (getProp (signedTicket data) "objectPath") = true
          · by_cases hu : truthy w.uploadError = true
            · simp [ht, ho, hu] at h
            · exact ⟨ht, ho, by simpa using hu⟩
          · simp [ht, ho] at h
        · simp [ht] at h

/-- C18. For every successful upload, one bucket is used for the upload and
for the public-URL lookup: the ticket's bucket when it is truthy, otherwise the
module's `SUPABASE_BUCKET`, which after load is the configured bucket (or
`"interview"`) and never empty.  The URL returned is the `publicUrl` the
storage client gives for `objectPath` in that bucket when it is truthy,
otherwise the ticket's `publicUrl`, otherwise the empty string.  When the
storage returns an error, that error is thrown and no URL is returned. -/
theorem upload_bucket_and_url (m : SupabaseModule) (w : UploadWorld) (file : JsFile)
    (v : JsVal) (h : (uploadImageViaSignedUrl m w (some file)).1 = .ok v) :
    (∃ client data, m.supabase = some client ∧ w.signResponse = .ok data
      ∧ v = resolvedPublicUrl m w (signedTicket data)
      ∧ (uploadImageViaSignedUrl m w (some file)).2
          = [NetCall.signPost file.name (uploadContentType file),
             NetCall.storageUpload client (targetBucket m (signedTicket data))
               (getProp (signedTicket data) "objectPath") (getProp (signedTicket data) "token")
               (uploadContentType file)])
    ∧ (∀ ticket : JsVal,
        (truthy (getProp ticket "bucket") = true → targetBucket m ticket = getProp ticket "bucket")
        ∧ (truthy (getProp ticket "bucket") = false → m.SUPABASE_BUCKET ≠ "" →
            targetBucket m ticket = .str m.SUPABASE_BUCKET)
        ∧ (truthy (optChain (w.publicUrlData (targetBucket m ticket) (getProp ticket "objectPath"))
              "publicUrl") = true →
            resolvedPublicUrl m w ticket
              = optChain (w.publicUrlData (targetBucket m ticket) (getProp ticket "objectPath"))
                  "publicUrl")
        ∧ (truthy (optChain (w.publicUrlData (targetBucket m ticket) (getProp ticket "objectPath"))
              "publicUrl") = false →
            (truthy (getProp ticket "publicUrl") = true →
              resolvedPublicUrl m w ticket = getProp ticket "publicUrl")
            ∧ (truthy (getProp ticket "publicUrl") = false →
              resolvedPublicUrl m w ticket = .str "")))
    ∧ (∀ envUrl envKey envBucket : String,
        (loadSupabaseModule envUrl envKey envBucket).SUPABASE_BUCKET ≠ ""
        ∧ (envBucket ≠ "" →
            (loadSupabaseModule envUrl envKey envBucket).SUPABASE_BUCKET = envBucket)
        ∧ (envBucket = "" →
            (loadSupabaseModule envUrl envKey envBucket).SUPABASE_BUCKET = "interview"))
    ∧ (∀ (client : SupabaseClient) (data : JsVal) (file1 : JsFile),
        file1.size ≤ 5 * 1024 * 1024 → m.supabase = some client → w.signResponse = .ok data →
        truthy (getProp (signedTicket data) "token") = true →
        truthy (getProp (signedTicket data) "objectPath") = true →
        truthy w.uploadError = true →
        (uploadImageViaSignedUrl m w (some file1)).1 = .error (.storage w.uploadError)) := by
  obtain ⟨hsz, client, data, hc, hs, ht, ho, hu⟩ := upload_ok_inversion m w file v h
  refine ⟨⟨client, data, hc, hs, ?_, ?_⟩, ?_, ?_, ?_⟩
  · rw [upload_after_sign m w file client data hsz hc hs] at h
    simp [ht, ho, hu] at h
    exact h.symm
  · rw [upload_after_sign m w file client data hsz hc hs]
    simp [ht, ho, hu]
  · intro ticket
    refine ⟨?_, ?_, ?_, ?_⟩
    · intro hb
      unfold targetBucket
      rw [jsOr_of_truthy (a := getProp ticket "bucket") _ hb, jsOr_of_truthy _ hb]
    · intro hb hne
      unfold targetBucket
      rw [jsOr_of_falsy (a := getProp ticket "bucket") _ hb, jsOr_of_truthy _ (by simp [hne])]
    · intro hp
      unfold resolvedPublicUrl
      rw [jsOr_of_truthy (b := getProp ticket "publicUrl") hp, jsOr_of_truthy _ hp]
    · intro hp
      constructor
      · intro hq
        unfold resolvedPublicUrl
        rw [jsOr_of_falsy (b := getProp ticket "publicUrl") hp, jsOr_of_truthy _ hq]
      · intro hq
        unfold resolvedPublicUrl
        rw [jsOr_of_falsy (b := getProp ticket "publicUrl") hp, jsOr_of_falsy _ hq]
  · intro envUrl envKey envBucket
    by_cases hb : envBucket = ""
    · subst hb
      simp [loadSupabaseModule]
    · simp [loadSupabaseModule, hb]
  · intro client1 data1 file1 hsz1 hc1 hs1 ht1 ho1 hu1
    rw [upload_after_sign m w file1 client1 data1 hsz1 hc1 hs1]
    simp [ht1, ho1, hu1]

/-- C18, at a concrete upload into the configured bucket `media`. -/
theorem upload_bucket_and_url_witness :
    ∃ client data,
      (loadSupabaseModule "https://s.example" "key" "media").supabase = some client
      ∧ (⟨.ok (.obj [("token", .str "tk"), ("objectPath", .str "a.png")]), .null,
          fun b p => .obj [("publicUrl", .str (toJsString b ++ "/" ++ toJsString p))]⟩
            : UploadWorld).signResponse = .ok data
      ∧ JsVal.str "media/a.png"
          = resolvedPublicUrl (loadSupabaseModule "https://s.example" "key" "media")
              ⟨.ok (.obj [("token", .str "tk"), ("objectPath", .str "a.png")]), .null,
                fun b p => .obj [("publicUrl", .str (toJsString b ++ "/" ++ toJsString p))]⟩
              (signedTicket data)
      ∧ (uploadImageViaSignedUrl (loadSupabaseModule "https://s.example" "key" "media")
          ⟨.ok (.obj [("token", .str "tk"), ("objectPath", .str "a.png")]), .null,
            fun b p => .obj [("publicUrl", .str (toJsString b ++ "/" ++ toJsString p))]⟩
          (some ⟨"a.png", "", 10⟩)).2
          = [NetCall.signPost "a.png" (uploadContentType ⟨"a.png", "", 10⟩),
             NetCall.storageUpload client
               (targetBucket (loadSupabaseModule "https://s.example" "key" "media")
                 (signedTicket data))
               (getProp (signedTicket data) "objectPath") (getProp (signedTicket data) "token")
               (uploadContentType ⟨"a.png", "", 10⟩)] :=
  (upload_bucket_and_url (loadSupabaseModule "https://s.example" "key" "media")
    ⟨.ok (.obj [("token", .str "tk"), ("objectPath", .str "a.png")]), .null,
      fun b p => .obj [("publicUrl", .str (toJsString b ++ "/" ++ toJsString p))]⟩
    ⟨"a.png", "", 10⟩ (.str "media/a.png") rfl).1

/-! ## Properties: create and update forms -/

/-- C19 at its failing inputs.  Both forms pass the browser's `required`
check, yet the Category handler invokes the create mutation with the name `""`
(the name input held three blanks), and the Product handler invokes it with the
name `""` and the price `NaN` (the price input held `1.2.3`). -/
theorem submit_unvalidated_fields (m : SupabaseModule) (w : UploadWorld) :
    Categories.requiredFilled Categories.blankNameView = true
    ∧ Categories.submitNewCategory m w Categories.blankNameView
        = { state := Categories.blankNameView, requests := [],
            mutation := some (.create (.obj [("name", .str ""), ("visible", .bool true)])),
            threw := false }
    ∧ Products.requiredFilled Products.blankNameDottedPriceView = true
    ∧ Products.onSubmit m w Products.blankNameDottedPriceView
        = { state := Products.blankNameDottedPriceView, requests := [],
            mutation := some (.create (.obj
              [("name", .str ""), ("price", .num .nan), ("discountedPrice", .undefined),
               ("description", .undefined), ("categoryid", .undefined),
               ("visible", .bool true), ("isInStock", .bool true)])),
            threw := false } := by
  refine ⟨by decide, ?_, by decide, ?_⟩
  · with_unfolding_all rfl
  · with_unfolding_all rfl

theorem categories_submit_upload_failed (m : SupabaseModule) (w : UploadWorld)
    (v : Categories.View) (file : JsFile) (name : JsVal) (e : UploadError)
    (hf : v.formValues.imageFile = some file) (hn : optTrim v.formValues.name = some name)
    (hu : (uploadImageViaSignedUrl m w (some file)).1 = .error e) :
    Categories.submitNewCategory m w v
      = { state := { v with uploadError := uploadFailedMessage },
          requests := (uploadImageViaSignedUrl m w (some file)).2,
          mutation := none, threw := false } := by
  unfold Categories.submitNewCategory
  simp only [hn, hf]
  generalize uploadImageViaSignedUrl m w (some file) = r at hu
  obtain ⟨r1, r2⟩ := r
  simp only at hu
  subst hu
  rfl

theorem categories_submit_upload_ok (m : SupabaseModule) (w : UploadWorld)
    (v : Categories.View) (file : JsFile) (name url : JsVal)
    (hf : v.formValues.imageFile = some file) (hn : optTrim v.formValues.name = some name)
    (hu : (uploadImageViaSignedUrl m w (some file)).1 = .ok url) (ht : truthy url = true) :
    Categories.submitNewCategory m w v
      = { state := { v with uploadError := "" },
          requests := (uploadImageViaSignedUrl m w (some file)).2,
          mutation :=
            if truthy v.editingCategoryId then
              some (.update v.editingCategoryId (.obj
                [("name", name), ("visible", .bool v.formValues.visible), ("imageUrl", url)]))
            else
              some (.create (.obj
                [("name", name), ("visible", .bool v.formValues.visible), ("imageUrl", url)])),
          threw := false } := by
  unfold Categories.submitNewCategory
  simp only [hn, hf]
  generalize uploadImageViaSignedUrl m w (some file) = r at hu
  obtain ⟨r1, r2⟩ := r
  simp only at hu
  subst hu
  simp [ht, setField]

theorem products_submit_upload_failed (m : SupabaseModule) (w : UploadWorld)
    (v : Products.View) (file : JsFile) (name description : JsVal) (e : UploadError)
    (hf : v.formValues.imageFile = some file) (hn : optTrim v.formValues.name = some name)
    (hd : optTrim v.formValues.description = some description)
    (hu : (uploadImageViaSignedUrl m w (some file)).1 = .error e) :
    Products.onSubmit m w v
      = { state := { v with uploadError := uploadFailedMessage },
          requests := (uploadImageViaSignedUrl m w (some file)).2,
          mutation := none, threw := false } := by
  unfold Products.onSubmit
  simp only [hn, hd, hf]
  generalize uploadImageViaSignedUrl m w (some file) = r at hu
  obtain ⟨r1, r2⟩ := r
  simp only at hu
  subst hu
  rfl

theorem products_submit_upload_ok (m : SupabaseModule) (w : UploadWorld)
    (v : Products.View) (file : JsFile) (name description url : JsVal)
    (hf : v.formValues.imageFile = some file) (hn : optTrim v.formValues.name = some name)
    (hd : optTrim v.formValues.description = some description)
    (hu : (uploadImageViaSignedUrl m w (some file)).1 = .ok url) (ht : truthy url = true) :
    ∃ payload : List (String × JsVal),
      Products.onSubmit m w v
        = { state := { v with uploadError := "" },
            requests := (uploadImageViaSignedUrl m w (some file)).2,
            mutation :=
              if truthy v.editingProductId then some (.update v.editingProductId (.obj payload))
              else some (.create (.obj payload)),
            threw := false }
      ∧ lookupField "imageUrl" payload = url
      ∧ lookupField "name" payload = name := by
  unfold Products.onSubmit
  simp only [hn, hd, hf]
  generalize uploadImageViaSignedUrl m w (some file) = r at hu
  obtain ⟨r1, r2⟩ := r
  simp only at hu
  subst hu
  simp only [ht, if_true]
  exact ⟨_, rfl, by simp [setField, lookupField], by simp [setField, lookupField]⟩

/-- C20. In the Category and the Product submit handler, for every form state
with an attached file (and text fields holding strings): when the upload fails,
no mutation is invoked, the only requests sent are those of the upload flow,
`uploadError` is set to the upload message, which differs from the message
shown for a rejected mutation, and the modal, the edited id and the form values
are as before; when the upload returns a truthy URL, the create or update
mutation is invoked with a payload whose `imageUrl` is that URL. -/
theorem submit_with_image (m : SupabaseModule) (w : UploadWorld) (file : JsFile) :
    (∀ (v : Categories.View) (name : JsVal),
      v.formValues.imageFile = some file → optTrim v.formValues.name = some name →
      (∀ e, (uploadImageViaSignedUrl m w (some file)).1 = .error e →
        Categories.submitNewCategory m w v
          = { state := { v with uploadError := uploadFailedMessage },
              requests := (uploadImageViaSignedUrl m w (some file)).2,
              mutation := none, threw := false })
      ∧ (∀ url, (uploadImageViaSignedUrl m w (some file)).1 = .ok url → truthy url = true →
        ∃ payload : List (String × JsVal),
          (Categories.submitNewCategory m w v).mutation
            = (if truthy v.editingCategoryId then
                some (.update v.editingCategoryId (.obj payload))
              else some (.create (.obj payload)))
          ∧ lookupField "imageUrl" payload = url))
    ∧ (∀ (v : Products.View) (name description : JsVal),
      v.formValues.imageFile = some file → optTrim v.formValues.name = some name →
      optTrim v.formValues.description = some description →
      (∀ e, (uploadImageViaSignedUrl m w (some file)).1 = .error e →
        Products.onSubmit m w v
          = { state := { v with uploadError := uploadFailedMessage },
              requests := (uploadImageViaSignedUrl m w (some file)).2,
              mutation := none, threw := false })
      ∧ (∀ url, (uploadImageViaSignedUrl m w (some file)).1 = .ok url → truthy url = true →
        ∃ payload : List (String × JsVal),
          (Products.onSubmit m w v).mutation
            = (if truthy v.editingProductId then
                some (.update v.editingProductId (.obj payload))
              else some (.create (.obj payload)))
          ∧ lookupField "imageUrl" payload = url))
    ∧ uploadFailedMessage ≠ Categories.mutationErrorMessage
    ∧ uploadFailedMessage ≠ Products.mutationErrorMessage
    ∧ uploadFailedMessage ≠ "" := by
  refine ⟨?_, ?_, by decide, by decide, by decide⟩
  · intro v name hf hn
    refine ⟨fun e hu => categories_submit_upload_failed m w v file name e hf hn hu, ?_⟩
    intro url hu ht
    refine ⟨[("name", name), ("visible", .bool v.formValues.visible), ("imageUrl", url)], ?_, ?_⟩
    · rw [categories_submit_upload_ok m w v file name url hf hn hu ht]
    · simp [lookupField]
  · intro v name description hf hn hd
    refine ⟨fun e hu => products_submit_upload_failed m w v file name description e hf hn hd hu,
      ?_⟩
    intro url hu ht
    obtain ⟨payload, he, hi, _⟩ :=
      products_submit_upload_ok m w v file name description url hf hn hd hu ht
    exact ⟨payload, by rw [he], hi⟩

/-- C20, at a concrete form: a file attached while storage is not configured. -/
theorem submit_with_image_witness :
    Categories.submitNewCategory (loadSupabaseModule "" "" "")
        ⟨.ok .null, .null, fun _ _ => .null⟩
        (Categories.onFileChange (some ⟨"a.png", "image/png", 10⟩)
          (Categories.onNameChange "Shoes" (Categories.openAddModal Categories.View.init)))
      = { state :=
            { Categories.onFileChange (some ⟨"a.png", "image/png", 10⟩)
                (Categories.onNameChange "Shoes" (Categories.openAddModal Categories.View.init))
              with uploadError := uploadFailedMessage },
          requests := (uploadImageViaSignedUrl (loadSupabaseModule "" "" "")
            ⟨.ok .null, .null, fun _ _ => .null⟩ (some ⟨"a.png", "image/png", 10⟩)).2,
          mutation := none, threw := false } :=
  ((submit_with_image (loadSupabaseModule "" "" "") ⟨.ok .null, .null, fun _ _ => .null⟩
      ⟨"a.png", "image/png", 10⟩).1
    (Categories.onFileChange (some ⟨"a.png", "image/png", 10⟩)
      (Categories.onNameChange "Shoes" (Categories.openAddModal Categories.View.init)))
    (.str "Shoes") rfl rfl).1 .notConfigured rfl

/-! ## Properties: mutation success handlers and the query cache -/

theorem keyMatches_singleton (x : KeyPart) (k : QueryKey) :
    keyMatches [x] k = decide (k.head? = some x) := by
  cases k with
  | nil => simp [keyMatches]
  | cons y ys =>
    by_cases h : x = y
    · subst h; simp [keyMatches]
    · have h2 : ¬ y = x := fun e => h e.symm
      simp [keyMatches, h, h2]

theorem mem_invalidateQueries_of_matches (filter : QueryKey) (cache : List CachedQuery)
    (q : CachedQuery) (hq : q ∈ cache) (hm : keyMatches filter q.key = true) :
    { q with isInvalidated := true } ∈ invalidateQueries filter cache := by
  unfold invalidateQueries
  refine List.mem_map.mpr ⟨q, hq, ?_⟩
  simp [hm]

theorem mem_invalidateQueries_of_not_matches (filter : QueryKey) (cache : List CachedQuery)
    (q : CachedQuery) (hq : q ∈ cache) (hm : keyMatches filter q.key = false) :
    q ∈ invalidateQueries filter cache := by
  unfold invalidateQueries
  refine List.mem_map.mpr ⟨q, hq, ?_⟩
  simp [hm]

theorem cachedData_invalidateQueries (filter key : QueryKey) (cache : List CachedQuery) :
    cachedData key (invalidateQueries filter cache) = cachedData key cache := by
  induction cache with
  | nil => rfl
  | cons q rest ih =>
    have ih2 : cachedData key (List.map
        (fun q => if keyMatches filter q.key = true then { q with isInvalidated := true } else q)
        rest) = cachedData key rest := ih
    by_cases hm : keyMatches filter q.key = true
    · by_cases hk : q.key = key
      · subst hk
        simp [invalidateQueries, cachedData, hm]
      · simp [invalidateQueries, cachedData, hm, hk, ih2]
    · by_cases hk : q.key = key
      · subst hk
        simp [invalidateQueries, cachedData, hm]
      · simp [invalidateQueries, cachedData, hm, hk, ih2]

theorem invalidatesOnly_invalidateQueries (family : String) (cache : List CachedQuery) :
    InvalidatesOnly family cache (invalidateQueries [.str family] cache) := by
  unfold InvalidatesOnly invalidateQueries
  induction cache with
  | nil => exact List.Forall₂.nil
  | cons q rest ih =>
    refine List.Forall₂.cons ?_ ih
    simp only [keyMatches_singleton]
    by_cases h : q.key.head? = some (KeyPart.str family)
    · right; simp [h]
    · left; simp [h]

theorem mem_of_invalidatesOnly {family : String} {before after : List CachedQuery}
    (h : InvalidatesOnly family before after) (q : CachedQuery) (hq : q ∈ before)
    (hk : q.key.head? ≠ some (.str family)) : q ∈ after := by
  unfold InvalidatesOnly at h
  induction h with
  | nil => cases hq
  | cons hab _ ih =>
    rename_i a b l1 l2
    rcases List.mem_cons.mp hq with e | e
    · subst e
      rcases hab with e1 | ⟨e1, _⟩
      · rw [e1]; exact List.mem_cons_self _ _
      · exact absurd e1 hk
    · exact List.mem_cons_of_mem _ (ih e)

/-- C21, where the code departs from it.  After a successful update in the
Products view (here: Edit on the product `Shoes`, then a successful save) the
`onSuccess` handler closes the modal, clears the editing id and invalidates
`["products"]`, but leaves `formValues` as the edited form (`name` is `"Shoes"`
and `price` is `"10"`, not the empty strings of the initial form): it makes no
call of `setFormValues`.  The three sibling handlers do reset the form: both
Categories handlers restore the initial form, and the Products create handler
restores it except for `existingImageUrl`, which it leaves `undefined`.  All
four close the form and invalidate a key that matches their list query. -/
theorem products_update_keeps_form (cache : List CachedQuery) :
    (Products.updateOnSuccess cache Products.editingShoesView).2.formValues
        = Products.editingShoesView.formValues
    ∧ (Products.updateOnSuccess cache Products.editingShoesView).2.formValues.name = .str "Shoes"
    ∧ (Products.updateOnSuccess cache Products.editingShoesView).2.formValues.price = "10"
    ∧ (Products.updateOnSuccess cache Products.editingShoesView).2.formValues.price
        ≠ Products.View.init.formValues.price
    ∧ (∀ v : Products.View,
        (Products.updateOnSuccess cache v).2.formValues = v.formValues
        ∧ (Products.updateOnSuccess cache v).2.isModalOpen = false
        ∧ (Products.updateOnSuccess cache v).2.editingProductId = .null
        ∧ (Products.updateOnSuccess cache v).1 = invalidateQueries [.str "products"] cache)
    ∧ (∀ v : Products.View,
        (Products.addOnSuccess cache v).2.formValues
            = { Products.View.init.formValues with existingImageUrl := .undefined }
        ∧ (Products.addOnSuccess cache v).2.isModalOpen = false
        ∧ (Products.addOnSuccess cache v).2.editingProductId = .null
        ∧ (Products.addOnSuccess cache v).1 = invalidateQueries [.str "products"] cache)
    ∧ (∀ v : Categories.View,
        (Categories.addOnSuccess cache v).2.formValues = Categories.View.init.formValues
        ∧ (Categories.addOnSuccess cache v).2.isModalOpen = false
        ∧ (Categories.addOnSuccess cache v).2.editingCategoryId = .null
        ∧ (Categories.addOnSuccess cache v).1 = invalidateQueries [.str "categories"] cache
        ∧ Categories.updateOnSuccess cache v = Categories.addOnSuccess cache v)
    ∧ (∀ s : PageState,
        keyMatches [.str "categories"] (Categories.listKey s) = true
        ∧ keyMatches [.str "products"] (Products.listKey s) = true) := by
  have hp : Products.editingShoesView.formValues.price = "10" := by with_unfolding_all rfl
  refine ⟨rfl, rfl, hp, ?_, fun v => ⟨rfl, rfl, rfl, rfl⟩, fun v => ⟨rfl, rfl, rfl, rfl⟩,
    fun v => ⟨rfl, rfl, rfl, rfl, rfl⟩, fun s => ⟨rfl, rfl⟩⟩
  show Products.editingShoesView.formValues.price ≠ Products.View.init.formValues.price
  rw [hp]; decide

/-- C22. A click on a Delete button of the Categories or Products table, for
every row and every answer of the confirmation dialog: the delete mutation is
invoked only with the truthy id of the row (`id || _id`) and only after the
dialog was shown and answered `true`; when the dialog answers `false` no
mutation is invoked; the click itself leaves the view state and the query cache
as they were; and the `onSuccess` of the delete mutation marks every cached
list query of that view invalid. -/
theorem delete_requires_confirmation (row : JsVal) (confirm : String → Bool)
    (cache : List CachedQuery) :
    (∀ v : Categories.View,
      (Categories.onDeleteClick row confirm cache v).state = v
      ∧ (Categories.onDeleteClick row confirm cache v).cache = cache
      ∧ (∀ id, (Categories.onDeleteClick row confirm cache v).mutation = some id →
          id = jsOr (optChain row "id") (optChain row "_id") ∧ truthy id = true
          ∧ ∃ message, (Categories.onDeleteClick row confirm cache v).confirmAsked = some message
              ∧ confirm message = true)
      ∧ ((∀ message, confirm message = false) →
          (Categories.onDeleteClick row confirm cache v).mutation = none)
      ∧ (∀ (s : PageState) (q : CachedQuery), q ∈ cache → q.key = Categories.listKey s →
          { q with isInvalidated := true } ∈ (Categories.deleteOnSuccess cache v).1))
    ∧ (∀ v : Products.View,
      (Products.onDeleteClick row confirm cache v).state = v
      ∧ (Products.onDeleteClick row confirm cache v).cache = cache
      ∧ (∀ id, (Products.onDeleteClick row confirm cache v).mutation = some id →
          id = jsOr (optChain row "id") (optChain row "_id") ∧ truthy id = true
          ∧ ∃ message, (Products.onDeleteClick row confirm cache v).confirmAsked = some message
              ∧ confirm message = true)
      ∧ ((∀ message, confirm message = false) →
          (Products.onDeleteClick row confirm cache v).mutation = none)
      ∧ (∀ (s : PageState) (q : CachedQuery), q ∈ cache → q.key = Products.listKey s →
          { q with isInvalidated := true } ∈ (Products.deleteOnSuccess cache v).1)) := by
  constructor
  · intro v
    refine ⟨?_, ?_, ?_, ?_, ?_⟩
    · unfold Categories.onDeleteClick
      simp only
      split
      · rfl
      · split <;> rfl
    · unfold Categories.onDeleteClick
      simp only
      split
      · rfl
      · split <;> rfl
    · intro id hid
      unfold Categories.onDeleteClick at hid ⊢
      simp only at hid ⊢
      by_cases ht : truthy (jsOr (optChain row "id") (optChain row "_id")) = true
      · simp only [ht, Bool.not_true, Bool.false_eq_true, if_false] at hid ⊢
        split at hid
        · rename_i hc
          simp only [Option.some.injEq] at hid
          refine ⟨hid.symm, hid ▸ ht, _, ?_, hc⟩
          simp [hc]
        · simp at hid
      · simp [ht] at hid
    · intro hno
      unfold Categories.onDeleteClick
      simp only [hno]
      split <;> simp
    · intro s q hq hk
      exact mem_invalidateQueries_of_matches _ _ q hq (by rw [hk]; rfl)
  · intro v
    refine ⟨?_, ?_, ?_, ?_, ?_⟩
    · unfold Products.onDeleteClick
      simp only
      split
      · rfl
      · split <;> rfl
    · unfold Products.onDeleteClick
      simp only
      split
      · rfl
      · split <;> rfl
    · intro id hid
      unfold Products.onDeleteClick at hid ⊢
      simp only at hid ⊢
      by_cases ht : truthy (jsOr (optChain row "id") (optChain row "_id")) = true
      · simp only [ht, Bool.not_true, Bool.false_eq_true, if_false] at hid ⊢
        split at hid
        · rename_i hc
          simp only [Option.some.injEq] at hid
          refine ⟨hid.symm, hid ▸ ht, _, ?_, hc⟩
          simp [hc]
        · simp at hid
      · simp [ht] at hid
    · intro hno
      unfold Products.onDeleteClick
      simp only [hno]
      split <;> simp
    · intro s q hq hk
      exact mem_invalidateQueries_of_matches _ _ q hq (by rw [hk]; rfl)

/-- C22, at a concrete row: the user declines to delete category `Hats`. -/
theorem delete_requires_confirmation_witness :
    (Categories.onDeleteClick (.obj [("id", .ofNat 3), ("name", .str "Hats")])
        (fun _ => false) [] Categories.View.init).mutation = none :=
  ((delete_requires_confirmation (.obj [("id", .ofNat 3), ("name", .str "Hats")])
      (fun _ => false) []).1 Categories.View.init).2.2.2.1 (fun _ => rfl)

/-! ## Properties: order status change -/

theorem strictEq_iff_eq (a b : JsVal) (hp : isPrimitive b = true) (ht : truthy b = true) :
    strictEq a b = true ↔ a = b := by
  cases b with
  | undefined => simp at ht
  | null => simp at ht
  | bool y => cases a <;> simp [strictEq]
  | num y =>
    cases a with
    | num x =>
      cases x with
      | nan =>
        cases y with
        | nan => simp at ht
        | _ => simp [strictEq]
      | _ => simp [strictEq]
    | _ => simp [strictEq]
  | str y => cases a <;> simp [strictEq]
  | arr _ => simp [isPrimitive] at hp
  | obj _ => simp [isPrimitive] at hp
  | func => simp [isPrimitive] at hp

/-- C23. After a successful status change `(id, status)`, with `id` a truthy
primitive (the select handler never passes a falsy id), the Orders view and the
Dashboard update the open record in the same way: an open record whose `id` or
`_id` is `id` becomes that record with `status` set to `status` and every other
field as it was; an open value whose `id` and `_id` both differ from `id`, and
the state `null` of no open record, are left as they were. -/
theorem status_change_patches_record (id status : JsVal) (cache : List CachedQuery)
    (hprim : isPrimitive id = true) (hid : truthy id = true) :
    (∀ o, (Orders.statusOnSuccess id status cache o).2
        = (Dashboard.statusOnSuccess id status cache o).2)
    ∧ (∀ fields : List (String × JsVal),
        (lookupField "id" fields = id ∨ lookupField "_id" fields = id) →
        (Orders.statusOnSuccess id status cache (.obj fields)).2
            = .obj (setField "status" status fields)
        ∧ lookupField "status" (setField "status" status fields) = status
        ∧ ∀ k, k ≠ "status" →
            lookupField k (setField "status" status fields) = lookupField k fields)
    ∧ (∀ o, getProp o "id" ≠ id → getProp o "_id" ≠ id →
        (Orders.statusOnSuccess id status cache o).2 = o)
    ∧ (Orders.statusOnSuccess id status cache .null).2 = .null := by
  refine ⟨fun o => rfl, ?_, ?_, ?_⟩
  · intro fields hm
    refine ⟨?_, lookupField_setField_same _ _ _,
      fun k hk => lookupField_setField_other _ _ _ _ hk⟩
    have hc : (strictEq (getProp (.obj fields) "id") id
        || strictEq (getProp (.obj fields) "_id") id) = true := by
      rcases hm with h | h
      · have : strictEq (getProp (.obj fields) "id") id = true :=
          (strictEq_iff_eq _ _ hprim hid).mpr h
        simp [this]
      · have : strictEq (getProp (.obj fields) "_id") id = true :=
          (strictEq_iff_eq _ _ hprim hid).mpr h
        simp [this]
    simp only [Orders.statusOnSuccess, patchSelectedOrder, truthy_obj, Bool.true_and, hc, if_true,
      spreadFields]
  · intro o h1 h2
    have e1 : strictEq (getProp o "id") id = false := by
      rw [Bool.eq_false_iff]; exact fun h => h1 ((strictEq_iff_eq _ _ hprim hid).mp h)
    have e2 : strictEq (getProp o "_id") id = false := by
      rw [Bool.eq_false_iff]; exact fun h => h2 ((strictEq_iff_eq _ _ hprim hid).mp h)
    simp [Orders.statusOnSuccess, patchSelectedOrder, e1, e2]
  · rfl

/-- C23, at a concrete order: order 5 is open while it is set to `completed`. -/
theorem status_change_patches_record_witness :
    (Orders.statusOnSuccess (.ofNat 5) (.str "completed") []
        (.obj [("id", .ofNat 5), ("status", .str "pending"), ("total", .ofNat 20)])).2
      = .obj (setField "status" (.str "completed")
          [("id", .ofNat 5), ("status", .str "pending"), ("total", .ofNat 20)]) :=
  ((status_change_patches_record (.ofNat 5) (.str "completed") [] rfl (by simp)).2.1
    [("id", .ofNat 5), ("status", .str "pending"), ("total", .ofNat 20)] (Or.inl rfl)).1

/-! ## Properties: invalidation stays within the resource family -/

/-- C24. For every state of the query cache: the `onSuccess` handlers of category
create, update and delete touch only cached queries whose key begins with
`"categories"`, those of product create, update and delete only keys beginning
with `"products"`, and that of the status change of the Orders view only keys
beginning with `"orders"` (the status change of the Dashboard touches only
`"dashboard-stats"`).  Touching only a family keeps every key and all cached
data, and leaves every query outside the family exactly as it was. -/
theorem family_mutations_invalidate_own (cache : List CachedQuery) :
    (∀ v : Categories.View,
      InvalidatesOnly "categories" cache (Categories.addOnSuccess cache v).1
      ∧ InvalidatesOnly "categories" cache (Categories.updateOnSuccess cache v).1
      ∧ InvalidatesOnly "categories" cache (Categories.deleteOnSuccess cache v).1)
    ∧ (∀ v : Products.View,
      InvalidatesOnly "products" cache (Products.addOnSuccess cache v).1
      ∧ InvalidatesOnly "products" cache (Products.updateOnSuccess cache v).1
      ∧ InvalidatesOnly "products" cache (Products.deleteOnSuccess cache v).1)
    ∧ (∀ id status selectedOrder : JsVal,
      InvalidatesOnly "orders" cache (Orders.statusOnSuccess id status cache selectedOrder).1
      ∧ InvalidatesOnly "dashboard-stats" cache
          (Dashboard.statusOnSuccess id status cache selectedOrder).1)
    ∧ (∀ (family : String) (after : List CachedQuery), InvalidatesOnly family cache after →
        after.map CachedQuery.key = cache.map CachedQuery.key
        ∧ after.map CachedQuery.data = cache.map CachedQuery.data
        ∧ ∀ q ∈ cache, q.key.head? ≠ some (.str family) → q ∈ after) := by
  refine ⟨fun v => ⟨?_, ?_, ?_⟩, fun v => ⟨?_, ?_, ?_⟩, fun id status o => ⟨?_, ?_⟩, ?_⟩
  · exact invalidatesOnly_invalidateQueries _ _
  · exact invalidatesOnly_invalidateQueries _ _
  · exact invalidatesOnly_invalidateQueries _ _
  · exact invalidatesOnly_invalidateQueries _ _
  · exact invalidatesOnly_invalidateQueries _ _
  · exact invalidatesOnly_invalidateQueries _ _
  · exact invalidatesOnly_invalidateQueries _ _
  · exact invalidatesOnly_invalidateQueries _ _
  · intro family after h
    refine ⟨?_, ?_, fun q hq hk => mem_of_invalidatesOnly h q hq hk⟩
    · unfold InvalidatesOnly at h
      induction h with
      | nil => rfl
      | cons hab _ ih =>
        rcases hab with e | ⟨_, e⟩ <;> simp [e, ih]
    · unfold InvalidatesOnly at h
      induction h with
      | nil => rfl
      | cons hab _ ih =>
        rcases hab with e | ⟨_, e⟩ <;> simp [e, ih]

/-- C24, at a concrete cache: a cached products page survives a category create. -/
theorem family_mutations_invalidate_own_witness :
    (⟨Products.listKey PageState.init, .arr [], false⟩ : CachedQuery)
      ∈ (Categories.addOnSuccess
          [⟨Categories.listKey PageState.init, .arr [], false⟩,
           ⟨Products.listKey PageState.init, .arr [], false⟩] Categories.View.init).1 :=
  ((family_mutations_invalidate_own
      [⟨Categories.listKey PageState.init, .arr [], false⟩,
       ⟨Products.listKey PageState.init, .arr [], false⟩]).2.2.2 "categories" _
    ((family_mutations_invalidate_own
      [⟨Categories.listKey PageState.init, .arr [], false⟩,
       ⟨Products.listKey PageState.init, .arr [], false⟩]).1 Categories.View.init).1).2.2
    ⟨Products.listKey PageState.init, .arr [], false⟩
    (List.mem_cons_of_mem _ (List.mem_cons_self _ _)) (by decide)

/-! ## Properties: the server-supplied page count -/

/-- C25. In the Products and Orders views the page count is the `pages` value
of the response body: for a body whose `pages` is a number `p` with `1 ≤ p` the
page count is `p`, whatever the rest of the body (its `total`) and the
pagination state (its `limit`) are; for a body whose `pages` is absent (or any
falsy value), and while there is no list data, the page count is `1`. -/
theorem pages_trusted (res : AxiosResponse) (s : PageState) :
    (∀ p : ℚ, 1 ≤ p → optChain res.data "pages" = .ofRat p →
      Products.pageCount (some res) s = .fin p ∧ Orders.pageCount (some res) s = .fin p)
    ∧ (truthy (optChain res.data "pages") = false →
      Products.pageCount (some res) s = .fin 1 ∧ Orders.pageCount (some res) s = .fin 1)
    ∧ Products.pageCount none s = .fin 1 ∧ Orders.pageCount none s = .fin 1 := by
  refine ⟨?_, ?_, by with_unfolding_all rfl, by with_unfolding_all rfl⟩
  · intro p hp hpages
    have hp0 : p ≠ 0 := by intro h; rw [h] at hp; norm_num at hp
    have e : Products.pageCount (some res) s = .fin p := by
      simp only [Products.pageCount, Option.map, Products.pages, Products.queryFn, hpages]
      rw [jsOr_of_truthy (a := JsVal.ofRat p) _ (by simp [JsVal.ofRat, hp0])]
      simp only [JsVal.ofRat, toNumber]
      rw [jsOr_of_truthy (a := JsVal.num (JsNum.fin p)) _ (by simp [hp0])]
    exact ⟨e, e⟩
  · intro hf
    have e : Products.pageCount (some res) s = .fin 1 := by
      simp only [Products.pageCount, Option.map, Products.pages, Products.queryFn]
      rw [jsOr_of_falsy (a := optChain res.data "pages") _ hf]
      with_unfolding_all rfl
    exact ⟨e, e⟩

/-- C25, at a concrete response: `pages` is 7 although `total` is 3. -/
theorem pages_trusted_witness :
    Products.pageCount
        (some ⟨.obj [("pages", .ofRat 7), ("total", .ofRat 3)], .null⟩) PageState.init = .fin 7 :=
  ((pages_trusted ⟨.obj [("pages", .ofRat 7), ("total", .ofRat 3)], .null⟩ PageState.init).1
    7 (by norm_num) rfl).1

/-! ## Properties: the stored admin flag -/

theorem setField_setField (key : String) (v w : JsVal) (fields : List (String × JsVal)) :
    setField key v (setField key w fields) = setField key v fields := by
  induction fields with
  | nil => simp [setField]
  | cons kv rest ih =>
    obtain ⟨k, u⟩ := kv
    by_cases hk : k = key
    · simp [setField, hk]
    · simp [setField, hk, ih]

/-- C26. For every sign-in response with a truthy token (and `userRegistered`
not `false`), `signin` stores a user whose `isAdmin` is `true` and whose every
other field is the one of the response's `user`; two responses that differ only
in the `isAdmin` value of their `user` object give the same outcome and the same
session; and the effect that runs on a session started from a persisted token
sets the user to `{ isAdmin: true }`. -/
theorem admin_flag_forced (s : AuthState) :
    (∀ data : JsVal, optChain data "userRegistered" ≠ .bool false →
      truthy (optChain data "token") = true →
      ∃ s1, signin (.ok data) s = .ok (.success, s1)
        ∧ s1.user = .obj (setField "isAdmin" (.bool true) (spreadFields (optChain data "user")))
        ∧ getProp s1.user "isAdmin" = .bool true
        ∧ ∀ k, k ≠ "isAdmin" →
            getProp s1.user k = lookupField k (spreadFields (optChain data "user")))
    ∧ (∀ (body user : List (String × JsVal)) (a b : JsVal),
        signin (.ok (.obj (setField "user" (.obj (setField "isAdmin" a user)) body))) s
          = signin (.ok (.obj (setField "user" (.obj (setField "isAdmin" b user)) body))) s)
    ∧ (∀ c : ClientState, truthy (AuthProvider.init c).token = true →
        (AuthProvider.effect (AuthProvider.init c)).user = .obj [("isAdmin", .bool true)]) := by
  refine ⟨?_, ?_, ?_⟩
  · intro data hu ht
    refine ⟨_, signin_with_token data s hu ht, rfl, ?_, ?_⟩
    · exact lookupField_setField_same _ _ _
    · intro k hk
      exact lookupField_setField_other _ _ _ _ hk
  · intro body user a b
    have hkey : ∀ (k : String) (x : JsVal), k ≠ "user" →
        optChain (.obj (setField "user" x body)) k = lookupField k body := by
      intro k x hk
      rw [optChain_obj]; exact lookupField_setField_other _ _ _ _ hk
    have huser : ∀ x : JsVal, optChain (.obj (setField "user" x body)) "user" = x := by
      intro x
      rw [optChain_obj]; exact lookupField_setField_same _ _ _
    unfold signin
    simp only [hkey "userRegistered" _ (by decide), hkey "token" _ (by decide), huser,
      spreadFields, setField_setField]
  · intro c ht
    simp only [AuthProvider.effect, ht, if_true]
    rfl

/-- C26, at a concrete response whose user says `isAdmin: false`. -/
theorem admin_flag_forced_witness :
    ∃ s1, signin (.ok (.obj [("token", .str "tk"),
              ("user", .obj [("isAdmin", .bool false), ("name", .str "Ann")])]))
            (AuthProvider.init ⟨none, none⟩) = .ok (.success, s1)
      ∧ getProp s1.user "isAdmin" = .bool true := by
  obtain ⟨s1, h1, _, h3, _⟩ := (admin_flag_forced (AuthProvider.init ⟨none, none⟩)).1
    (.obj [("token", .str "tk"), ("user", .obj [("isAdmin", .bool false), ("name", .str "Ann")])])
    (by intro h; cases h) rfl
  exact ⟨s1, h1, h3⟩

/-! ## Properties: `setSupabaseConfig` and the upload client -/

theorem setSupabaseConfig_keeps_client (url anonKey bucket : JsVal) (m : SupabaseModule) :
    (setSupabaseConfig url anonKey bucket m).supabase = m.supabase := rfl

theorem setSupabaseConfig_calls_keep_client (calls : List (JsVal × JsVal × JsVal)) :
    ∀ m : SupabaseModule,
      (calls.foldl (fun m c => setSupabaseConfig c.1 c.2.1 c.2.2 m) m).supabase = m.supabase := by
  induction calls with
  | nil => intro m; rfl
  | cons c rest ih =>
    intro m
    simp only [List.foldl]
    rw [ih, setSupabaseConfig_keeps_client]

/-- C27. When the storage URL or key was empty at module load, then after any
sequence of calls of `setSupabaseConfig` the upload of a file within the size
limit fails with the not-configured error and sends no request: a call with a
non-empty `url` and `anonKey` creates a client in `supabaseInternal` only, and
the exported `supabase`, which the upload reads, stays `null`.  In every module
state a call leaves `supabase` as it was and, given a string `bucket`, rebinds
`SUPABASE_BUCKET` to it. -/
theorem setSupabaseConfig_ineffective (envUrl envKey envBucket : String)
    (hload : envUrl = "" ∨ envKey = "") (calls : List (JsVal × JsVal × JsVal))
    (w : UploadWorld) (file : JsFile) (hsize : file.size ≤ maxUploadBytes) :
    uploadImageViaSignedUrl
        (calls.foldl (fun m c => setSupabaseConfig c.1 c.2.1 c.2.2 m)
          (loadSupabaseModule envUrl envKey envBucket)) w (some file)
      = (.error .notConfigured, [])
    ∧ (∀ (url anonKey : String) (bucket : JsVal), url ≠ "" → anonKey ≠ "" →
        (setSupabaseConfig (.str url) (.str anonKey) bucket
            (loadSupabaseModule envUrl envKey envBucket)).supabaseInternal
          = some ⟨url, anonKey⟩
        ∧ (setSupabaseConfig (.str url) (.str anonKey) bucket
            (loadSupabaseModule envUrl envKey envBucket)).supabase = none)
    ∧ (∀ (m : SupabaseModule) (url anonKey : JsVal) (bucket : String),
        (setSupabaseConfig url anonKey (.str bucket) m).supabase = m.supabase
        ∧ (setSupabaseConfig url anonKey (.str bucket) m).SUPABASE_BUCKET = bucket) := by
  have hnone : (loadSupabaseModule envUrl envKey envBucket).supabase = none := by
    have : ¬ (envUrl ≠ "" ∧ envKey ≠ "") := by
      rintro ⟨h1, h2⟩; rcases hload with h | h
      · exact h1 h
      · exact h2 h
    simp [loadSupabaseModule, this]
  refine ⟨?_, ?_, fun m url anonKey bucket => ⟨rfl, rfl⟩⟩
  · have hs := setSupabaseConfig_calls_keep_client calls (loadSupabaseModule envUrl envKey envBucket)
    rw [hnone] at hs
    have h2 : ¬ file.size > maxUploadBytes := by omega
    simp only [uploadImageViaSignedUrl, h2, if_false, hs]
  · intro url anonKey bucket hu hk
    refine ⟨?_, ?_⟩
    · simp [setSupabaseConfig, hu, hk]
    · rw [setSupabaseConfig_keeps_client]; exact hnone

/-- C27, at a concrete call sequence: configured after an unconfigured load. -/
theorem setSupabaseConfig_ineffective_witness :
    uploadImageViaSignedUrl
        (setSupabaseConfig (.str "https://s.example") (.str "key") (.str "b")
          (loadSupabaseModule "" "" ""))
        ⟨.ok (.obj [("token", .str "tk")]), .null, fun _ _ => .null⟩
        (some ⟨"a.png", "image/png", 10⟩)
      = (.error .notConfigured, []) :=
  (setSupabaseConfig_ineffective "" "" "" (Or.inl rfl)
    [(.str "https://s.example", .str "key", .str "b")]
    ⟨.ok (.obj [("token", .str "tk")]), .null, fun _ _ => .null⟩ ⟨"a.png", "image/png", 10⟩
    (by decide)).1

/-! ## Properties: the category lookup of the Products view -/

/-- C28. The filter key `["categories"]` matches every `["categories", page,
limit]` key and does not match `["categories-for-products"]`.  So after a
successful category create, update or delete every cached categories list is
marked invalid, while the cached `["categories-for-products"]` query is exactly
as before (not marked invalid, same data) and the id-to-name lookup the Products
view computes from it is the one from before the mutation. -/
theorem categories_lookup_not_invalidated (cache : List CachedQuery) (v : Categories.View)
    (s : PageState) :
    keyMatches [.str "categories"] (Categories.listKey s) = true
    ∧ keyMatches [.str "categories"] Products.categoriesForProductsKey = false
    ∧ (∀ after, (after = (Categories.addOnSuccess cache v).1
          ∨ after = (Categories.updateOnSuccess cache v).1
          ∨ after = (Categories.deleteOnSuccess cache v).1) →
        (∀ q ∈ cache, q.key = Categories.listKey s → { q with isInvalidated := true } ∈ after)
        ∧ (∀ q ∈ cache, q.key = Products.categoriesForProductsKey → q ∈ after)
        ∧ cachedData Products.categoriesForProductsKey after
            = cachedData Products.categoriesForProductsKey cache
        ∧ Products.categoryLookup after = Products.categoryLookup cache) := by
  refine ⟨rfl, rfl, ?_⟩
  intro after hafter
  have e : after = invalidateQueries [.str "categories"] cache := by
    rcases hafter with h | h | h <;> exact h
  subst e
  refine ⟨?_, ?_, cachedData_invalidateQueries _ _ _, ?_⟩
  · intro q hq hk
    exact mem_invalidateQueries_of_matches _ _ q hq (by rw [hk]; rfl)
  · intro q hq hk
    exact mem_invalidateQueries_of_not_matches _ _ q hq (by rw [hk]; rfl)
  · unfold Products.categoryLookup
    rw [cachedData_invalidateQueries]

/-- C28, at a concrete cache holding one categories page and the lookup query. -/
theorem categories_lookup_not_invalidated_witness :
    Products.categoryLookup
        (Categories.addOnSuccess
          [⟨Categories.listKey PageState.init, .arr [], false⟩,
           ⟨Products.categoriesForProductsKey, .arr [shoesCategory], false⟩]
          Categories.View.init).1
      = Products.categoryLookup
          [⟨Categories.listKey PageState.init, .arr [], false⟩,
           ⟨Products.categoriesForProductsKey, .arr [shoesCategory], false⟩] :=
  ((categories_lookup_not_invalidated
      [⟨Categories.listKey PageState.init, .arr [], false⟩,
       ⟨Products.categoriesForProductsKey, .arr [shoesCategory], false⟩]
      Categories.View.init PageState.init).2.2 _ (Or.inl rfl)).2.2.2

/-! ### Decimal numerals: `Number(String(x)) = x` for decimal fractions -/

theorem natDigitsAux_append (fuel : Nat) :
    ∀ (n : Nat) (acc : List Char), natDigitsAux fuel n acc = natDigitsAux fuel n [] ++ acc := by
  induction fuel with
  | zero => intro n acc; simp [natDigitsAux]
  | succ fuel ih =>
    intro n acc
    by_cases h10 : n < 10
    · simp [natDigitsAux, h10]
    · simp only [natDigitsAux, h10, if_false]
      rw [ih (n / 10) (digitChar (n % 10) :: acc), ih (n / 10) [digitChar (n % 10)]]
      simp

theorem readDigits_natDigits_append (n : Nat) (rest : List Char) :
    ∃ k, 1 ≤ k ∧ ∀ a c, readDigits 10 (natDigits n ++ rest) a c
        = readDigits 10 rest (a * 10 ^ k + n) (c + k) := by
  have hlt : n < 10 ^ (n + 1) :=
    lt_trans (Nat.lt_succ_self n) (Nat.lt_pow_self (by norm_num) (n + 1))
  obtain ⟨k, hk, hrd⟩ := readDigits_natDigitsAux (n + 1) n rest (by omega) hlt
  refine ⟨k, hk, fun a c => ?_⟩
  rw [natDigits, ← natDigitsAux_append]
  exact hrd a c

theorem readDigits_fracDigits (fuel : Nat) :
    ∀ (r den : Nat), r < den → den ∣ r * 10 ^ fuel →
      ∃ k f, (∀ a c, readDigits 10 (fracDigits fuel r den) a c = (a * 10 ^ k + f, c + k, []))
        ∧ f * den = r * 10 ^ k
        ∧ (∀ ch ∈ fracDigits fuel r den, IsDigitChar ch)
        ∧ (fracDigits fuel r den = [] → r = 0) := by
  induction fuel with
  | zero =>
    intro r den hr hd
    have hr0 : r = 0 := by
      simp only [pow_zero, mul_one] at hd
      exact Nat.eq_zero_of_dvd_of_lt hd hr
    subst hr0
    refine ⟨0, 0, fun a c => ?_, by simp, ?_, fun _ => rfl⟩
    · simp [fracDigits, readDigits]
    · simp [fracDigits]
  | succ fuel ih =>
    intro r den hr hd
    by_cases hr0 : r = 0
    · subst hr0
      refine ⟨0, 0, fun a c => ?_, by simp, ?_, fun _ => rfl⟩
      · simp [fracDigits, readDigits]
      · simp [fracDigits]
    · have hden : 0 < den := by omega
      have hdig : r * 10 / den < 10 := by
        rw [Nat.div_lt_iff_lt_mul hden]; omega
      have hrem : r * 10 % den < den := Nat.mod_lt _ hden
      have hdm := Nat.div_add_mod (r * 10) den
      have hd2 : den ∣ (r * 10 % den) * 10 ^ fuel := by
        have e : r * 10 ^ (fuel + 1)
            = den * (r * 10 / den * 10 ^ fuel) + (r * 10 % den) * 10 ^ fuel := by
          calc r * 10 ^ (fuel + 1) = (r * 10) * 10 ^ fuel := by ring
            _ = (den * (r * 10 / den) + r * 10 % den) * 10 ^ fuel := by rw [hdm]
            _ = _ := by ring
        rw [e] at hd
        exact (Nat.dvd_add_right (Dvd.intro _ rfl)).mp hd
      obtain ⟨k, f, hrd, hf, hch, _⟩ := ih (r * 10 % den) den hrem hd2
      refine ⟨k + 1, r * 10 / den * 10 ^ k + f, fun a c => ?_, ?_, ?_, ?_⟩
      · simp only [fracDigits, hr0, if_false, readDigits, digitValue_digitChar _ hdig]
        rw [hrd]
        refine Prod.ext ?_ (Prod.ext ?_ rfl)
        · simp only; ring
        · simp only; omega
      · calc (r * 10 / den * 10 ^ k + f) * den
            = (den * (r * 10 / den)) * 10 ^ k + f * den := by ring
          _ = (den * (r * 10 / den)) * 10 ^ k + (r * 10 % den) * 10 ^ k := by rw [hf]
          _ = (den * (r * 10 / den) + r * 10 % den) * 10 ^ k := by ring
          _ = r * 10 ^ (k + 1) := by rw [hdm]; ring
      · intro ch hc
        simp only [fracDigits, hr0, if_false] at hc
        rcases List.mem_cons.mp hc with h | h
        · exact ⟨_, hdig, h⟩
        · exact hch ch h
      · intro h; simp [fracDigits, hr0] at h

/-- The digits `JsNum.toJsString` writes after the sign of `a / den`. -/
theorem decimalBody_spec (a den : Nat) (hden : 0 < den) (hd : den ∣ 10 ^ 20) :
    ∀ body : List Char,
      body = (if (fracDigits 20 (a % den) den).isEmpty then natDigits (a / den)
              else natDigits (a / den) ++ '.' :: fracDigits 20 (a % den) den) →
      parseUnsignedDecimal body = .fin ((a : ℚ) / (den : ℚ))
      ∧ body ≠ []
      ∧ ∀ c ∈ body, IsDigitChar c ∨ c = '.' := by
  intro body hbody
  obtain ⟨k, f, hrd, hf, hch, hemp⟩ :=
    readDigits_fracDigits 20 (a % den) den (Nat.mod_lt _ hden) (Dvd.dvd.mul_left hd _)
  obtain ⟨hwne, hwch⟩ := natDigits_chars (a / den)
  have hdenq : (den : ℚ) ≠ 0 := by exact_mod_cast (ne_of_gt hden)
  have haq : (a : ℚ) = (den : ℚ) * ((a / den : Nat) : ℚ) + ((a % den : Nat) : ℚ) := by
    exact_mod_cast (Nat.div_add_mod a den).symm
  by_cases he : (fracDigits 20 (a % den) den).isEmpty = true
  · have hr0 : a % den = 0 := hemp (List.isEmpty_iff.mp he)
    rw [if_pos he] at hbody
    subst hbody
    refine ⟨?_, hwne, fun c hc => Or.inl (hwch c hc)⟩
    rw [parseUnsignedDecimal_natDigits]
    congr 1
    rw [haq, hr0]
    field_simp
  · rw [if_neg he] at hbody
    subst hbody
    refine ⟨?_, by simp, ?_⟩
    · obtain ⟨k1, hk1, hw⟩ :=
        readDigits_natDigits_append (a / den) ('.' :: fracDigits 20 (a % den) den)
      have hInf : natDigits (a / den) ++ '.' :: fracDigits 20 (a % den) den ≠ "Infinity".data := by
        intro h
        cases hn : natDigits (a / den) with
        | nil => exact hwne hn
        | cons c0 rest =>
          have hc0 : IsDigitChar c0 := hwch c0 (by rw [hn]; exact List.mem_cons_self _ _)
          rw [hn] at h
          have hI : c0 = 'I' := (List.cons.inj h).1
          have := isDigitChar_bounds hc0
          rw [hI] at this
          revert this; decide
      have hdot : digitValue 10 '.' = none := rfl
      have hk0 : k1 ≠ 0 := by omega
      unfold parseUnsignedDecimal
      rw [if_neg hInf]
      simp only [hw, readDigits, hdot, hrd]
      simp only [zero_mul, zero_add, parseExponent]
      have hne : ¬ (k1 + k = 0) := by omega
      simp only [hne, if_false]
      congr 1
      have hfq : (f : ℚ) * (den : ℚ) = ((a % den : Nat) : ℚ) * (10 : ℚ) ^ k := by
        exact_mod_cast hf
      have h10 : ((10 : ℚ) ^ k) ≠ 0 := by positivity
      rw [haq]
      push_cast
      rw [zero_sub, zpow_neg, zpow_natCast]
      field_simp
      linear_combination hfq
    · intro c hc
      rcases List.mem_append.mp hc with h | h
      · exact Or.inl (hwch c h)
      · rcases List.mem_cons.mp h with h | h
        · exact Or.inr h
        · exact Or.inl (hch c h)

theorem isJsSpace_of_digit_or_dot {c : Char} (h : IsDigitChar c ∨ c = '.') :
    isJsSpace c = false := by
  rcases h with ⟨d, hd, rfl⟩ | rfl
  · exact isJsSpace_digitChar d hd
  · rfl

theorem dropWhile_space_of_none (l : List Char) (h : ∀ c ∈ l, isJsSpace c = false) :
    l.dropWhile isJsSpace = l := by
  cases l with
  | nil => rfl
  | cons c t => simp [List.dropWhile, h c (List.mem_cons_self _ _)]

theorem trim_of_none (l : List Char) (h : ∀ c ∈ l, isJsSpace c = false) :
    ((l.dropWhile isJsSpace).reverse.dropWhile isJsSpace).reverse = l := by
  rw [dropWhile_space_of_none l h,
    dropWhile_space_of_none _ (fun c hc => h c (List.mem_reverse.mp hc)), List.reverse_reverse]

theorem parseNumber_unsigned (cs : List Char) (hne : cs ≠ [])
    (hch : ∀ c ∈ cs, IsDigitChar c ∨ c = '.') :
    parseNumber (String.mk cs) = parseUnsignedDecimal cs := by
  have htrim := trim_of_none cs (fun c hc => isJsSpace_of_digit_or_dot (hch c hc))
  unfold parseNumber
  simp only [htrim]
  have hno : ∀ c : Char, (c.toNat < 46 ∨ 57 < c.toNat) → c ∉ cs := by
    intro c hc hmem
    rcases hch c hmem with h | h
    · have := isDigitChar_bounds h; omega
    · subst h; revert hc; decide
  split
  · exact absurd rfl hne
  · exact absurd (by simp) (hno 'x' (by decide))
  · exact absurd (by simp) (hno 'X' (by decide))
  · exact absurd (by simp) (hno 'o' (by decide))
  · exact absurd (by simp) (hno 'O' (by decide))
  · exact absurd (by simp) (hno 'b' (by decide))
  · exact absurd (by simp) (hno 'B' (by decide))
  · exact absurd (by simp) (hno '-' (by decide))
  · exact absurd (by simp) (hno '+' (by decide))
  · rfl

theorem parseNumber_minus (cs : List Char) (hch : ∀ c ∈ cs, IsDigitChar c ∨ c = '.') :
    parseNumber (String.mk ('-' :: cs)) = (parseUnsignedDecimal cs).neg := by
  have htrim := trim_of_none ('-' :: cs) (by
    intro c hc
    rcases List.mem_cons.mp hc with h | h
    · subst h; rfl
    · exact isJsSpace_of_digit_or_dot (hch c h))
  unfold parseNumber
  simp only [htrim]

/-- `Number(String(x)) = x` for every decimal fraction of at most twenty
places, and `String(x)` is not the empty string. -/
theorem parseNumber_toJsString_decimal (q : ℚ) (h : q.den ∣ 10 ^ 20) :
    parseNumber (JsNum.toJsString (.fin q)) = .fin q
    ∧ JsNum.toJsString (.fin q) ≠ "" := by
  obtain ⟨hparse, hne, hch⟩ := decimalBody_spec q.num.natAbs q.den q.den_pos h _ rfl
  have hdenq : (q.den : ℚ) ≠ 0 := by exact_mod_cast q.den_nz
  by_cases hneg : q.num < 0
  · have habs : ((q.num.natAbs : Nat) : ℚ) = -(q.num : ℚ) := by
      rw [Nat.cast_natAbs, abs_of_neg hneg, Int.cast_neg]
    have hval : -((q.num.natAbs : ℚ) / (q.den : ℚ)) = q := by
      rw [habs]
      have := Rat.num_div_den q
      rw [neg_div, neg_neg]; exact this
    constructor
    · simp only [JsNum.toJsString, hneg, if_true]
      rw [parseNumber_minus _ hch, hparse]
      simp only [JsNum.neg, hval]
    · simp only [JsNum.toJsString, hneg, if_true]
      intro hs
      have := congrArg String.data hs
      simp at this
  · have habs : ((q.num.natAbs : Nat) : ℚ) = (q.num : ℚ) := by
      rw [Nat.cast_natAbs, abs_of_nonneg (not_lt.mp hneg)]
    have hval : (q.num.natAbs : ℚ) / (q.den : ℚ) = q := by
      rw [habs]; exact Rat.num_div_den q
    constructor
    · simp only [JsNum.toJsString, hneg, if_false]
      rw [parseNumber_unsigned _ hne hch, hparse, hval]
    · simp only [JsNum.toJsString, hneg, if_false]
      intro hs
      have := congrArg String.data hs
      exact hne this

/-! ## Properties: editing a product without changes -/

theorem toNumber_price_roundtrip (q : ℚ) (h : q.den ∣ 10 ^ 20) :
    toNumber (jsOr (.str (JsNum.toJsString (.fin q))) (.ofNat 0)) = .fin q := by
  obtain ⟨hp, hne⟩ := parseNumber_toJsString_decimal q h
  rw [jsOr_of_truthy (a := .str (JsNum.toJsString (.fin q))) _ (by simp [hne])]
  exact hp

/-- C29. For a product `p` with a truthy `id`, a string `name`, a `description`
that is a string or falsy, a numeric `price` and boolean `visible` and
`isInStock` (numbers being decimal fractions of at most twenty places, for which
`String` is exact here): opening the edit form on `p` and submitting it as it
is, with no image, sends no upload request, does not throw, and invokes the
update mutation for `p.id` with a payload whose `name` is `p.name` trimmed,
whose `price`, `visible` and `isInStock` are those of `p`, and whose
`discountedPrice` is the one of `p` when `p` has a numeric one and `undefined`
when `p` has none. -/
theorem edit_unchanged_preserves (m : SupabaseModule) (w : UploadWorld) (p : JsVal)
    (v : Products.View) (name : String) (q : ℚ) (vis stock : Bool) (disc : Option ℚ)
    (hid : truthy (optChain p "id") = true)
    (hname : optChain p "name" = .str name)
    (hdesc : truthy (optChain p "description") = false ∨ ∃ d, optChain p "description" = .str d)
    (hprice : optChain p "price" = .ofRat q) (hq : q.den ∣ 10 ^ 20)
    (hvis : optChain p "visible" = .bool vis)
    (hstock : optChain p "isInStock" = .bool stock)
    (hdisc : (∃ d, disc = some d ∧ optChain p "discountedPrice" = .ofRat d ∧ d.den ∣ 10 ^ 20)
      ∨ (disc = none ∧ isNullish (optChain p "discountedPrice") = true)) :
    ∃ payload,
      (Products.onSubmit m w (Products.openEditModal p v)).mutation
          = some (.update (optChain p "id") (.obj payload))
      ∧ (Products.onSubmit m w (Products.openEditModal p v)).requests = []
      ∧ (Products.onSubmit m w (Products.openEditModal p v)).threw = false
      ∧ lookupField "name" payload = .str (jsTrim name)
      ∧ lookupField "price" payload = .ofRat q
      ∧ lookupField "visible" payload = .bool vis
      ∧ lookupField "isInStock" payload = .bool stock
      ∧ lookupField "discountedPrice" payload
          = (disc.map JsVal.ofRat).getD .undefined := by
  have h1 : (Products.openEditModal p v).formValues.name = .str name := by
    show jsOr (optChain p "name") (.str "") = .str name
    rw [hname]
    by_cases hn : name = ""
    · subst hn; rfl
    · exact jsOr_of_truthy _ (by simp [hn])
  obtain ⟨d1, h2⟩ : ∃ d1, (Products.openEditModal p v).formValues.description = .str d1 := by
    rcases hdesc with h | ⟨d, h⟩
    · exact ⟨"", jsOr_of_falsy _ h⟩
    · by_cases hd : d = ""
      · refine ⟨"", ?_⟩
        show jsOr (optChain p "description") (.str "") = .str ""
        rw [h, hd]; rfl
      · refine ⟨d, ?_⟩
        show jsOr (optChain p "description") (.str "") = .str d
        rw [h]; exact jsOr_of_truthy _ (by simp [hd])
  have h3 : (Products.openEditModal p v).formValues.price = JsNum.toJsString (.fin q) := by
    show toJsString (jsNullish (optChain p "price") (.str "")) = _
    rw [hprice]
    simp only [JsVal.ofRat, jsNullish, isNullish, toJsString]
    rfl
  have h5 : (Products.openEditModal p v).formValues.visible = vis := by
    show truthy (jsNullish (jsNullish (optChain p "visible") (optChain p "isVisible"))
      (.bool true)) = vis
    rw [hvis]; rfl
  have h6 : (Products.openEditModal p v).formValues.isInStock = stock := by
    show truthy (jsNullish (jsNullish (optChain p "isInStock") (optChain p "inStock"))
      (.bool true)) = stock
    rw [hstock]; rfl
  have h7 : (Products.openEditModal p v).editingProductId = optChain p "id" := by
    show jsOr (jsOr (optChain p "id") (optChain p "_id")) .null = optChain p "id"
    rw [jsOr_of_truthy (a := optChain p "id") _ hid, jsOr_of_truthy _ hid]
  have h8 : (Products.openEditModal p v).formValues.imageFile = none := rfl
  have h4 : (if (Products.openEditModal p v).formValues.discountedPrice = "" then JsVal.undefined
      else .num (toNumber (.str (Products.openEditModal p v).formValues.discountedPrice)))
      = (disc.map JsVal.ofRat).getD .undefined := by
    rcases hdisc with ⟨d, hd, hpd, hdd⟩ | ⟨hd, hpd⟩
    · obtain ⟨hp, hne⟩ := parseNumber_toJsString_decimal d hdd
      have e : (Products.openEditModal p v).formValues.discountedPrice
          = JsNum.toJsString (.fin d) := by
        show toJsString (jsNullish (optChain p "discountedPrice") (.str "")) = _
        rw [hpd]
        simp only [JsVal.ofRat, jsNullish, isNullish, toJsString]
        rfl
      rw [e, if_neg hne, hd]
      simp only [toNumber, hp, JsVal.ofRat, Option.map, Option.getD]
    · have e : (Products.openEditModal p v).formValues.discountedPrice = "" := by
        show toJsString (jsNullish (optChain p "discountedPrice") (.str "")) = _
        rw [jsNullish_of_nullish _ hpd]
        simp only [toJsString]
      rw [e, if_pos rfl, hd]
      rfl
  refine ⟨[("name", .str (jsTrim name)),
      ("price", .num (toNumber
        (jsOr (.str (Products.openEditModal p v).formValues.price) (.ofNat 0)))),
      ("discountedPrice",
        if (Products.openEditModal p v).formValues.discountedPrice = "" then .undefined
        else .num (toNumber (.str (Products.openEditModal p v).formValues.discountedPrice))),
      ("description", jsOr (.str (jsTrim d1)) .undefined),
      ("categoryid", jsOr (.str (Products.openEditModal p v).formValues.categoryid) .undefined),
      ("visible", .bool (Products.openEditModal p v).formValues.visible),
      ("isInStock", .bool (Products.openEditModal p v).formValues.isInStock)], ?_, ?_, ?_, ?_⟩
  · unfold Products.onSubmit
    simp only [h1, h2, optTrim, h8, h7, hid, if_true]
  · unfold Products.onSubmit
    simp only [h1, h2, optTrim, h8]
  · unfold Products.onSubmit
    simp only [h1, h2, optTrim, h8]
  · refine ⟨?_, ?_, ?_, ?_, ?_⟩
    · simp [lookupField]
    · simp only [lookupField, h3]
      simp only [toNumber_price_roundtrip q hq, JsVal.ofRat]
      simp
    · simp [lookupField, h5]
    · simp [lookupField, h6]
    · simp only [lookupField]
      simp only [h4]
      simp

/-- C29, at a concrete product with a fractional price and a discounted price. -/
theorem edit_unchanged_preserves_witness :
    ∃ payload,
      (Products.onSubmit (loadSupabaseModule "" "" "") ⟨.ok .null, .null, fun _ _ => .null⟩
          (Products.openEditModal Products.bootsProduct Products.View.init)).mutation
        = some (.update (optChain Products.bootsProduct "id") (.obj payload))
      ∧ lookupField "name" payload = .str (jsTrim " Boots ")
      ∧ lookupField "price" payload = .ofRat (25 / 2)
      ∧ lookupField "discountedPrice" payload = .ofRat (999 / 100) := by
  have hden1 : ((25 / 2 : ℚ)).den = 2 := by with_unfolding_all rfl
  have hden2 : ((999 / 100 : ℚ)).den = 100 := by with_unfolding_all rfl
  obtain ⟨payload, h1, _, _, h4, h5, _, _, h8⟩ :=
    edit_unchanged_preserves (loadSupabaseModule "" "" "") ⟨.ok .null, .null, fun _ _ => .null⟩
      Products.bootsProduct Products.View.init " Boots " (25 / 2) false true (some (999 / 100))
      (by with_unfolding_all rfl) rfl (Or.inl rfl) rfl (by rw [hden1]; norm_num) rfl rfl
      (Or.inl ⟨999 / 100, rfl, rfl, by rw [hden2]; norm_num⟩)
  exact ⟨payload, h1, h4, h5, h8⟩

/-! ## Properties: the range text -/

theorem jsNum_toJsString_natCast (n : Nat) :
    JsNum.toJsString (.fin (n : ℚ)) = String.mk (natDigits n) := by
  have h := toJsString_ofNat n
  simp only [toJsString, JsVal.ofNat] at h
  exact h

/-- C30. For a total of `t > 0` rows, a page size `L` among 10, 20 and 50 and
a page `p` with `1 ≤ p ≤ ⌈t / L⌉`, the text under the Products and Orders tables
is `"Showing a to b of t results"` with `a = (p - 1) * L + 1` and
`b = min (p * L) t`; these satisfy `1 ≤ a ≤ b ≤ t` and `b - a + 1 ≤ L`, and
`b = t` on the last page.  When the total is `0` the text is empty, whatever the
page and the page size. -/
theorem range_text (t p L : Nat) (ht : 0 < t) (hL : L = 10 ∨ L = 20 ∨ L = 50) (hp1 : 1 ≤ p)
    (hp2 : (p : ℤ) ≤ ⌈(t : ℚ) / (L : ℚ)⌉) :
    rangeStart (.fin p) (.fin L) = .fin (((p - 1) * L + 1 : Nat) : ℚ)
    ∧ rangeEnd (.fin t) (.fin p) (.fin L) = .fin ((min (p * L) t : Nat) : ℚ)
    ∧ rangeText (.fin t) (.fin p) (.fin L)
        = "Showing " ++ String.mk (natDigits ((p - 1) * L + 1)) ++ " to "
            ++ String.mk (natDigits (min (p * L) t)) ++ " of " ++ String.mk (natDigits t)
            ++ " results"
    ∧ 1 ≤ (p - 1) * L + 1
    ∧ (p - 1) * L + 1 ≤ min (p * L) t
    ∧ min (p * L) t ≤ t
    ∧ min (p * L) t - ((p - 1) * L + 1) + 1 ≤ L
    ∧ ((p : ℤ) = ⌈(t : ℚ) / (L : ℚ)⌉ → min (p * L) t = t)
    ∧ (∀ page limit : JsNum, rangeText (.fin 0) page limit = "") := by
  have hLpos : 0 < L := by rcases hL with h | h | h <;> omega
  have hLq : (0 : ℚ) < (L : ℚ) := by exact_mod_cast hLpos
  have hpL : p * L = (p - 1) * L + L := by
    obtain ⟨k, rfl⟩ : ∃ k, p = k + 1 := ⟨p - 1, by omega⟩
    simp [Nat.add_mul]
  have hkey : (p - 1) * L < t := by
    have h1 : ((p : ℤ) - 1) < ⌈(t : ℚ) / (L : ℚ)⌉ := by omega
    rw [Int.lt_ceil] at h1
    have h2 : (((p : ℤ) - 1 : ℤ) : ℚ) * (L : ℚ) < (t : ℚ) := by
      rwa [lt_div_iff₀ hLq] at h1
    have h3 : (((p - 1 : Nat) : ℚ)) = (((p : ℤ) - 1 : ℤ) : ℚ) := by
      push_cast [Nat.cast_sub hp1]; ring
    rw [← h3] at h2
    exact_mod_cast h2
  have hstart : rangeStart (.fin p) (.fin L) = .fin (((p - 1) * L + 1 : Nat) : ℚ) := by
    simp only [rangeStart, JsNum.sub, JsNum.neg, JsNum.add, JsNum.mul]
    congr 1
    push_cast [Nat.cast_sub hp1]; ring
  have hend : rangeEnd (.fin t) (.fin p) (.fin L) = .fin ((min (p * L) t : Nat) : ℚ) := by
    simp only [rangeEnd, JsNum.mul, mathMin, JsNum.lt]
    by_cases hle : p * L ≤ t
    · have hq : ¬ ((t : ℚ) < (p : ℚ) * (L : ℚ)) := by
        have : ((p * L : Nat) : ℚ) ≤ (t : ℚ) := by exact_mod_cast hle
        push_cast at this; linarith
      simp only [hq, decide_False, Bool.false_eq_true, if_false, Nat.min_eq_left hle]
      congr 1; push_cast; ring
    · have hlt : t < p * L := by omega
      have hq : (t : ℚ) < (p : ℚ) * (L : ℚ) := by
        have : (t : ℚ) < ((p * L : Nat) : ℚ) := by exact_mod_cast hlt
        push_cast at this; linarith
      simp only [hq, decide_True, if_true, Nat.min_eq_right (le_of_lt hlt)]
  have htq : (0 : ℚ) < (t : ℚ) := by exact_mod_cast ht
  refine ⟨hstart, hend, ?_, by omega, ?_, Nat.min_le_right _ _, ?_, ?_, ?_⟩
  · simp only [rangeText, JsNum.gt, JsNum.lt, htq, decide_True, if_true, hstart, hend,
      jsNum_toJsString_natCast]
  · rcases le_total (p * L) t with h | h
    · rw [Nat.min_eq_left h]; omega
    · rw [Nat.min_eq_right h]; omega
  · rcases le_total (p * L) t with h | h
    · rw [Nat.min_eq_left h]; omega
    · rw [Nat.min_eq_right h]; omega
  · intro hlast
    have h1 : (t : ℚ) / (L : ℚ) ≤ ((p : ℤ) : ℚ) := by
      rw [hlast]; exact Int.le_ceil _
    rw [div_le_iff₀ hLq] at h1
    have h2 : t ≤ p * L := by
      have : (t : ℚ) ≤ ((p * L : Nat) : ℚ) := by push_cast; exact_mod_cast h1
      exact_mod_cast this
    exact Nat.min_eq_right h2
  · intro page limit
    simp [rangeText, JsNum.gt, JsNum.lt]

/-- C30, at a concrete page: the third page of 25 rows, ten per page. -/
theorem range_text_witness :
    rangeText (.fin 25) (.fin 3) (.fin 10) = "Showing 21 to 25 of 25 results" := by
  have h := (range_text 25 3 10 (by decide) (Or.inl rfl) (by decide)
    (by rw [Int.le_ceil_iff]; norm_num)).2.2.1
  simpa using h

end AdminEcommerce
